import Mathlib

/-!
The package kontainerdrivermetadata: reconciliation of the driver metadata catalog.

A shallow embedding of `pkg/controllers/management/kontainerdrivermetadata/data.go`.

* A Go `map[string]V` that the code ranges over is a `GoMap V`: the list of its entries in the
  order the `range` loop visits them. A Go map holds one entry per key (`GoMap.WF`).
* The listers and clients of the `MetadataController` are functions over an explicit state `σ`;
  every call returns the new state next to its Go result.
* `recording` wraps a controller so that every call it receives is appended to a log, and
  `storeController` is the immediately consistent object store; `Settings` is the settings
  sink, with `storeSettings` its counterpart on the store.
* The payload types `v3.RKESystemImages`, `v3.KubernetesServicesOptions` and
  `v3.WindowsSystemImages` are declared outside this package; they are the type parameters
  `SI`, `SO`, `WSI`, and `reflect.DeepEqual` on them is their decidable equality.
-/

namespace Kdm

/-! ## Go values -/

/-- A Go `map[string]V`, as the list of its entries in iteration order. -/
abbrev GoMap (V : Type) := List (String × V)

/-- A Go map has one entry per key. -/
def GoMap.WF {V : Type} (m : GoMap V) : Prop := (m.map Prod.fst).Nodup

instance GoMap.decidableWF {V : Type} (m : GoMap V) : Decidable m.WF :=
  inferInstanceAs (Decidable (m.map Prod.fst).Nodup)

/-- The assignment `m[k] = v`: replaces the entry of `k`, or adds one. -/
def GoMap.set {V : Type} : GoMap V → String → V → GoMap V
  | [], k, v => [(k, v)]
  | (k', v') :: rest, k, v =>
    if k' = k then (k, v) :: rest else (k', v') :: GoMap.set rest k v

/-- The builtin `delete(m, k)`. -/
def GoMap.delete {V : Type} (m : GoMap V) (k : String) : GoMap V :=
  m.filter (fun e => decide (e.1 ≠ k))

/-- The keys of a map, in iteration order. -/
def GoMap.keys {V : Type} (m : GoMap V) : List String := m.map Prod.fst

/-- A Go `error` as far as the package looks at it: the three API status reasons that
`k8s.io/apimachinery/pkg/api/errors` tells apart, and any other error. -/
inductive GoError where
  | NotFound
  | AlreadyExists
  | Conflict
  | Other (msg : String)
deriving DecidableEq, Repr

/-- The test `errors.IsNotFound`. -/
def IsNotFound : GoError → Bool
  | .NotFound => true
  | _ => false

/-- The test `errors.IsAlreadyExists`. -/
def IsAlreadyExists : GoError → Bool
  | .AlreadyExists => true
  | _ => false

/-- The lower-casing of the sample inputs: it lowers the letters `A` to `Z`, which is what
`strings.ToLower` does on the names of the samples, all written in ASCII. -/
def sampleToLower (s : String) : String := ⟨s.data.map Char.toLower⟩

/-- Go's `a < b` on strings: lexicographic order, character by character. -/
def strLt (a b : String) : Bool := decide (a.data < b.data)

/-- The call `sort.Strings`: ascending order under `strLt`. -/
def sortStrings (l : List String) : List String :=
  l.insertionSort (fun a b => strLt b a = false)

/-- The call `strings.Split(s, ".")`, on the characters of `s`. -/
def splitDot : List Char → List (List Char)
  | [] => [[]]
  | c :: cs =>
    match splitDot cs with
    | [] => [[c]]
    | w :: ws => if c = '.' then [] :: w :: ws else (c :: w) :: ws

/-- A range loop whose body returns an error: the first error ends the loop and is returned. -/
def forEach {α σ : Type} (body : α → σ → Option GoError × σ) :
    List α → σ → Option GoError × σ
  | [], s => (none, s)
  | a :: rest, s =>
    match body a s with
    | (some err, s1) => (some err, s1)
    | (none, s1) => forEach body rest s1

/-! ## Constants of the package -/

def APIVersion : String := "management.cattle.io/v3"
def RancherVersionDev : String := "2.3"
def sendRKELabel : String := "io.cattle.rke_store"
def rkeSystemImageKind : String := "RkeK8sSystemImage"
def rkeServiceOptionKind : String := "RkeK8sServiceOption"
def rkeAddonKind : String := "RkeAddon"
def rkeWindowsSystemImageKind : String := "RkeK8sWindowsSystemImage"

/-- The package variable `existLabel`. -/
def existLabel : GoMap String := [(sendRKELabel, "false")]

/-! ## Objects -/

/-- The fields of `metav1.TypeMeta`. -/
structure TypeMeta where
  Kind : String
  APIVersion : String
deriving DecidableEq, Repr

/-- The fields of `metav1.ObjectMeta` that the package reads or writes. A nil label map is the
empty list: the package only reads it, deletes from it, or compares it with `existLabel`. -/
structure ObjectMeta where
  Name : String
  Namespace : String
  Labels : GoMap String
deriving DecidableEq, Repr

/-- The object `v3.RKEK8sSystemImage`. -/
structure RKEK8sSystemImage (SI : Type) extends TypeMeta, ObjectMeta where
  SystemImages : SI
deriving DecidableEq, Repr

/-- The object `v3.RKEK8sServiceOption`. -/
structure RKEK8sServiceOption (SO : Type) extends TypeMeta, ObjectMeta where
  ServiceOptions : SO
deriving DecidableEq, Repr

/-- The object `v3.RKEAddon`. -/
structure RKEAddon extends TypeMeta, ObjectMeta where
  Template : String
deriving DecidableEq, Repr

/-- The object `v3.RKEK8sWindowsSystemImage`. -/
structure RKEK8sWindowsSystemImage (WSI : Type) extends TypeMeta, ObjectMeta where
  SystemImages : WSI
deriving DecidableEq, Repr

/-- The struct `v3.K8sVersionInfo`. -/
structure K8sVersionInfo where
  MinRancherVersion : String
  MaxRancherVersion : String
  DeprecateRancherVersion : String
deriving DecidableEq, Repr

/-- The struct `Data`: the catalog handed to `createOrUpdateMetadata`, with the fields the
function reads. -/
structure Data (SI SO WSI : Type) where
  K8sVersionRKESystemImages : GoMap SI
  K8sVersionInfo : GoMap K8sVersionInfo
  K8sVersionServiceOptions : GoMap SO
  RancherDefaultK8sVersions : GoMap String
  K8sVersionedTemplates : GoMap (GoMap String)
  K8sVersionWindowsSystemImages : GoMap WSI
  K8sVersionWindowsServiceOptions : GoMap SO

/-- The six settings of `pkg/settings` that `SaveSettings` writes. -/
inductive Setting where
  | KubernetesVersionToSystemImages
  | KubernetesVersionsCurrent
  | KubernetesVersionToServiceOptions
  | KubernetesVersion
  | UIKubernetesSupportedVersions
  | UIKubernetesDefaultVersion
deriving DecidableEq, Repr

/-! ## The persistence interface -/

/-- A lister: `Get(namespace, name)`. -/
structure Lister (σ O : Type) where
  Get : σ → String → String → Except GoError O × σ

/-- A client: `Create(obj)` and `Update(obj)`; the object they return is not used. -/
structure Interface (σ O : Type) where
  Create : σ → O → Option GoError × σ
  Update : σ → O → Option GoError × σ

/-- The struct `MetadataController`: the listers and clients the package calls. -/
structure MetadataController (σ SI SO WSI : Type) where
  SystemImagesLister : Lister σ (RKEK8sSystemImage SI)
  SystemImages : Interface σ (RKEK8sSystemImage SI)
  ServiceOptionsLister : Lister σ (RKEK8sServiceOption SO)
  ServiceOptions : Interface σ (RKEK8sServiceOption SO)
  AddonsLister : Lister σ RKEAddon
  Addons : Interface σ RKEAddon
  WindowsSystemImagesLister : Lister σ (RKEK8sWindowsSystemImage WSI)
  WindowsSystemImages : Interface σ (RKEK8sWindowsSystemImage WSI)

/-- The settings sink: `settings.<Name>.Set(value)`. -/
structure Settings (σ : Type) where
  Set : Setting → σ → String → Option GoError × σ

/-- What the package reads from outside its own file: the constant `namespace.GlobalNamespace`,
the result of `GetRancherVersion()`, the vendor catalog `rke.DriverData`, the three-way result
`CompareSimple(Normalize(a), Normalize(b))` of the version library, `json.Marshal` on the
two maps `SaveSettings` serialises, and the function `strings.ToLower` of the Go standard
library, which lowers every Unicode letter: the properties hold for every such function. -/
structure Globals (SI SO WSI : Type) where
  ToLower : String → String
  GlobalNamespace : String
  GetRancherVersion : String
  DriverData : Data SI SO WSI
  CompareSimple : String → String → Int
  marshalCurrVersions : GoMap Unit → Except GoError String
  marshalSvcOptions : GoMap SO → Except GoError String

/-! ## Library functions the package calls -/

/-- Modelled from the spec: `util.GetTagMajorVersion` of `github.com/rancher/rke` is not under
src/. The spec's `majorVersionOf` extracts the `vX.Y` prefix of a full version: the first two
dot-separated fields, and the empty string when there are fewer than two. -/
def GetTagMajorVersion (tag : String) : String :=
  let splitTag := splitDot tag.data
  if splitTag.length < 2 then "" else ⟨List.intercalate ['.'] (splitTag.take 2)⟩

/-- Modelled from the spec: `CompareNormalized` of `github.com/mcuadros/go-version` is not under
src/. The spec's comparator has a three-way result with the derived predicates `gte`, `lt` and
`gt`; the library picks the predicate by an operator string, compared exactly, and answers
false for a string that names no operator. -/
def CompareNormalized (compare : Int) (operator : String) : Bool :=
  if operator = ">" ∨ operator = "gt" then decide (compare > 0)
  else if operator = ">=" ∨ operator = "ge" then decide (compare ≥ 0)
  else if operator = "<=" ∨ operator = "le" then decide (compare ≤ 0)
  else if operator = "==" ∨ operator = "=" ∨ operator = "eq" then decide (compare = 0)
  else if operator = "<>" ∨ operator = "!=" ∨ operator = "ne" then decide (compare ≠ 0)
  else if operator = "" ∨ operator = "<" ∨ operator = "lt" then decide (compare < 0)
  else false

section code

variable {σ SI SO WSI : Type} [DecidableEq SI] [DecidableEq SO] [DecidableEq WSI]

/-- The call `mVersion.Compare(version1, version2, operator)`. -/
def Compare (g : Globals SI SO WSI) (version1 version2 operator : String) : Bool :=
  CompareNormalized (g.CompareSimple version1 version2) operator

/-! ## The code of data.go -/

def toIgnoreForAllK8s (g : Globals SI SO WSI) (rancherVersionInfo : K8sVersionInfo)
    (rancherVersion : String) : Bool :=
  if rancherVersionInfo.DeprecateRancherVersion ≠ "" ∧
      Compare g rancherVersion rancherVersionInfo.DeprecateRancherVersion " >= " = true then
    true
  else if rancherVersionInfo.MinRancherVersion ≠ "" ∧
      Compare g rancherVersion rancherVersionInfo.MinRancherVersion "<" = true then
    true
  else
    false

def toIgnoreForK8sCurrent (g : Globals SI SO WSI) (majorVersionInfo : K8sVersionInfo)
    (rancherVersion : String) : Bool :=
  if majorVersionInfo.MaxRancherVersion ≠ "" ∧
      Compare g rancherVersion majorVersionInfo.MaxRancherVersion ">" = true then
    true
  else
    false

def getWindowsName (str : String) : String := "w" ++ str

def createOrUpdateSystemImageCRD (g : Globals SI SO WSI) (md : MetadataController σ SI SO WSI)
    (k8sVersion : String) (systemImages : SI) (s : σ) : Option GoError × σ :=
  match md.SystemImagesLister.Get s g.GlobalNamespace k8sVersion with
  | (.error err, s1) =>
    if IsNotFound err = false then (some err, s1)
    else
      let sysImage : RKEK8sSystemImage SI :=
        { Name := k8sVersion, Namespace := g.GlobalNamespace, Labels := [],
          SystemImages := systemImages,
          Kind := rkeSystemImageKind, APIVersion := APIVersion }
      match md.SystemImages.Create s1 sysImage with
      | (some err, s2) => if IsAlreadyExists err = false then (some err, s2) else (none, s2)
      | (none, s2) => (none, s2)
  | (.ok sysImage, s1) =>
    if sysImage.SystemImages = systemImages then (none, s1)
    else md.SystemImages.Update s1 { sysImage with SystemImages := systemImages }

def createOrUpdateWindowsSystemImageCRD (g : Globals SI SO WSI)
    (md : MetadataController σ SI SO WSI) (k8sVersion : String) (systemImages : WSI)
    (_windows : Bool) (s : σ) : Option GoError × σ :=
  match md.WindowsSystemImagesLister.Get s g.GlobalNamespace (getWindowsName k8sVersion) with
  | (.error err, s1) =>
    if IsNotFound err = false then (some err, s1)
    else
      let sysImage : RKEK8sWindowsSystemImage WSI :=
        { Name := getWindowsName k8sVersion, Namespace := g.GlobalNamespace, Labels := [],
          SystemImages := systemImages,
          Kind := rkeWindowsSystemImageKind, APIVersion := APIVersion }
      match md.WindowsSystemImages.Create s1 sysImage with
      | (some err, s2) => if IsAlreadyExists err = false then (some err, s2) else (none, s2)
      | (none, s2) => (none, s2)
  | (.ok sysImage, s1) =>
    if sysImage.SystemImages = systemImages then (none, s1)
    else md.WindowsSystemImages.Update s1 { sysImage with SystemImages := systemImages }

def createOrUpdateServiceOptionCRD (g : Globals SI SO WSI)
    (md : MetadataController σ SI SO WSI) (k8sVersion : String) (serviceOptions : SO)
    (rkeDataKeys : GoMap Bool) (s : σ) : Option GoError × σ :=
  match md.ServiceOptionsLister.Get s g.GlobalNamespace k8sVersion with
  | (res, s1) =>
    let exists_ := (rkeDataKeys.lookup k8sVersion).isSome
    match res with
    | .error err =>
      if IsNotFound err = false then (some err, s1)
      else
        let svcOption : RKEK8sServiceOption SO :=
          { Name := k8sVersion, Namespace := g.GlobalNamespace,
            Labels := if exists_ = true then existLabel else [],
            ServiceOptions := serviceOptions,
            Kind := rkeServiceOptionKind, APIVersion := APIVersion }
        match md.ServiceOptions.Create s1 svcOption with
        | (some err, s2) => if IsAlreadyExists err = false then (some err, s2) else (none, s2)
        | (none, s2) => (none, s2)
    | .ok svcOption =>
      if svcOption.ServiceOptions = serviceOptions then
        if svcOption.Labels = existLabel ∧ exists_ = true then (none, s1)
        else if exists_ = true then
          md.ServiceOptions.Update s1 { svcOption with Labels := existLabel }
        else
          md.ServiceOptions.Update s1
            { svcOption with Labels := svcOption.Labels.delete sendRKELabel }
      else
        md.ServiceOptions.Update s1 { svcOption with ServiceOptions := serviceOptions }

def createOrUpdateWindowsServiceOptionCRD (g : Globals SI SO WSI)
    (md : MetadataController σ SI SO WSI) (k8sVersion : String) (serviceOptions : SO)
    (s : σ) : Option GoError × σ :=
  match md.ServiceOptionsLister.Get s g.GlobalNamespace (getWindowsName k8sVersion) with
  | (.error err, s1) =>
    if IsNotFound err = false then (some err, s1)
    else
      let svcOption : RKEK8sServiceOption SO :=
        { Name := getWindowsName k8sVersion, Namespace := g.GlobalNamespace, Labels := [],
          ServiceOptions := serviceOptions,
          Kind := rkeServiceOptionKind, APIVersion := APIVersion }
      match md.ServiceOptions.Create s1 svcOption with
      | (some err, s2) => if IsAlreadyExists err = false then (some err, s2) else (none, s2)
      | (none, s2) => (none, s2)
  | (.ok svcOption, s1) =>
    if svcOption.ServiceOptions = serviceOptions then (none, s1)
    else md.ServiceOptions.Update s1 { svcOption with ServiceOptions := serviceOptions }

def getRKEVendorData (g : Globals SI SO WSI) (addonName : String) : GoMap Bool :=
  match g.DriverData.K8sVersionedTemplates.lookup addonName with
  | none => []
  | some templateData => templateData.foldl (fun keys e => keys.set e.1 true) []

def getRKEVendorOptions (g : Globals SI SO WSI) : GoMap Bool :=
  g.DriverData.K8sVersionServiceOptions.foldl (fun keys e => keys.set e.1 true) []

/-- The body of the range loop of `createOrUpdateAddonCRD`, for the entry
`k8sVersion, template` of `templateData`; `continue` and reaching the end of the body both
return no error. -/
def createOrUpdateAddonCRD.body (g : Globals SI SO WSI) (md : MetadataController σ SI SO WSI)
    (addonName : String) (rkeDataKeys : GoMap Bool) (e : String × String) (s : σ) :
    Option GoError × σ :=
  let k8sVersion := e.1
  let template := e.2
  let exists_ := (rkeDataKeys.lookup k8sVersion).isSome
  let name := g.ToLower addonName ++ "-" ++ k8sVersion
  match md.AddonsLister.Get s g.GlobalNamespace name with
  | (.error err, s1) =>
    if IsNotFound err = false then (some err, s1)
    else
      let addon : RKEAddon :=
        { Name := name, Namespace := g.GlobalNamespace,
          Labels := if exists_ = true then existLabel else [],
          Template := template,
          Kind := rkeAddonKind, APIVersion := APIVersion }
      match md.Addons.Create s1 addon with
      | (some err, s2) => if IsAlreadyExists err = false then (some err, s2) else (none, s2)
      | (none, s2) => (none, s2)
  | (.ok addon, s1) =>
    if addon.Template = template then
      if addon.Labels = existLabel ∧ exists_ = true then (none, s1)
      else if exists_ = true then
        md.Addons.Update s1 { addon with Labels := existLabel }
      else
        md.Addons.Update s1 { addon with Labels := addon.Labels.delete sendRKELabel }
    else (none, s1)

def createOrUpdateAddonCRD (g : Globals SI SO WSI) (md : MetadataController σ SI SO WSI)
    (addonName : String) (templateData : GoMap String) (s : σ) : Option GoError × σ :=
  let rkeDataKeys := getRKEVendorData g addonName
  forEach (createOrUpdateAddonCRD.body g md addonName rkeDataKeys) templateData s

def saveServiceOptions (g : Globals SI SO WSI) (md : MetadataController σ SI SO WSI)
    (K8sVersionServiceOptions : GoMap SO) (s : σ) : Option GoError × σ :=
  let rkeDataKeys := getRKEVendorOptions g
  forEach (fun e => createOrUpdateServiceOptionCRD g md e.1 e.2 rkeDataKeys)
    K8sVersionServiceOptions s

def saveAddons (g : Globals SI SO WSI) (md : MetadataController σ SI SO WSI)
    (K8sVersionedTemplates : GoMap (GoMap String)) (s : σ) : Option GoError × σ :=
  forEach (fun e => createOrUpdateAddonCRD g md e.1 e.2) K8sVersionedTemplates s

def saveWindowsInfo (g : Globals SI SO WSI) (md : MetadataController σ SI SO WSI)
    (K8sVersionWindowsSystemImages : GoMap WSI) (K8sVersionWindowsServiceOptions : GoMap SO)
    (s : σ) : Option GoError × σ :=
  match forEach (fun e => createOrUpdateWindowsSystemImageCRD g md e.1 e.2 true)
      K8sVersionWindowsSystemImages s with
  | (some err, s1) => (some err, s1)
  | (none, s1) =>
    forEach (fun e => createOrUpdateWindowsServiceOptionCRD g md e.1 e.2)
      K8sVersionWindowsServiceOptions s1

/-- The range loop of `saveSystemImages`: the map `maxVersionForMajorK8sVersion` built so far
is threaded through; an error of `createOrUpdateSystemImageCRD` ends the loop. (The slices
`deprecated` and `maxIgnore` are only logged and are left out.) -/
def saveSystemImages.loop (g : Globals SI SO WSI) (md : MetadataController σ SI SO WSI)
    (K8sVersionInfo : GoMap K8sVersionInfo) (rancherVersion : String) :
    List (String × SI) → GoMap String → σ → Except GoError (GoMap String) × σ
  | [], maxVersionForMajorK8sVersion, s => (.ok maxVersionForMajorK8sVersion, s)
  | (k8sVersion, systemImages) :: rest, maxVersionForMajorK8sVersion, s =>
    if (match K8sVersionInfo.lookup k8sVersion with
        | some rancherVersionInfo => toIgnoreForAllK8s g rancherVersionInfo rancherVersion
        | none => false) = true then
      saveSystemImages.loop g md K8sVersionInfo rancherVersion rest maxVersionForMajorK8sVersion s
    else
      match createOrUpdateSystemImageCRD g md k8sVersion systemImages s with
      | (some err, s1) => (.error err, s1)
      | (none, s1) =>
        let majorVersion := GetTagMajorVersion k8sVersion
        if (match K8sVersionInfo.lookup majorVersion with
            | some majorVersionInfo => toIgnoreForK8sCurrent g majorVersionInfo rancherVersion
            | none => false) = true then
          saveSystemImages.loop g md K8sVersionInfo rancherVersion rest
            maxVersionForMajorK8sVersion s1
        else if (match maxVersionForMajorK8sVersion.lookup majorVersion with
            | some curr => strLt curr k8sVersion
            | none => true) = true then
          saveSystemImages.loop g md K8sVersionInfo rancherVersion rest
            (maxVersionForMajorK8sVersion.set majorVersion k8sVersion) s1
        else
          saveSystemImages.loop g md K8sVersionInfo rancherVersion rest
            maxVersionForMajorK8sVersion s1

/-- The default Kubernetes version that `SaveSettings` resolves. -/
def SaveSettings.defaultK8sVersion (rancherDefaultK8sVersions : GoMap String)
    (rancherVersion : String) : String :=
  match rancherDefaultK8sVersions.lookup rancherVersion with
  | some defaultK8sVersion =>
    if defaultK8sVersion = "" then (rancherDefaultK8sVersions.lookup "default").getD ""
    else defaultK8sVersion
  | none => (rancherDefaultK8sVersions.lookup "default").getD ""

def SaveSettings (g : Globals SI SO WSI) (st : Settings σ) (k8sCurrVersions : GoMap Unit)
    (k8sVersionSvcOptions : GoMap SO) (rancherDefaultK8sVersions : GoMap String)
    (rancherVersion : String) (maxVersions : List String) (s : σ) : Option GoError × σ :=
  match g.marshalCurrVersions k8sCurrVersions with
  | .error err => (some err, s)
  | .ok k8sCurrVersionData =>
    let versions := sortStrings k8sCurrVersions.keys
    match st.Set .KubernetesVersionToSystemImages s k8sCurrVersionData with
    | (some err, s1) => (some err, s1)
    | (none, s1) =>
      match st.Set .KubernetesVersionsCurrent s1 (",".intercalate versions) with
      | (some err, s2) => (some err, s2)
      | (none, s2) =>
        match g.marshalSvcOptions k8sVersionSvcOptions with
        | .error err => (some err, s2)
        | .ok k8sSvcOptionData =>
          match st.Set .KubernetesVersionToServiceOptions s2 k8sSvcOptionData with
          | (some err, s3) => (some err, s3)
          | (none, s3) =>
            let defaultK8sVersion :=
              SaveSettings.defaultK8sVersion rancherDefaultK8sVersions rancherVersion
            match st.Set .KubernetesVersion s3 defaultK8sVersion with
            | (some err, s4) => (some err, s4)
            | (none, s4) =>
              match maxVersions with
              | [] => (none, s4)
              | minVersion :: _ =>
                let maxVersion := GetTagMajorVersion defaultK8sVersion
                let uiSupported := ">=" ++ minVersion ++ ".x <=" ++ maxVersion ++ ".x"
                let uiDefaultRange := "<=" ++ maxVersion ++ ".x"
                match st.Set .UIKubernetesSupportedVersions s4 uiSupported with
                | (some err, s5) => (some err, s5)
                | (none, s5) => st.Set .UIKubernetesDefaultVersion s5 uiDefaultRange

def updateSettings [Inhabited SO] (g : Globals SI SO WSI) (st : Settings σ)
    (maxVersionForMajorK8sVersion : GoMap String) (rancherVersion : String)
    (K8sVersionServiceOptions : GoMap SO) (DefaultK8sVersions : GoMap String) (s : σ) :
    Option GoError × σ :=
  let k8sVersionRKESystemImages : GoMap Unit :=
    maxVersionForMajorK8sVersion.foldl (fun m e => m.set e.2 ()) []
  let k8sVersionSvcOptions : GoMap SO :=
    maxVersionForMajorK8sVersion.foldl
      (fun m e => m.set e.2 ((K8sVersionServiceOptions.lookup e.1).getD default)) []
  let keys := sortStrings maxVersionForMajorK8sVersion.keys
  SaveSettings g st k8sVersionRKESystemImages k8sVersionSvcOptions DefaultK8sVersions
    rancherVersion keys s

def saveSystemImages [Inhabited SO] (g : Globals SI SO WSI) (st : Settings σ)
    (md : MetadataController σ SI SO WSI) (K8sVersionRKESystemImages : GoMap SI)
    (K8sVersionInfo : GoMap K8sVersionInfo) (ServiceOptions : GoMap SO)
    (DefaultK8sVersions : GoMap String) (s : σ) : Option GoError × σ :=
  let rancherVersion := g.GetRancherVersion
  match saveSystemImages.loop g md K8sVersionInfo rancherVersion K8sVersionRKESystemImages [] s
    with
  | (.error err, s1) => (some err, s1)
  | (.ok maxVersionForMajorK8sVersion, s1) =>
    updateSettings g st maxVersionForMajorK8sVersion rancherVersion ServiceOptions
      DefaultK8sVersions s1

def createOrUpdateMetadata [Inhabited SO] (g : Globals SI SO WSI) (st : Settings σ)
    (md : MetadataController σ SI SO WSI) (data : Data SI SO WSI) (s : σ) :
    Option GoError × σ :=
  match saveSystemImages g st md data.K8sVersionRKESystemImages data.K8sVersionInfo
      data.K8sVersionServiceOptions data.RancherDefaultK8sVersions s with
  | (some err, s1) => (some err, s1)
  | (none, s1) =>
    match saveServiceOptions g md data.K8sVersionServiceOptions s1 with
    | (some err, s2) => (some err, s2)
    | (none, s2) =>
      match saveAddons g md data.K8sVersionedTemplates s2 with
      | (some err, s3) => (some err, s3)
      | (none, s3) =>
        saveWindowsInfo g md data.K8sVersionWindowsSystemImages
          data.K8sVersionWindowsServiceOptions s3

end code

/-! ## Recording the calls -/

/-- One call on the persistence interface or on the settings sink. -/
inductive Call (SI SO WSI : Type) where
  | GetSystemImage (ns name : String)
  | CreateSystemImage (obj : RKEK8sSystemImage SI)
  | UpdateSystemImage (obj : RKEK8sSystemImage SI)
  | GetServiceOption (ns name : String)
  | CreateServiceOption (obj : RKEK8sServiceOption SO)
  | UpdateServiceOption (obj : RKEK8sServiceOption SO)
  | GetAddon (ns name : String)
  | CreateAddon (obj : RKEAddon)
  | UpdateAddon (obj : RKEAddon)
  | GetWindowsSystemImage (ns name : String)
  | CreateWindowsSystemImage (obj : RKEK8sWindowsSystemImage WSI)
  | UpdateWindowsSystemImage (obj : RKEK8sWindowsSystemImage WSI)
  | SetSetting (setting : Setting) (value : String)
deriving DecidableEq, Repr

/-- Whether a call is a `Create` on one of the clients. -/
def Call.isCreate {SI SO WSI : Type} : Call SI SO WSI → Bool
  | .CreateSystemImage _ => true
  | .CreateServiceOption _ => true
  | .CreateAddon _ => true
  | .CreateWindowsSystemImage _ => true
  | _ => false

/-- A lister that appends every `Get` it receives to the log. -/
def Lister.recording {σ O C : Type} (get : String → String → C) (l : Lister σ O) :
    Lister (σ × List C) O where
  Get := fun s ns name => ((l.Get s.1 ns name).1, ((l.Get s.1 ns name).2, s.2 ++ [get ns name]))

/-- A client that appends every `Create` and `Update` it receives to the log. -/
def Interface.recording {σ O C : Type} (create update : O → C) (i : Interface σ O) :
    Interface (σ × List C) O where
  Create := fun s obj => ((i.Create s.1 obj).1, ((i.Create s.1 obj).2, s.2 ++ [create obj]))
  Update := fun s obj => ((i.Update s.1 obj).1, ((i.Update s.1 obj).2, s.2 ++ [update obj]))

/-- The controller `md` with every call appended to a log kept next to the state. -/
def recording {σ SI SO WSI : Type} (md : MetadataController σ SI SO WSI) :
    MetadataController (σ × List (Call SI SO WSI)) SI SO WSI where
  SystemImagesLister := md.SystemImagesLister.recording .GetSystemImage
  SystemImages := md.SystemImages.recording .CreateSystemImage .UpdateSystemImage
  ServiceOptionsLister := md.ServiceOptionsLister.recording .GetServiceOption
  ServiceOptions := md.ServiceOptions.recording .CreateServiceOption .UpdateServiceOption
  AddonsLister := md.AddonsLister.recording .GetAddon
  Addons := md.Addons.recording .CreateAddon .UpdateAddon
  WindowsSystemImagesLister := md.WindowsSystemImagesLister.recording .GetWindowsSystemImage
  WindowsSystemImages :=
    md.WindowsSystemImages.recording .CreateWindowsSystemImage .UpdateWindowsSystemImage

/-- The settings sink `st` with every `Set` appended to the log. -/
def Settings.recording {σ SI SO WSI : Type} (st : Settings σ) :
    Settings (σ × List (Call SI SO WSI)) where
  Set := fun setting s value =>
    ((st.Set setting s.1 value).1,
      ((st.Set setting s.1 value).2, s.2 ++ [.SetSetting setting value]))

/-! ## The immediately consistent store -/

/-- The persisted objects, by namespace and name, and the values of the settings. -/
structure Cluster (SI SO WSI : Type) where
  SystemImages : String × String → Option (RKEK8sSystemImage SI)
  ServiceOptions : String × String → Option (RKEK8sServiceOption SO)
  Addons : String × String → Option RKEAddon
  WindowsSystemImages : String × String → Option (RKEK8sWindowsSystemImage WSI)
  Settings : Setting → Option String

/-- The cluster with no object and no setting. -/
def Cluster.empty {SI SO WSI : Type} : Cluster SI SO WSI :=
  { SystemImages := fun _ => none, ServiceOptions := fun _ => none, Addons := fun _ => none,
    WindowsSystemImages := fun _ => none, Settings := fun _ => none }

/-- A lookup in a store: the object, or `NotFound`. -/
def storeGet {O : Type} (store : String × String → Option O) (ns name : String) :
    Except GoError O :=
  match store (ns, name) with
  | some obj => .ok obj
  | none => .error .NotFound

/-- A create on a store: `AlreadyExists` when the key is taken, else the object is stored. -/
def storeCreate {O : Type} (store : String × String → Option O) (key : String × String)
    (obj : O) : Option GoError × (String × String → Option O) :=
  match store key with
  | some _ => (some .AlreadyExists, store)
  | none => (none, Function.update store key (some obj))

/-- An update on a store: `NotFound` when the key is free, else the object is replaced. -/
def storeUpdate {O : Type} (store : String × String → Option O) (key : String × String)
    (obj : O) : Option GoError × (String × String → Option O) :=
  match store key with
  | some _ => (none, Function.update store key (some obj))
  | none => (some .NotFound, store)

/-- The controller whose listers and clients act on a `Cluster` at once: a `Get` sees every
earlier `Create` and `Update`. -/
def storeController {SI SO WSI : Type} : MetadataController (Cluster SI SO WSI) SI SO WSI where
  SystemImagesLister := ⟨fun c ns name => (storeGet c.SystemImages ns name, c)⟩
  SystemImages :=
    ⟨fun c obj => ((storeCreate c.SystemImages (obj.Namespace, obj.Name) obj).1,
        { c with SystemImages := (storeCreate c.SystemImages (obj.Namespace, obj.Name) obj).2 }),
      fun c obj => ((storeUpdate c.SystemImages (obj.Namespace, obj.Name) obj).1,
        { c with SystemImages := (storeUpdate c.SystemImages (obj.Namespace, obj.Name) obj).2 })⟩
  ServiceOptionsLister := ⟨fun c ns name => (storeGet c.ServiceOptions ns name, c)⟩
  ServiceOptions :=
    ⟨fun c obj => ((storeCreate c.ServiceOptions (obj.Namespace, obj.Name) obj).1,
        { c with
          ServiceOptions := (storeCreate c.ServiceOptions (obj.Namespace, obj.Name) obj).2 }),
      fun c obj => ((storeUpdate c.ServiceOptions (obj.Namespace, obj.Name) obj).1,
        { c with
          ServiceOptions := (storeUpdate c.ServiceOptions (obj.Namespace, obj.Name) obj).2 })⟩
  AddonsLister := ⟨fun c ns name => (storeGet c.Addons ns name, c)⟩
  Addons :=
    ⟨fun c obj => ((storeCreate c.Addons (obj.Namespace, obj.Name) obj).1,
        { c with Addons := (storeCreate c.Addons (obj.Namespace, obj.Name) obj).2 }),
      fun c obj => ((storeUpdate c.Addons (obj.Namespace, obj.Name) obj).1,
        { c with Addons := (storeUpdate c.Addons (obj.Namespace, obj.Name) obj).2 })⟩
  WindowsSystemImagesLister := ⟨fun c ns name => (storeGet c.WindowsSystemImages ns name, c)⟩
  WindowsSystemImages :=
    ⟨fun c obj => ((storeCreate c.WindowsSystemImages (obj.Namespace, obj.Name) obj).1,
        { c with
          WindowsSystemImages :=
            (storeCreate c.WindowsSystemImages (obj.Namespace, obj.Name) obj).2 }),
      fun c obj => ((storeUpdate c.WindowsSystemImages (obj.Namespace, obj.Name) obj).1,
        { c with
          WindowsSystemImages :=
            (storeUpdate c.WindowsSystemImages (obj.Namespace, obj.Name) obj).2 })⟩

/-- The settings sink of a `Cluster`: `Set` stores the value and succeeds. -/
def storeSettings {SI SO WSI : Type} : Settings (Cluster SI SO WSI) where
  Set := fun setting c value =>
    (none, { c with Settings := Function.update c.Settings setting (some value) })

/-! ## Sample inputs -/

/-- A three-way comparison for the samples: the order of `strLt`, which is the order of the
version library on the one-digit versions `2.2` to `2.5` used below. -/
def sampleCompare (a b : String) : Int :=
  if strLt a b = true then -1 else if strLt b a = true then 1 else 0

/-- Sample globals: management-plane version `2.4`, and a vendor catalog that holds version
`v1.18.9` for system images, service options and the addon `Cleanup`. The stand-in for
`json.Marshal` lists the keys of a map in sorted order. -/
def sampleGlobals : Globals String String String :=
  { ToLower := sampleToLower
    GlobalNamespace := "cattle-global-data"
    GetRancherVersion := "2.4"
    DriverData :=
      { K8sVersionRKESystemImages := [("v1.18.9", "images")]
        K8sVersionInfo := []
        K8sVersionServiceOptions := [("v1.18.9", "options")]
        RancherDefaultK8sVersions := []
        K8sVersionedTemplates := [("Cleanup", [("v1.18.9", "template")])]
        K8sVersionWindowsSystemImages := []
        K8sVersionWindowsServiceOptions := [] }
    CompareSimple := sampleCompare
    marshalCurrVersions := fun m => .ok (",".intercalate (sortStrings m.keys))
    marshalSvcOptions := fun m => .ok (",".intercalate (sortStrings m.keys)) }

/-- The empty cluster of the samples. -/
def sampleEmpty : Cluster String String String := Cluster.empty

/-- The store controller of the samples. -/
def sampleStore : MetadataController (Cluster String String String) String String String :=
  storeController

/-- The settings sink of the samples. -/
def sampleSettings : Settings (Cluster String String String) := storeSettings

/-- A cluster whose only object is the addon `cleanup-v1.18.9` with template `old`. -/
def clusterOldAddon : Cluster String String String :=
  { sampleEmpty with
    Addons := fun key =>
      if key = ("cattle-global-data", "cleanup-v1.18.9") then
        some { Name := "cleanup-v1.18.9", Namespace := "cattle-global-data",
               Labels := existLabel, Template := "old",
               Kind := rkeAddonKind, APIVersion := APIVersion }
      else none }

/-! ## Notions used to state the properties -/

/-- Whether the loop of `saveSystemImages` skips the entry of `k8sVersion`: its own record
exists and `toIgnoreForAllK8s` holds for it. -/
def skipsEntry {SI SO WSI : Type} (g : Globals SI SO WSI) (K8sVersionInfo : GoMap K8sVersionInfo)
    (rancherVersion k8sVersion : String) : Bool :=
  match K8sVersionInfo.lookup k8sVersion with
  | some rancherVersionInfo => toIgnoreForAllK8s g rancherVersionInfo rancherVersion
  | none => false

/-- Whether the loop of `saveSystemImages` keeps the versions of `majorVersion` out of the
current versions: the record of the major version exists and `toIgnoreForK8sCurrent` holds
for it. -/
def excludesMajor {SI SO WSI : Type} (g : Globals SI SO WSI)
    (K8sVersionInfo : GoMap K8sVersionInfo) (rancherVersion majorVersion : String) : Bool :=
  match K8sVersionInfo.lookup majorVersion with
  | some majorVersionInfo => toIgnoreForK8sCurrent g majorVersionInfo rancherVersion
  | none => false

/-- Membership of `k8sVersion` in the candidate set of `majorVersion`: the entry is not
skipped, its major version is `majorVersion`, and that major version is not excluded. -/
def isCandidate {SI SO WSI : Type} (g : Globals SI SO WSI) (K8sVersionInfo : GoMap K8sVersionInfo)
    (rancherVersion majorVersion k8sVersion : String) : Bool :=
  !skipsEntry g K8sVersionInfo rancherVersion k8sVersion &&
    decide (GetTagMajorVersion k8sVersion = majorVersion) &&
    !excludesMajor g K8sVersionInfo rancherVersion (GetTagMajorVersion k8sVersion)

/-- The running maximum under `strLt`, from a current value over a list. -/
def pickMax : Option String → List String → Option String
  | cur, [] => cur
  | none, v :: vs => pickMax (some v) vs
  | some c, v :: vs => pickMax (some (if strLt c v = true then v else c)) vs

/-! ## The effect of a step on the store -/

/-- The decision a step takes about the object under its key: the object it creates when
there is none, and, for the object it finds, the object it submits to `Update`, if any. -/
structure Upsert (O : Type) where
  create : O
  update : O → Option O

/-- The object under the key after the step. -/
def Upsert.target {O : Type} (u : Upsert O) : Option O → O
  | none => u.create
  | some obj => (u.update obj).getD obj

/-- The store after the step on `key`. -/
def Upsert.apply {O : Type} (u : Upsert O) (key : String × String)
    (store : String × String → Option O) : String × String → Option O :=
  Function.update store key (some (u.target (store key)))

/-- The calls of the step, given what the store holds under the key. -/
def Upsert.calls {O C : Type} (u : Upsert O) (get : C) (create update : O → C) :
    Option O → List C
  | none => [get, create u.create]
  | some obj =>
    match u.update obj with
    | none => [get]
    | some obj' => [get, update obj']

/-- The decision of `createOrUpdateSystemImageCRD`. -/
def systemImageUpsert {SI SO WSI : Type} [DecidableEq SI] (g : Globals SI SO WSI)
    (k8sVersion : String) (systemImages : SI) : Upsert (RKEK8sSystemImage SI) where
  create :=
    { Name := k8sVersion, Namespace := g.GlobalNamespace, Labels := [],
      SystemImages := systemImages, Kind := rkeSystemImageKind, APIVersion := APIVersion }
  update := fun obj =>
    if obj.SystemImages = systemImages then none
    else some { obj with SystemImages := systemImages }

/-- The decision of `createOrUpdateWindowsSystemImageCRD`. -/
def windowsSystemImageUpsert {SI SO WSI : Type} [DecidableEq WSI] (g : Globals SI SO WSI)
    (k8sVersion : String) (systemImages : WSI) : Upsert (RKEK8sWindowsSystemImage WSI) where
  create :=
    { Name := getWindowsName k8sVersion, Namespace := g.GlobalNamespace, Labels := [],
      SystemImages := systemImages, Kind := rkeWindowsSystemImageKind,
      APIVersion := APIVersion }
  update := fun obj =>
    if obj.SystemImages = systemImages then none
    else some { obj with SystemImages := systemImages }

/-- The decision of `createOrUpdateServiceOptionCRD`; `exists_` tells whether the version is
a key of `rkeDataKeys`. -/
def serviceOptionUpsert {SI SO WSI : Type} [DecidableEq SO] (g : Globals SI SO WSI)
    (k8sVersion : String) (serviceOptions : SO) (exists_ : Bool) :
    Upsert (RKEK8sServiceOption SO) where
  create :=
    { Name := k8sVersion, Namespace := g.GlobalNamespace,
      Labels := if exists_ = true then existLabel else [],
      ServiceOptions := serviceOptions, Kind := rkeServiceOptionKind,
      APIVersion := APIVersion }
  update := fun obj =>
    if obj.ServiceOptions = serviceOptions then
      if obj.Labels = existLabel ∧ exists_ = true then none
      else if exists_ = true then some { obj with Labels := existLabel }
      else some { obj with Labels := obj.Labels.delete sendRKELabel }
    else some { obj with ServiceOptions := serviceOptions }

/-- The decision of `createOrUpdateWindowsServiceOptionCRD`. -/
def windowsServiceOptionUpsert {SI SO WSI : Type} [DecidableEq SO] (g : Globals SI SO WSI)
    (k8sVersion : String) (serviceOptions : SO) : Upsert (RKEK8sServiceOption SO) where
  create :=
    { Name := getWindowsName k8sVersion, Namespace := g.GlobalNamespace, Labels := [],
      ServiceOptions := serviceOptions, Kind := rkeServiceOptionKind,
      APIVersion := APIVersion }
  update := fun obj =>
    if obj.ServiceOptions = serviceOptions then none
    else some { obj with ServiceOptions := serviceOptions }

/-- The decision of the loop body of `createOrUpdateAddonCRD`. -/
def addonUpsert {SI SO WSI : Type} (g : Globals SI SO WSI) (addonName k8sVersion : String)
    (template : String) (exists_ : Bool) : Upsert RKEAddon where
  create :=
    { Name := g.ToLower addonName ++ "-" ++ k8sVersion, Namespace := g.GlobalNamespace,
      Labels := if exists_ = true then existLabel else [],
      Template := template, Kind := rkeAddonKind, APIVersion := APIVersion }
  update := fun obj =>
    if obj.Template = template then
      if obj.Labels = existLabel ∧ exists_ = true then none
      else if exists_ = true then some { obj with Labels := existLabel }
      else some { obj with Labels := obj.Labels.delete sendRKELabel }
    else none

/-- A store is well keyed when every object is held under its own namespace and name. -/
def WellKeyed {O : Type} (key : O → String × String) (store : String × String → Option O) :
    Prop :=
  ∀ k obj, store k = some obj → key obj = k

/-- The stores of a cluster are well keyed. -/
def Cluster.WF {SI SO WSI : Type} (c : Cluster SI SO WSI) : Prop :=
  WellKeyed (fun obj => (obj.Namespace, obj.Name)) c.SystemImages ∧
  WellKeyed (fun obj => (obj.Namespace, obj.Name)) c.ServiceOptions ∧
  WellKeyed (fun obj => (obj.Namespace, obj.Name)) c.Addons ∧
  WellKeyed (fun obj => (obj.Namespace, obj.Name)) c.WindowsSystemImages

/-- A step with its key. -/
abbrev Action (O : Type) := (String × String) × Upsert O

/-- The store after a sequence of steps. -/
def applyAll {O : Type} (acts : List (Action O)) (store : String × String → Option O) :
    String × String → Option O :=
  acts.foldl (fun store a => a.2.apply a.1 store) store

/-- The calls of a sequence of steps, starting from `store`. -/
def callsAll {O C : Type} (get : String → String → C) (create update : O → C) :
    List (Action O) → (String × String → Option O) → List C
  | [], _ => []
  | a :: rest, store =>
    a.2.calls (get a.1.1 a.1.2) create update (store a.1) ++
      callsAll get create update rest (a.2.apply a.1 store)

/-- A step keeps a store well keyed: the object it creates lies under the key of the step,
and the object it submits to `Update` has the namespace and name of the object found. -/
def Action.KeyOK {O : Type} (key : O → String × String) (a : Action O) : Prop :=
  key a.2.create = a.1 ∧ ∀ obj obj', a.2.update obj = some obj' → key obj' = key obj

/-- The step of `saveSystemImages` for a catalog entry. -/
def systemImageAction {SI SO WSI : Type} [DecidableEq SI] (g : Globals SI SO WSI)
    (e : String × SI) : Action (RKEK8sSystemImage SI) :=
  ((g.GlobalNamespace, e.1), systemImageUpsert g e.1 e.2)

/-- The step of `saveServiceOptions` for a catalog entry. -/
def serviceOptionAction {SI SO WSI : Type} [DecidableEq SO] (g : Globals SI SO WSI)
    (rkeDataKeys : GoMap Bool) (e : String × SO) : Action (RKEK8sServiceOption SO) :=
  ((g.GlobalNamespace, e.1), serviceOptionUpsert g e.1 e.2 (rkeDataKeys.lookup e.1).isSome)

/-- The step of `saveWindowsInfo` for an entry of the Windows system images. -/
def windowsSystemImageAction {SI SO WSI : Type} [DecidableEq WSI] (g : Globals SI SO WSI)
    (e : String × WSI) : Action (RKEK8sWindowsSystemImage WSI) :=
  ((g.GlobalNamespace, getWindowsName e.1), windowsSystemImageUpsert g e.1 e.2)

/-- The step of `saveWindowsInfo` for an entry of the Windows service options. -/
def windowsServiceOptionAction {SI SO WSI : Type} [DecidableEq SO] (g : Globals SI SO WSI)
    (e : String × SO) : Action (RKEK8sServiceOption SO) :=
  ((g.GlobalNamespace, getWindowsName e.1), windowsServiceOptionUpsert g e.1 e.2)

/-- The step of `createOrUpdateAddonCRD` for an entry of the templates of `addonName`. -/
def addonAction {SI SO WSI : Type} (g : Globals SI SO WSI) (addonName : String)
    (e : String × String) : Action RKEAddon :=
  ((g.GlobalNamespace, g.ToLower addonName ++ "-" ++ e.1),
    addonUpsert g addonName e.1 e.2 ((getRKEVendorData g addonName).lookup e.1).isSome)

/-- The steps of `saveAddons`, in the order of the two nested range loops. -/
def addonActions {SI SO WSI : Type} (g : Globals SI SO WSI)
    (K8sVersionedTemplates : GoMap (GoMap String)) : List (Action RKEAddon) :=
  K8sVersionedTemplates.flatMap (fun a => a.2.map (addonAction g a.1))

/-- The map `maxVersionForMajorK8sVersion` that the loop of `saveSystemImages` builds when no
step fails. -/
def representatives {SI SO WSI : Type} (g : Globals SI SO WSI)
    (K8sVersionInfo : GoMap K8sVersionInfo) (rancherVersion : String) :
    List String → GoMap String → GoMap String
  | [], m => m
  | k8sVersion :: rest, m =>
    if skipsEntry g K8sVersionInfo rancherVersion k8sVersion = true then
      representatives g K8sVersionInfo rancherVersion rest m
    else if excludesMajor g K8sVersionInfo rancherVersion (GetTagMajorVersion k8sVersion) = true
    then representatives g K8sVersionInfo rancherVersion rest m
    else if (match m.lookup (GetTagMajorVersion k8sVersion) with
        | some curr => strLt curr k8sVersion
        | none => true) = true then
      representatives g K8sVersionInfo rancherVersion rest
        (m.set (GetTagMajorVersion k8sVersion) k8sVersion)
    else representatives g K8sVersionInfo rancherVersion rest m

/-- The values that the calls of a log write to `setting`, in order. -/
def writesTo {SI SO WSI : Type} (setting : Setting) (log : List (Call SI SO WSI)) :
    List String :=
  log.filterMap fun call =>
    match call with
    | .SetSetting setting' value => if setting' = setting then some value else none
    | _ => none

/-- The writes of `SaveSettings` in order, when no `Set` fails: a failing `json.Marshal` ends
the sequence. -/
def settingsWrites {SI SO WSI : Type} (g : Globals SI SO WSI) (k8sCurrVersions : GoMap Unit)
    (k8sVersionSvcOptions : GoMap SO) (rancherDefaultK8sVersions : GoMap String)
    (rancherVersion : String) (maxVersions : List String) : List (Setting × String) :=
  match g.marshalCurrVersions k8sCurrVersions with
  | .error _ => []
  | .ok k8sCurrVersionData =>
    (Setting.KubernetesVersionToSystemImages, k8sCurrVersionData) ::
    (Setting.KubernetesVersionsCurrent, ",".intercalate (sortStrings k8sCurrVersions.keys)) ::
    match g.marshalSvcOptions k8sVersionSvcOptions with
    | .error _ => []
    | .ok k8sSvcOptionData =>
      (Setting.KubernetesVersionToServiceOptions, k8sSvcOptionData) ::
      (Setting.KubernetesVersion,
        SaveSettings.defaultK8sVersion rancherDefaultK8sVersions rancherVersion) ::
      match maxVersions with
      | [] => []
      | minVersion :: _ =>
        [(Setting.UIKubernetesSupportedVersions,
            ">=" ++ minVersion ++ ".x <=" ++
              GetTagMajorVersion
                (SaveSettings.defaultK8sVersion rancherDefaultK8sVersions rancherVersion) ++
              ".x"),
          (Setting.UIKubernetesDefaultVersion,
            "<=" ++
              GetTagMajorVersion
                (SaveSettings.defaultK8sVersion rancherDefaultK8sVersions rancherVersion) ++
              ".x")]

/-- The sample globals with management-plane version `2.5`. -/
def sampleGlobals25 : Globals String String String :=
  { sampleGlobals with GetRancherVersion := "2.5" }

/-- The sample globals with management-plane version `2.3`. -/
def sampleGlobals23 : Globals String String String :=
  { sampleGlobals with GetRancherVersion := "2.3" }

/-- Two nested maps hold the same entries: the second lists the addons of the first in another
order, each with its templates in another order. -/
def Reordered (K K' : GoMap (GoMap String)) : Prop :=
  ∃ K'' : GoMap (GoMap String),
    K.Perm K'' ∧ List.Forall₂ (fun a b => a.1 = b.1 ∧ a.2.Perm b.2) K'' K'

/-- The object names `strings.ToLower(addonName) + "-" + version` of the entries of the addon
templates, in the order of the loops. -/
def addonNames {SI SO WSI : Type} (g : Globals SI SO WSI)
    (K8sVersionedTemplates : GoMap (GoMap String)) : List String :=
  K8sVersionedTemplates.flatMap fun a => a.2.map fun e => g.ToLower a.1 ++ "-" ++ e.1

/-- Two addons whose names differ only in letter case, with one version each. -/
def sampleAddonsA : GoMap (GoMap String) :=
  [("Cleanup", [("v1.18.9", "a")]), ("cleanup", [("v1.18.9", "b")])]

/-- The map `sampleAddonsA` in the other iteration order. -/
def sampleAddonsB : GoMap (GoMap String) :=
  [("cleanup", [("v1.18.9", "b")]), ("Cleanup", [("v1.18.9", "a")])]

/-- A cluster whose only object is the service option `v1.18.9` with another payload and no
label. -/
def clusterStaleOption : Cluster String String String :=
  { sampleEmpty with
    ServiceOptions := fun key =>
      if key = ("cattle-global-data", "v1.18.9") then
        some { Name := "v1.18.9", Namespace := "cattle-global-data", Labels := [],
               ServiceOptions := "old", Kind := rkeServiceOptionKind,
               APIVersion := APIVersion }
      else none }

/-- The writes of a list in order on a settings sink: the first `Set` that fails ends the
sequence with its error. -/
def writeAll {σ : Type} (st : Settings σ) : List (Setting × String) → σ → Option GoError × σ :=
  forEach (fun p s => st.Set p.1 s p.2)

/-- The error of `json.Marshal` in `SaveSettings`, if one of the two calls fails. -/
def marshalError {SI SO WSI : Type} (g : Globals SI SO WSI) (k8sCurrVersions : GoMap Unit)
    (k8sVersionSvcOptions : GoMap SO) : Option GoError :=
  match g.marshalCurrVersions k8sCurrVersions with
  | .error err => some err
  | .ok _ =>
    match g.marshalSvcOptions k8sVersionSvcOptions with
    | .error err => some err
    | .ok _ => none

/-- A cluster with no object, whose two range settings hold the value `old`. -/
def clusterOldRanges : Cluster String String String :=
  { sampleEmpty with
    Settings := fun setting =>
      if setting = .UIKubernetesSupportedVersions ∨ setting = .UIKubernetesDefaultVersion then
        some "old"
      else none }

/-- Version records that close the major version `v1.18` at management-plane version `2.3`. -/
def infoMax23 : GoMap K8sVersionInfo :=
  [("v1.18", { MinRancherVersion := "", MaxRancherVersion := "2.3",
               DeprecateRancherVersion := "" })]

/-- A cluster whose only object is the service option `v1.18.9` with payload `old` and the
labels `owner = ops` and `io.cattle.rke_store = true`. -/
def clusterLabelledOption : Cluster String String String :=
  { sampleEmpty with
    ServiceOptions := fun key =>
      if key = ("cattle-global-data", "v1.18.9") then
        some { Name := "v1.18.9", Namespace := "cattle-global-data",
               Labels := [("owner", "ops"), (sendRKELabel, "true")],
               ServiceOptions := "old", Kind := rkeServiceOptionKind,
               APIVersion := APIVersion }
      else none }

/-- The name of the object that a call reads or writes; a write to a setting names no
object. -/
def Call.name {SI SO WSI : Type} : Call SI SO WSI → String
  | .GetSystemImage _ name => name
  | .CreateSystemImage obj => obj.Name
  | .UpdateSystemImage obj => obj.Name
  | .GetServiceOption _ name => name
  | .CreateServiceOption obj => obj.Name
  | .UpdateServiceOption obj => obj.Name
  | .GetAddon _ name => name
  | .CreateAddon obj => obj.Name
  | .UpdateAddon obj => obj.Name
  | .GetWindowsSystemImage _ name => name
  | .CreateWindowsSystemImage obj => obj.Name
  | .UpdateWindowsSystemImage obj => obj.Name
  | .SetSetting _ _ => ""

/-- How a step for one catalog entry treats the errors of its calls, given the lister and the
client it uses, the `Get` it submits from the state `s`, and its result `step` with the log of
its calls: (a) an error of the `Get` other than `NotFound` is returned and the `Get` is the
only call; (b) after `NotFound` the step submits one `Create`, and returns no error when the
`Create` fails with `AlreadyExists`, (c) and the error of the `Create` when it fails with any
other error; (d) when the `Get` finds an object and the step submits an `Update`, the step
returns what the `Update` returns. -/
def ErrorClassified {σ O C : Type} (lister : Lister σ O) (client : Interface σ O)
    (ns name : String) (getC : String → String → C) (createC updateC : O → C) (s : σ)
    (step : Option GoError × (σ × List C)) : Prop :=
  (∀ err s1, lister.Get s ns name = (.error err, s1) → IsNotFound err = false →
    step = (some err, (s1, [getC ns name]))) ∧
  (∀ err s1, lister.Get s ns name = (.error err, s1) → IsNotFound err = true →
    ∃ obj : O, step.2.2 = [getC ns name, createC obj] ∧
      ((client.Create s1 obj).1 = some .AlreadyExists → step.1 = none) ∧
      (∀ e, (client.Create s1 obj).1 = some e → IsAlreadyExists e = false →
        step.1 = some e)) ∧
  (∀ obj s1, lister.Get s ns name = (.ok obj, s1) →
    ∀ obj', updateC obj' ∈ step.2.2 → step.1 = (client.Update s1 obj').1)

/-- A controller whose lister of system images answers from a stale cache: every `Get` is
`NotFound` while every `Create` fails with `AlreadyExists`; an `Update` fails with
`Conflict`. The other kinds act on the store. -/
def staleCacheController : MetadataController (Cluster String String String) String String
    String :=
  { sampleStore with
    SystemImagesLister := ⟨fun c _ _ => (.error .NotFound, c)⟩
    SystemImages := ⟨fun c _ => (some .AlreadyExists, c), fun c _ => (some .Conflict, c)⟩ }

/-- The representatives of a map `maxVersionForMajorK8sVersion` listed in ascending order of
their major-version keys. -/
def byMajorKey (maxVersionForMajorK8sVersion : GoMap String) : List String :=
  (sortStrings maxVersionForMajorK8sVersion.keys).map
    fun majorVersion => (maxVersionForMajorK8sVersion.lookup majorVersion).getD ""

/-- A catalog of system images with the versions `v1.18.9` and `v1.18-rc.1`, whose major
versions are `v1.18` and `v1.18-rc`. -/
def dataReleaseCandidate : Data String String String :=
  { K8sVersionRKESystemImages := [("v1.18.9", "images"), ("v1.18-rc.1", "images")],
    K8sVersionInfo := [], K8sVersionServiceOptions := [],
    RancherDefaultK8sVersions := [("default", "v1.18.9")],
    K8sVersionedTemplates := [], K8sVersionWindowsSystemImages := [],
    K8sVersionWindowsServiceOptions := [] }

/-- Sample globals whose stand-in for `json.Marshal` writes the JSON text of the map: the keys
in sorted order, `null` for the nil values of the first map, and for the second map the
payload, a string of the samples that stands for its own JSON text. -/
def sampleGlobalsJson : Globals String String String :=
  { sampleGlobals with
    marshalCurrVersions := fun m =>
      .ok ("\x7b" ++
        ",".intercalate ((sortStrings m.keys).map fun k => "\x22" ++ k ++ "\x22:null") ++
        "\x7d")
    marshalSvcOptions := fun m =>
      .ok ("\x7b" ++
        ",".intercalate
          ((sortStrings m.keys).map fun k => "\x22" ++ k ++ "\x22:" ++ (m.lookup k).getD "") ++
        "\x7d") }

/-- The globals `sampleGlobalsJson` with management-plane version `2.5`. -/
def sampleGlobalsJson25 : Globals String String String :=
  { sampleGlobalsJson with GetRancherVersion := "2.5" }

/-- Version records that close the major version `v1.18` at management-plane version `2.2`. -/
def infoMax22 : GoMap K8sVersionInfo :=
  [("v1.18", { MinRancherVersion := "", MaxRancherVersion := "2.2",
               DeprecateRancherVersion := "" })]

end Kdm

/-! # Theorems -/

namespace Kdm

/-! ## Go maps -/

theorem lookup_cons_ite {V : Type} (k a : String) (b : V) (es : List (String × V)) :
    List.lookup k ((a, b) :: es) = if k = a then some b else List.lookup k es := by
  by_cases h : k = a
  · simp [List.lookup, h]
  · have hb : (k == a) = false := by simpa using h
    simp [List.lookup, h, hb]

theorem GoMap.lookup_set {V : Type} (m : GoMap V) (k k' : String) (v : V) :
    (m.set k v).lookup k' = if k' = k then some v else m.lookup k' := by
  induction m with
  | nil => simp [GoMap.set, lookup_cons_ite]
  | cons e rest ih =>
    obtain ⟨a, b⟩ := e
    by_cases h : a = k
    · subst h
      by_cases h2 : k' = a <;> simp [GoMap.set, lookup_cons_ite, h2]
    · by_cases h2 : k' = k
      · subst h2
        have h3 : ¬ k' = a := fun h3 => h h3.symm
        simp [GoMap.set, lookup_cons_ite, h, ih, h3]
      · simp [GoMap.set, lookup_cons_ite, h, ih, h2]

theorem GoMap.lookup_foldl_set_true {V : Type} (l : GoMap V) (acc : GoMap Bool) (k : String) :
    ((l.foldl (fun keys e => keys.set e.1 true) acc).lookup k).isSome =
      ((acc.lookup k).isSome || decide (k ∈ l.keys)) := by
  induction l generalizing acc with
  | nil => simp [GoMap.keys]
  | cons e rest ih =>
    simp only [List.foldl_cons, ih, GoMap.lookup_set, GoMap.keys, List.map_cons, List.mem_cons]
    by_cases h : k = e.1 <;> simp [h, GoMap.keys]


/-! ## Loops -/

theorem forEach_singleton {α σ : Type} (body : α → σ → Option GoError × σ) (a : α)
    (s : σ) :
    forEach body [a] s = body a s := by
  simp only [forEach]
  rcases h : body a s with ⟨_ | e, s1⟩ <;> rfl

/-! ## The step for one catalog entry -/

/-- C2 (failing input): the addon `cleanup-v1.18.9` is stored with template `old` and the
catalog holds template `new` for addon `Cleanup`, version `v1.18.9`. The step only reads the
object: it returns no error, submits no `Update`, and the stored template is still `old`.
The step for a service option stored with payload `old` does submit the `Update` with the
catalog payload. -/
theorem addon_template_change_not_updated :
    (createOrUpdateAddonCRD sampleGlobals (recording sampleStore) "Cleanup"
        [("v1.18.9", "new")] (clusterOldAddon, [])).1 = none ∧
    (createOrUpdateAddonCRD sampleGlobals (recording sampleStore) "Cleanup"
        [("v1.18.9", "new")] (clusterOldAddon, [])).2.2 =
      [.GetAddon "cattle-global-data" "cleanup-v1.18.9"] ∧
    ((createOrUpdateAddonCRD sampleGlobals (recording sampleStore) "Cleanup"
        [("v1.18.9", "new")] (clusterOldAddon, [])).2.1.Addons
        ("cattle-global-data", "cleanup-v1.18.9")).map (fun obj => obj.Template) =
      some "old" ∧
    (saveServiceOptions sampleGlobals (recording sampleStore) [("v1.18.9", "options")]
        (clusterStaleOption, [])).2.2 =
      [.GetServiceOption "cattle-global-data" "v1.18.9",
        .UpdateServiceOption
          { Name := "v1.18.9", Namespace := "cattle-global-data", Labels := [],
            ServiceOptions := "options", Kind := rkeServiceOptionKind,
            APIVersion := APIVersion }] := by
  decide

/-- C3: when the lookup of an entry returns NotFound, the step of every kind submits the
`Get` and then exactly one `Create` and nothing else (so no `Update`); the created object
lies in the global namespace, carries the payload of the catalog entry, and is named by the
version (system image, service option), by `"w" ++ version` (Windows system image, Windows
service option) or by `strings.ToLower(addonName) + "-" + version` (addon), where
`strings.ToLower` is the field `g.ToLower`, left arbitrary. The state after the step is the
state the `Create` left, and the step returns no error when the `Create` returns none. -/
theorem create_on_missing {σ SI SO WSI : Type} [DecidableEq SI] [DecidableEq SO]
    [DecidableEq WSI] (g : Globals SI SO WSI) (md : MetadataController σ SI SO WSI) (s : σ)
    (k8sVersion addonName template : String) (systemImages : SI) (serviceOptions : SO)
    (windowsImages : WSI) (rkeDataKeys : GoMap Bool) :
    (∀ err s1, md.SystemImagesLister.Get s g.GlobalNamespace k8sVersion = (.error err, s1) →
      IsNotFound err = true →
      ∃ obj : RKEK8sSystemImage SI,
        (createOrUpdateSystemImageCRD g (recording md) k8sVersion systemImages (s, [])).2 =
          ((md.SystemImages.Create s1 obj).2,
            [.GetSystemImage g.GlobalNamespace k8sVersion, .CreateSystemImage obj]) ∧
        obj.Namespace = g.GlobalNamespace ∧ obj.SystemImages = systemImages ∧
        obj.Name = k8sVersion ∧
        ((md.SystemImages.Create s1 obj).1 = none →
          (createOrUpdateSystemImageCRD g (recording md) k8sVersion systemImages (s, [])).1 =
            none)) ∧
    (∀ err s1, md.ServiceOptionsLister.Get s g.GlobalNamespace k8sVersion = (.error err, s1) →
      IsNotFound err = true →
      ∃ obj : RKEK8sServiceOption SO,
        (createOrUpdateServiceOptionCRD g (recording md) k8sVersion serviceOptions rkeDataKeys
            (s, [])).2 =
          ((md.ServiceOptions.Create s1 obj).2,
            [.GetServiceOption g.GlobalNamespace k8sVersion, .CreateServiceOption obj]) ∧
        obj.Namespace = g.GlobalNamespace ∧ obj.ServiceOptions = serviceOptions ∧
        obj.Name = k8sVersion ∧
        ((md.ServiceOptions.Create s1 obj).1 = none →
          (createOrUpdateServiceOptionCRD g (recording md) k8sVersion serviceOptions rkeDataKeys
            (s, [])).1 = none)) ∧
    (∀ err s1,
      md.AddonsLister.Get s g.GlobalNamespace (g.ToLower addonName ++ "-" ++ k8sVersion) =
        (.error err, s1) →
      IsNotFound err = true →
      ∃ obj : RKEAddon,
        (createOrUpdateAddonCRD g (recording md) addonName [(k8sVersion, template)] (s, [])).2 =
          ((md.Addons.Create s1 obj).2,
            [.GetAddon g.GlobalNamespace (g.ToLower addonName ++ "-" ++ k8sVersion),
              .CreateAddon obj]) ∧
        obj.Namespace = g.GlobalNamespace ∧ obj.Template = template ∧
        obj.Name = g.ToLower addonName ++ "-" ++ k8sVersion ∧
        ((md.Addons.Create s1 obj).1 = none →
          (createOrUpdateAddonCRD g (recording md) addonName [(k8sVersion, template)]
            (s, [])).1 = none)) ∧
    (∀ err s1,
      md.WindowsSystemImagesLister.Get s g.GlobalNamespace ("w" ++ k8sVersion) =
        (.error err, s1) →
      IsNotFound err = true →
      ∃ obj : RKEK8sWindowsSystemImage WSI,
        (createOrUpdateWindowsSystemImageCRD g (recording md) k8sVersion windowsImages true
            (s, [])).2 =
          ((md.WindowsSystemImages.Create s1 obj).2,
            [.GetWindowsSystemImage g.GlobalNamespace ("w" ++ k8sVersion),
              .CreateWindowsSystemImage obj]) ∧
        obj.Namespace = g.GlobalNamespace ∧ obj.SystemImages = windowsImages ∧
        obj.Name = "w" ++ k8sVersion ∧
        ((md.WindowsSystemImages.Create s1 obj).1 = none →
          (createOrUpdateWindowsSystemImageCRD g (recording md) k8sVersion windowsImages true
            (s, [])).1 = none)) ∧
    (∀ err s1,
      md.ServiceOptionsLister.Get s g.GlobalNamespace ("w" ++ k8sVersion) = (.error err, s1) →
      IsNotFound err = true →
      ∃ obj : RKEK8sServiceOption SO,
        (createOrUpdateWindowsServiceOptionCRD g (recording md) k8sVersion serviceOptions
            (s, [])).2 =
          ((md.ServiceOptions.Create s1 obj).2,
            [.GetServiceOption g.GlobalNamespace ("w" ++ k8sVersion),
              .CreateServiceOption obj]) ∧
        obj.Namespace = g.GlobalNamespace ∧ obj.ServiceOptions = serviceOptions ∧
        obj.Name = "w" ++ k8sVersion ∧
        ((md.ServiceOptions.Create s1 obj).1 = none →
          (createOrUpdateWindowsServiceOptionCRD g (recording md) k8sVersion serviceOptions
            (s, [])).1 = none)) := by
  refine ⟨?_, ?_, ?_, ?_, ?_⟩
  · intro err s1 hget hnf
    refine ⟨{ Name := k8sVersion, Namespace := g.GlobalNamespace, Labels := [],
              SystemImages := systemImages,
              Kind := rkeSystemImageKind, APIVersion := APIVersion }, ?_, rfl, rfl, rfl, ?_⟩
    · simp only [createOrUpdateSystemImageCRD, recording, Lister.recording, Interface.recording,
        hget, hnf]
      rcases hc : md.SystemImages.Create s1 _ with ⟨_ | e, s2⟩
      · simp
      · simp; split <;> simp
    · intro hc
      simp only [createOrUpdateSystemImageCRD, recording, Lister.recording,
        Interface.recording, hget, hnf, hc]
      simp
  · intro err s1 hget hnf
    refine ⟨{ Name := k8sVersion, Namespace := g.GlobalNamespace,
              Labels := if (rkeDataKeys.lookup k8sVersion).isSome = true then existLabel else [],
              ServiceOptions := serviceOptions,
              Kind := rkeServiceOptionKind, APIVersion := APIVersion }, ?_, rfl, rfl, rfl, ?_⟩
    · simp only [createOrUpdateServiceOptionCRD, recording, Lister.recording,
        Interface.recording, hget, hnf]
      rcases hc : md.ServiceOptions.Create s1 _ with ⟨_ | e, s2⟩
      · simp
      · simp; split <;> simp
    · intro hc
      simp only [createOrUpdateServiceOptionCRD, recording, Lister.recording,
        Interface.recording, hget, hnf, hc]
      simp
  · intro err s1 hget hnf
    refine ⟨{ Name := g.ToLower addonName ++ "-" ++ k8sVersion, Namespace := g.GlobalNamespace,
              Labels := if ((getRKEVendorData g addonName).lookup k8sVersion).isSome = true
                then existLabel else [],
              Template := template,
              Kind := rkeAddonKind, APIVersion := APIVersion }, ?_, rfl, rfl, rfl, ?_⟩
    · simp only [createOrUpdateAddonCRD, forEach_singleton, createOrUpdateAddonCRD.body,
        recording, Lister.recording, Interface.recording, hget, hnf]
      rcases hc : md.Addons.Create s1 _ with ⟨_ | e, s2⟩
      · simp
      · simp; split <;> simp
    · intro hc
      simp only [createOrUpdateAddonCRD, forEach_singleton, createOrUpdateAddonCRD.body,
        recording, Lister.recording, Interface.recording, hget, hnf, hc]
      simp
  · intro err s1 hget hnf
    refine ⟨{ Name := "w" ++ k8sVersion, Namespace := g.GlobalNamespace, Labels := [],
              SystemImages := windowsImages,
              Kind := rkeWindowsSystemImageKind, APIVersion := APIVersion },
      ?_, rfl, rfl, rfl, ?_⟩
    · simp only [createOrUpdateWindowsSystemImageCRD, getWindowsName, recording,
        Lister.recording, Interface.recording, hget, hnf]
      rcases hc : md.WindowsSystemImages.Create s1 _ with ⟨_ | e, s2⟩
      · simp
      · simp; split <;> simp
    · intro hc
      simp only [createOrUpdateWindowsSystemImageCRD, getWindowsName, recording,
        Lister.recording, Interface.recording, hget, hnf, hc]
      simp
  · intro err s1 hget hnf
    refine ⟨{ Name := "w" ++ k8sVersion, Namespace := g.GlobalNamespace, Labels := [],
              ServiceOptions := serviceOptions,
              Kind := rkeServiceOptionKind, APIVersion := APIVersion }, ?_, rfl, rfl, rfl, ?_⟩
    · simp only [createOrUpdateWindowsServiceOptionCRD, getWindowsName, recording,
        Lister.recording, Interface.recording, hget, hnf]
      rcases hc : md.ServiceOptions.Create s1 _ with ⟨_ | e, s2⟩
      · simp
      · simp; split <;> simp
    · intro hc
      simp only [createOrUpdateWindowsServiceOptionCRD, getWindowsName, recording,
        Lister.recording, Interface.recording, hget, hnf, hc]
      simp

/-- C3 (witness): on the empty store, the addon `Cleanup` with version `v1.18.9` is created
under the name `cleanup-v1.18.9`. -/
theorem create_on_missing_witness :
    ∃ obj : RKEAddon,
      (createOrUpdateAddonCRD sampleGlobals (recording sampleStore) "Cleanup"
          [("v1.18.9", "template")] (sampleEmpty, [])).2 =
        ((sampleStore.Addons.Create sampleEmpty obj).2,
          [.GetAddon "cattle-global-data" "cleanup-v1.18.9", .CreateAddon obj]) ∧
      obj.Namespace = "cattle-global-data" ∧ obj.Template = "template" ∧
      obj.Name = "cleanup-v1.18.9" ∧
      ((sampleStore.Addons.Create sampleEmpty obj).1 = none →
        (createOrUpdateAddonCRD sampleGlobals (recording sampleStore) "Cleanup"
          [("v1.18.9", "template")] (sampleEmpty, [])).1 = none) :=
  (create_on_missing sampleGlobals sampleStore sampleEmpty "v1.18.9" "Cleanup" "template"
    "images" "options" "images" []).2.2.1 .NotFound sampleEmpty rfl rfl


theorem getRKEVendorOptions_isSome {SI SO WSI : Type} (g : Globals SI SO WSI) (k : String) :
    ((getRKEVendorOptions g).lookup k).isSome =
      decide (k ∈ g.DriverData.K8sVersionServiceOptions.keys) := by
  simp [getRKEVendorOptions, GoMap.lookup_foldl_set_true]

theorem getRKEVendorData_isSome {SI SO WSI : Type} (g : Globals SI SO WSI)
    (addonName k : String) :
    ((getRKEVendorData g addonName).lookup k).isSome = true ↔
      ∃ templateData, g.DriverData.K8sVersionedTemplates.lookup addonName = some templateData ∧
        k ∈ templateData.keys := by
  unfold getRKEVendorData
  cases h : g.DriverData.K8sVersionedTemplates.lookup addonName with
  | none => simp
  | some td => simp [GoMap.lookup_foldl_set_true]

/-- C4 (counterexample): version `v1.18.9` is in the vendor catalog of system images, and the
system image object created for it carries no label at all. -/
theorem create_label_counterexample :
    "v1.18.9" ∈ sampleGlobals.DriverData.K8sVersionRKESystemImages.keys ∧
    ∃ obj : RKEK8sSystemImage String,
      (createOrUpdateSystemImageCRD sampleGlobals (recording sampleStore) "v1.18.9" "images"
          (sampleEmpty, [])).2.2 =
        [.GetSystemImage "cattle-global-data" "v1.18.9", .CreateSystemImage obj] ∧
      obj.Labels.lookup "io.cattle.rke_store" = none :=
  ⟨by decide,
    { Name := "v1.18.9", Namespace := "cattle-global-data", Labels := [],
      SystemImages := "images", Kind := rkeSystemImageKind, APIVersion := APIVersion },
    by decide, by decide⟩

/-- C4 (amended): when the lookup returns NotFound, the object submitted to `Create` for a
service option has exactly the label `io.cattle.rke_store = "false"` when its version is a key
of the vendor catalog of service options, and no label otherwise; the same holds for an addon
and the vendor templates of its addon name. The objects created for a system image, a Windows
system image and a Windows service option have no label. -/
theorem provenance_label_on_create {σ SI SO WSI : Type} [DecidableEq SI] [DecidableEq SO]
    [DecidableEq WSI] (g : Globals SI SO WSI) (md : MetadataController σ SI SO WSI) (s : σ)
    (k8sVersion addonName template : String) (systemImages : SI) (serviceOptions : SO)
    (windowsImages : WSI) :
    (∀ err s1, md.ServiceOptionsLister.Get s g.GlobalNamespace k8sVersion = (.error err, s1) →
      IsNotFound err = true →
      ∃ obj : RKEK8sServiceOption SO,
        (saveServiceOptions g (recording md) [(k8sVersion, serviceOptions)] (s, [])).2.2 =
          [.GetServiceOption g.GlobalNamespace k8sVersion, .CreateServiceOption obj] ∧
        (k8sVersion ∈ g.DriverData.K8sVersionServiceOptions.keys →
          obj.Labels = [("io.cattle.rke_store", "false")]) ∧
        (k8sVersion ∉ g.DriverData.K8sVersionServiceOptions.keys → obj.Labels = [])) ∧
    (∀ err s1,
      md.AddonsLister.Get s g.GlobalNamespace (g.ToLower addonName ++ "-" ++ k8sVersion) =
        (.error err, s1) →
      IsNotFound err = true →
      ∃ obj : RKEAddon,
        (createOrUpdateAddonCRD g (recording md) addonName [(k8sVersion, template)]
            (s, [])).2.2 =
          [.GetAddon g.GlobalNamespace (g.ToLower addonName ++ "-" ++ k8sVersion),
            .CreateAddon obj] ∧
        ((∃ templateData,
            g.DriverData.K8sVersionedTemplates.lookup addonName = some templateData ∧
            k8sVersion ∈ templateData.keys) →
          obj.Labels = [("io.cattle.rke_store", "false")]) ∧
        ((¬ ∃ templateData,
            g.DriverData.K8sVersionedTemplates.lookup addonName = some templateData ∧
            k8sVersion ∈ templateData.keys) →
          obj.Labels = [])) ∧
    (∀ err s1, md.SystemImagesLister.Get s g.GlobalNamespace k8sVersion = (.error err, s1) →
      IsNotFound err = true →
      ∃ obj : RKEK8sSystemImage SI,
        (createOrUpdateSystemImageCRD g (recording md) k8sVersion systemImages (s, [])).2.2 =
          [.GetSystemImage g.GlobalNamespace k8sVersion, .CreateSystemImage obj] ∧
        obj.Labels = []) ∧
    (∀ err s1,
      md.WindowsSystemImagesLister.Get s g.GlobalNamespace ("w" ++ k8sVersion) =
        (.error err, s1) →
      IsNotFound err = true →
      ∃ obj : RKEK8sWindowsSystemImage WSI,
        (createOrUpdateWindowsSystemImageCRD g (recording md) k8sVersion windowsImages true
            (s, [])).2.2 =
          [.GetWindowsSystemImage g.GlobalNamespace ("w" ++ k8sVersion),
            .CreateWindowsSystemImage obj] ∧
        obj.Labels = []) ∧
    (∀ err s1,
      md.ServiceOptionsLister.Get s g.GlobalNamespace ("w" ++ k8sVersion) = (.error err, s1) →
      IsNotFound err = true →
      ∃ obj : RKEK8sServiceOption SO,
        (createOrUpdateWindowsServiceOptionCRD g (recording md) k8sVersion serviceOptions
            (s, [])).2.2 =
          [.GetServiceOption g.GlobalNamespace ("w" ++ k8sVersion),
            .CreateServiceOption obj] ∧
        obj.Labels = []) := by
  refine ⟨?_, ?_, ?_, ?_, ?_⟩
  · intro err s1 hget hnf
    refine ⟨{ Name := k8sVersion, Namespace := g.GlobalNamespace,
              Labels := if ((getRKEVendorOptions g).lookup k8sVersion).isSome = true
                then existLabel else [],
              ServiceOptions := serviceOptions,
              Kind := rkeServiceOptionKind, APIVersion := APIVersion }, ?_, ?_, ?_⟩
    · simp only [saveServiceOptions, forEach_singleton, createOrUpdateServiceOptionCRD,
        recording, Lister.recording, Interface.recording, hget, hnf]
      rcases hc : md.ServiceOptions.Create s1 _ with ⟨_ | e, s2⟩
      · simp
      · simp; split <;> simp
    · intro hk
      simp [getRKEVendorOptions_isSome, hk, existLabel, sendRKELabel]
    · intro hk
      simp [getRKEVendorOptions_isSome, hk]
  · intro err s1 hget hnf
    refine ⟨{ Name := g.ToLower addonName ++ "-" ++ k8sVersion, Namespace := g.GlobalNamespace,
              Labels := if ((getRKEVendorData g addonName).lookup k8sVersion).isSome = true
                then existLabel else [],
              Template := template,
              Kind := rkeAddonKind, APIVersion := APIVersion }, ?_, ?_, ?_⟩
    · simp only [createOrUpdateAddonCRD, forEach_singleton, createOrUpdateAddonCRD.body,
        recording, Lister.recording, Interface.recording, hget, hnf]
      rcases hc : md.Addons.Create s1 _ with ⟨_ | e, s2⟩
      · simp
      · simp; split <;> simp
    · intro hk
      have := (getRKEVendorData_isSome g addonName k8sVersion).2 hk
      simp [this, existLabel, sendRKELabel]
    · intro hk
      have : ¬ ((getRKEVendorData g addonName).lookup k8sVersion).isSome = true :=
        fun h => hk ((getRKEVendorData_isSome g addonName k8sVersion).1 h)
      simp [this]
  · intro err s1 hget hnf
    refine ⟨{ Name := k8sVersion, Namespace := g.GlobalNamespace, Labels := [],
              SystemImages := systemImages,
              Kind := rkeSystemImageKind, APIVersion := APIVersion }, ?_, rfl⟩
    simp only [createOrUpdateSystemImageCRD, recording, Lister.recording, Interface.recording,
      hget, hnf]
    rcases hc : md.SystemImages.Create s1 _ with ⟨_ | e, s2⟩
    · simp
    · simp; split <;> simp
  · intro err s1 hget hnf
    refine ⟨{ Name := "w" ++ k8sVersion, Namespace := g.GlobalNamespace, Labels := [],
              SystemImages := windowsImages,
              Kind := rkeWindowsSystemImageKind, APIVersion := APIVersion }, ?_, rfl⟩
    simp only [createOrUpdateWindowsSystemImageCRD, getWindowsName, recording,
      Lister.recording, Interface.recording, hget, hnf]
    rcases hc : md.WindowsSystemImages.Create s1 _ with ⟨_ | e, s2⟩
    · simp
    · simp; split <;> simp
  · intro err s1 hget hnf
    refine ⟨{ Name := "w" ++ k8sVersion, Namespace := g.GlobalNamespace, Labels := [],
              ServiceOptions := serviceOptions,
              Kind := rkeServiceOptionKind, APIVersion := APIVersion }, ?_, rfl⟩
    simp only [createOrUpdateWindowsServiceOptionCRD, getWindowsName, recording,
      Lister.recording, Interface.recording, hget, hnf]
    rcases hc : md.ServiceOptions.Create s1 _ with ⟨_ | e, s2⟩
    · simp
    · simp; split <;> simp

/-- C4 (witness): on the empty store the service option of the vendor version `v1.18.9` is
created with the label `io.cattle.rke_store = "false"`. -/
theorem provenance_label_on_create_witness :
    ∃ obj : RKEK8sServiceOption String,
      (saveServiceOptions sampleGlobals (recording sampleStore) [("v1.18.9", "options")]
          (sampleEmpty, [])).2.2 =
        [.GetServiceOption "cattle-global-data" "v1.18.9", .CreateServiceOption obj] ∧
      ("v1.18.9" ∈ sampleGlobals.DriverData.K8sVersionServiceOptions.keys →
        obj.Labels = [("io.cattle.rke_store", "false")]) ∧
      ("v1.18.9" ∉ sampleGlobals.DriverData.K8sVersionServiceOptions.keys → obj.Labels = []) :=
  (provenance_label_on_create sampleGlobals sampleStore sampleEmpty "v1.18.9" "Cleanup"
    "template" "images" "options" "images").1 .NotFound sampleEmpty rfl rfl


/-! ## The compatibility filter -/

theorem Compare_ge_spaces {SI SO WSI : Type} (g : Globals SI SO WSI) (a b : String) :
    Compare g a b " >= " = false := by
  simp [Compare, CompareNormalized]

theorem Compare_lt {SI SO WSI : Type} (g : Globals SI SO WSI) (a b : String) :
    Compare g a b "<" = decide (g.CompareSimple a b < 0) := by
  simp [Compare, CompareNormalized]

theorem Compare_gt {SI SO WSI : Type} (g : Globals SI SO WSI) (a b : String) :
    Compare g a b ">" = decide (g.CompareSimple a b > 0) := by
  simp [Compare, CompareNormalized]

theorem toIgnoreForAllK8s_eq {SI SO WSI : Type} (g : Globals SI SO WSI) (info : K8sVersionInfo)
    (R : String) :
    toIgnoreForAllK8s g info R =
      decide (info.MinRancherVersion ≠ "" ∧ g.CompareSimple R info.MinRancherVersion < 0) := by
  simp only [toIgnoreForAllK8s, Compare_ge_spaces, Compare_lt]
  by_cases h1 : info.MinRancherVersion = "" <;>
    by_cases h2 : g.CompareSimple R info.MinRancherVersion < 0 <;> simp [h1, h2]

/-- C5 (failing input): an entry whose record has only a deprecation bound is never ignored,
whatever the bound and the running version are, because `Compare` is called with the operator
`" >= "`, which names no operator. With deprecation bound `2.3` and running version `2.4`
(for which the three-way comparison is not negative) `saveSystemImages` creates the object of
the entry and publishes it as a current version. -/
theorem deprecation_bound_not_applied {SI SO WSI : Type} (g : Globals SI SO WSI)
    (deprecate max R : String) :
    toIgnoreForAllK8s g
        { MinRancherVersion := "", MaxRancherVersion := max,
          DeprecateRancherVersion := deprecate } R = false ∧
    (0 ≤ sampleGlobals.CompareSimple "2.4" "2.3" ∧
      sampleGlobals.GetRancherVersion = "2.4" ∧
      toIgnoreForAllK8s sampleGlobals
        { MinRancherVersion := "", MaxRancherVersion := "",
          DeprecateRancherVersion := "2.3" } "2.4" = false ∧
      (saveSystemImages sampleGlobals sampleSettings.recording (recording sampleStore)
          [("v1.18.1", "images")]
          [("v1.18.1", { MinRancherVersion := "", MaxRancherVersion := "",
                         DeprecateRancherVersion := "2.3" })]
          [] [] (sampleEmpty, [])).2.2.take 4 =
        [.GetSystemImage "cattle-global-data" "v1.18.1",
          .CreateSystemImage
            { Name := "v1.18.1", Namespace := "cattle-global-data", Labels := [],
              SystemImages := "images", Kind := rkeSystemImageKind, APIVersion := APIVersion },
          .SetSetting .KubernetesVersionToSystemImages "v1.18.1",
          .SetSetting .KubernetesVersionsCurrent "v1.18.1"]) := by
  refine ⟨?_, by decide, rfl, by decide, by decide⟩
  simp [toIgnoreForAllK8s_eq]


/-! ## The string order -/

theorem strLt_iff (a b : String) : strLt a b = true ↔ a < b := by
  simp [strLt, String.lt_iff_toList_lt]

theorem strLt_false_iff (a b : String) : strLt a b = false ↔ b ≤ a := by
  rw [← not_lt, ← strLt_iff]; simp

/-! ## The running maximum -/

theorem pickMax_isSome (c : String) (l : List String) : ∃ v, pickMax (some c) l = some v := by
  induction l generalizing c with
  | nil => exact ⟨c, rfl⟩
  | cons v vs ih => exact ih _

theorem pickMax_some_spec (c : String) (l : List String) (v : String)
    (h : pickMax (some c) l = some v) :
    (v = c ∨ v ∈ l) ∧ c ≤ v ∧ ∀ u ∈ l, u ≤ v := by
  induction l generalizing c with
  | nil =>
    simp only [pickMax, Option.some.injEq] at h
    subst h; simp
  | cons w ws ih =>
    simp only [pickMax] at h
    obtain ⟨h1, h2, h3⟩ := ih _ h
    by_cases hlt : strLt c w = true
    · simp only [hlt, if_true] at h1 h2
      have hcw : c < w := (strLt_iff _ _).1 hlt
      refine ⟨?_, le_trans hcw.le h2, ?_⟩
      · rcases h1 with h1 | h1
        · right; simp [h1]
        · right; simp [h1]
      · intro u hu
        rcases List.mem_cons.1 hu with hu | hu
        · subst hu; exact h2
        · exact h3 u hu
    · simp only [hlt] at h1 h2
      have hwc : w ≤ c := (strLt_false_iff _ _).1 (by simpa using hlt)
      refine ⟨?_, h2, ?_⟩
      · rcases h1 with h1 | h1
        · left; simpa using h1
        · right; simp [h1]
      · intro u hu
        rcases List.mem_cons.1 hu with hu | hu
        · subst hu; exact le_trans hwc h2
        · exact h3 u hu

theorem pickMax_none_eq_none (l : List String) : pickMax none l = none ↔ l = [] := by
  cases l with
  | nil => simp [pickMax]
  | cons v vs =>
    obtain ⟨x, hx⟩ := pickMax_isSome v vs
    simp [pickMax, hx]

theorem pickMax_none_spec (l : List String) (v : String) (h : pickMax none l = some v) :
    v ∈ l ∧ ∀ u ∈ l, u ≤ v := by
  cases l with
  | nil => simp [pickMax] at h
  | cons w ws =>
    simp only [pickMax] at h
    obtain ⟨h1, h2, h3⟩ := pickMax_some_spec _ _ _ h
    refine ⟨?_, ?_⟩
    · rcases h1 with h1 | h1 <;> simp [h1]
    · intro u hu
      rcases List.mem_cons.1 hu with hu | hu
      · subst hu; exact h2
      · exact h3 u hu

/-- The running maximum over a list is the greatest element of the list. -/
theorem pickMax_none_iff (l : List String) (v : String) :
    pickMax none l = some v ↔ v ∈ l ∧ ∀ u ∈ l, u ≤ v := by
  constructor
  · exact pickMax_none_spec l v
  · rintro ⟨hv, hmax⟩
    cases h : pickMax none l with
    | none => rw [pickMax_none_eq_none] at h; subst h; simp at hv
    | some w =>
      obtain ⟨hw, hwmax⟩ := pickMax_none_spec l w h
      exact congrArg some (le_antisymm (hmax w hw) (hwmax v hv))

/-! ## The loop of saveSystemImages -/

theorem saveSystemImages_loop_map {σ SI SO WSI : Type} [DecidableEq SI]
    (g : Globals SI SO WSI) (md : MetadataController σ SI SO WSI)
    (info : GoMap K8sVersionInfo) (R : String) (l : GoMap SI) (m : GoMap String)
    (s : σ) (m' : GoMap String) (s' : σ)
    (h : saveSystemImages.loop g md info R l m s = (.ok m', s')) (M : String) :
    m'.lookup M = pickMax (m.lookup M) (l.keys.filter (isCandidate g info R M)) := by
  induction l generalizing m s with
  | nil =>
    simp only [saveSystemImages.loop, Prod.mk.injEq, Except.ok.injEq] at h
    simp [h.1, GoMap.keys, pickMax]
  | cons e rest ih =>
    obtain ⟨v, img⟩ := e
    simp only [saveSystemImages.loop] at h
    by_cases hskip : skipsEntry g info R v = true
    · have hc : isCandidate g info R M v = false := by simp [isCandidate, hskip]
      simp only [skipsEntry] at hskip
      rw [if_pos hskip] at h
      simpa [GoMap.keys, hc] using ih _ _ h
    · have hskip' := hskip
      simp only [skipsEntry] at hskip
      rw [if_neg hskip] at h
      rcases hstep : createOrUpdateSystemImageCRD g md v img s with ⟨_ | err, s1⟩
      · simp only [hstep] at h
        by_cases hex : excludesMajor g info R (GetTagMajorVersion v) = true
        · have hc : isCandidate g info R M v = false := by simp [isCandidate, hex]
          simp only [excludesMajor] at hex
          rw [if_pos hex] at h
          simpa [GoMap.keys, hc] using ih _ _ h
        · have hex' := hex
          simp only [excludesMajor] at hex
          rw [if_neg hex] at h
          by_cases hM : GetTagMajorVersion v = M
          · subst hM
            have hc : isCandidate g info R (GetTagMajorVersion v) v = true := by
              simp [isCandidate, hskip', hex']
            cases hcur : m.lookup (GetTagMajorVersion v) with
            | none =>
              simp only [hcur, if_true] at h
              have := ih _ _ h
              simpa [GoMap.keys, hc, pickMax, GoMap.lookup_set] using this
            | some c =>
              simp only [hcur] at h
              by_cases hlt : strLt c v = true
              · rw [if_pos hlt] at h
                have := ih _ _ h
                simpa [GoMap.keys, hc, pickMax, GoMap.lookup_set, hlt] using this
              · rw [if_neg hlt] at h
                have := ih _ _ h
                simpa [GoMap.keys, hc, pickMax, hcur, hlt] using this
          · have hc : isCandidate g info R M v = false := by simp [isCandidate, hM]
            have hM' : ¬ M = GetTagMajorVersion v := fun h => hM h.symm
            split at h
            · have := ih _ _ h
              simpa [GoMap.keys, hc, GoMap.lookup_set, hM'] using this
            · have := ih _ _ h
              simpa [GoMap.keys, hc] using this
      · simp [hstep] at h


/-! ## Steps on the store -/

theorem Upsert.apply_self {O : Type} (u : Upsert O) (key : String × String)
    (store : String × String → Option O) :
    u.apply key store key = some (u.target (store key)) := by
  simp [Upsert.apply]

theorem Upsert.apply_other {O : Type} (u : Upsert O) (key key' : String × String)
    (store : String × String → Option O) (h : key' ≠ key) :
    u.apply key store key' = store key' := by
  simp [Upsert.apply, Function.update_noteq h]

theorem Upsert.apply_eq_self {O : Type} (u : Upsert O) (key : String × String)
    (store : String × String → Option O) (obj : O) (h : store key = some obj)
    (hu : u.update obj = none) : u.apply key store = store := by
  unfold Upsert.apply
  rw [h]
  simp only [Upsert.target, hu, Option.getD_none]
  rw [← h]
  exact Function.update_eq_self key store

theorem createOrUpdateSystemImageCRD_store {SI SO WSI : Type} [DecidableEq SI]
    (g : Globals SI SO WSI) (k8sVersion : String) (systemImages : SI) (c : Cluster SI SO WSI)
    (log : List (Call SI SO WSI))
    (hwf : WellKeyed (fun obj => (obj.Namespace, obj.Name)) c.SystemImages) :
    createOrUpdateSystemImageCRD g (recording storeController) k8sVersion systemImages (c, log) =
      (none,
        ({ c with
            SystemImages :=
              (systemImageUpsert g k8sVersion systemImages).apply
                (g.GlobalNamespace, k8sVersion) c.SystemImages },
          log ++ (systemImageUpsert g k8sVersion systemImages).calls
            (.GetSystemImage g.GlobalNamespace k8sVersion) .CreateSystemImage
            .UpdateSystemImage (c.SystemImages (g.GlobalNamespace, k8sVersion)))) := by
  cases hget : c.SystemImages (g.GlobalNamespace, k8sVersion) with
  | none =>
    simp [createOrUpdateSystemImageCRD, recording, Lister.recording, Interface.recording,
      storeController, storeGet, storeCreate, hget, IsNotFound, Upsert.apply, Upsert.target,
      Upsert.calls, systemImageUpsert]
  | some obj =>
    have hk := hwf _ _ hget
    simp only [Prod.mk.injEq] at hk
    by_cases heq : obj.SystemImages = systemImages
    · have hu : (systemImageUpsert g k8sVersion systemImages).update obj = none := by
        simp [systemImageUpsert, heq]
      rw [Upsert.apply_eq_self _ _ _ _ hget hu]
      simp [createOrUpdateSystemImageCRD, recording, Lister.recording, Interface.recording,
        storeController, storeGet, hget, heq, Upsert.calls, hu]
    · simp [createOrUpdateSystemImageCRD, recording, Lister.recording, Interface.recording,
        storeController, storeGet, storeUpdate, hget, heq, Upsert.apply, Upsert.target,
        Upsert.calls, systemImageUpsert, hk.1, hk.2]


theorem createOrUpdateWindowsSystemImageCRD_store {SI SO WSI : Type} [DecidableEq WSI]
    (g : Globals SI SO WSI) (k8sVersion : String) (systemImages : WSI) (w : Bool)
    (c : Cluster SI SO WSI) (log : List (Call SI SO WSI))
    (hwf : WellKeyed (fun obj => (obj.Namespace, obj.Name)) c.WindowsSystemImages) :
    createOrUpdateWindowsSystemImageCRD g (recording storeController) k8sVersion systemImages w
        (c, log) =
      (none,
        ({ c with
            WindowsSystemImages :=
              (windowsSystemImageUpsert g k8sVersion systemImages).apply
                (g.GlobalNamespace, getWindowsName k8sVersion) c.WindowsSystemImages },
          log ++ (windowsSystemImageUpsert g k8sVersion systemImages).calls
            (.GetWindowsSystemImage g.GlobalNamespace (getWindowsName k8sVersion))
            .CreateWindowsSystemImage .UpdateWindowsSystemImage
            (c.WindowsSystemImages (g.GlobalNamespace, getWindowsName k8sVersion)))) := by
  cases hget : c.WindowsSystemImages (g.GlobalNamespace, getWindowsName k8sVersion) with
  | none =>
    simp [createOrUpdateWindowsSystemImageCRD, recording, Lister.recording,
      Interface.recording, storeController, storeGet, storeCreate, hget, IsNotFound,
      Upsert.apply, Upsert.target, Upsert.calls, windowsSystemImageUpsert]
  | some obj =>
    have hk := hwf _ _ hget
    simp only [Prod.mk.injEq] at hk
    by_cases heq : obj.SystemImages = systemImages
    · have hu : (windowsSystemImageUpsert g k8sVersion systemImages).update obj = none := by
        simp [windowsSystemImageUpsert, heq]
      rw [Upsert.apply_eq_self _ _ _ _ hget hu]
      simp [createOrUpdateWindowsSystemImageCRD, recording, Lister.recording,
        Interface.recording, storeController, storeGet, hget, heq, Upsert.calls, hu]
    · simp [createOrUpdateWindowsSystemImageCRD, recording, Lister.recording,
        Interface.recording, storeController, storeGet, storeUpdate, hget, heq, Upsert.apply,
        Upsert.target, Upsert.calls, windowsSystemImageUpsert, hk.1, hk.2]

theorem createOrUpdateWindowsServiceOptionCRD_store {SI SO WSI : Type} [DecidableEq SO]
    (g : Globals SI SO WSI) (k8sVersion : String) (serviceOptions : SO)
    (c : Cluster SI SO WSI) (log : List (Call SI SO WSI))
    (hwf : WellKeyed (fun obj => (obj.Namespace, obj.Name)) c.ServiceOptions) :
    createOrUpdateWindowsServiceOptionCRD g (recording storeController) k8sVersion
        serviceOptions (c, log) =
      (none,
        ({ c with
            ServiceOptions :=
              (windowsServiceOptionUpsert g k8sVersion serviceOptions).apply
                (g.GlobalNamespace, getWindowsName k8sVersion) c.ServiceOptions },
          log ++ (windowsServiceOptionUpsert g k8sVersion serviceOptions).calls
            (.GetServiceOption g.GlobalNamespace (getWindowsName k8sVersion))
            .CreateServiceOption .UpdateServiceOption
            (c.ServiceOptions (g.GlobalNamespace, getWindowsName k8sVersion)))) := by
  cases hget : c.ServiceOptions (g.GlobalNamespace, getWindowsName k8sVersion) with
  | none =>
    simp [createOrUpdateWindowsServiceOptionCRD, recording, Lister.recording,
      Interface.recording, storeController, storeGet, storeCreate, hget, IsNotFound,
      Upsert.apply, Upsert.target, Upsert.calls, windowsServiceOptionUpsert]
  | some obj =>
    have hk := hwf _ _ hget
    simp only [Prod.mk.injEq] at hk
    by_cases heq : obj.ServiceOptions = serviceOptions
    · have hu : (windowsServiceOptionUpsert g k8sVersion serviceOptions).update obj = none := by
        simp [windowsServiceOptionUpsert, heq]
      rw [Upsert.apply_eq_self _ _ _ _ hget hu]
      simp [createOrUpdateWindowsServiceOptionCRD, recording, Lister.recording,
        Interface.recording, storeController, storeGet, hget, heq, Upsert.calls, hu]
    · simp [createOrUpdateWindowsServiceOptionCRD, recording, Lister.recording,
        Interface.recording, storeController, storeGet, storeUpdate, hget, heq, Upsert.apply,
        Upsert.target, Upsert.calls, windowsServiceOptionUpsert, hk.1, hk.2]

theorem createOrUpdateServiceOptionCRD_store {SI SO WSI : Type} [DecidableEq SO]
    (g : Globals SI SO WSI) (k8sVersion : String) (serviceOptions : SO)
    (rkeDataKeys : GoMap Bool) (c : Cluster SI SO WSI) (log : List (Call SI SO WSI))
    (hwf : WellKeyed (fun obj => (obj.Namespace, obj.Name)) c.ServiceOptions) :
    createOrUpdateServiceOptionCRD g (recording storeController) k8sVersion serviceOptions
        rkeDataKeys (c, log) =
      (none,
        ({ c with
            ServiceOptions :=
              (serviceOptionUpsert g k8sVersion serviceOptions
                (rkeDataKeys.lookup k8sVersion).isSome).apply
                (g.GlobalNamespace, k8sVersion) c.ServiceOptions },
          log ++ (serviceOptionUpsert g k8sVersion serviceOptions
              (rkeDataKeys.lookup k8sVersion).isSome).calls
            (.GetServiceOption g.GlobalNamespace k8sVersion)
            .CreateServiceOption .UpdateServiceOption
            (c.ServiceOptions (g.GlobalNamespace, k8sVersion)))) := by
  cases hget : c.ServiceOptions (g.GlobalNamespace, k8sVersion) with
  | none =>
    simp [createOrUpdateServiceOptionCRD, recording, Lister.recording,
      Interface.recording, storeController, storeGet, storeCreate, hget, IsNotFound,
      Upsert.apply, Upsert.target, Upsert.calls, serviceOptionUpsert]
  | some obj =>
    have hk := hwf _ _ hget
    simp only [Prod.mk.injEq] at hk
    by_cases heq : obj.ServiceOptions = serviceOptions
    · cases hex : (rkeDataKeys.lookup k8sVersion).isSome
      · simp [createOrUpdateServiceOptionCRD, recording, Lister.recording,
          Interface.recording, storeController, storeGet, storeUpdate, hget, heq,
          Upsert.apply, Upsert.target, Upsert.calls, serviceOptionUpsert, hk.1, hk.2, hex]
      · by_cases hl : obj.Labels = existLabel
        · have hu : (serviceOptionUpsert g k8sVersion serviceOptions true).update obj =
              none := by
            simp [serviceOptionUpsert, heq, hl]
          rw [Upsert.apply_eq_self _ _ _ _ hget hu]
          simp [createOrUpdateServiceOptionCRD, recording, Lister.recording,
            Interface.recording, storeController, storeGet, hget, heq, Upsert.calls, hu, hl,
            hex]
        · simp [createOrUpdateServiceOptionCRD, recording, Lister.recording,
            Interface.recording, storeController, storeGet, storeUpdate, hget, heq,
            Upsert.apply, Upsert.target, Upsert.calls, serviceOptionUpsert, hk.1, hk.2, hl, hex]
    · simp [createOrUpdateServiceOptionCRD, recording, Lister.recording,
        Interface.recording, storeController, storeGet, storeUpdate, hget, heq, Upsert.apply,
        Upsert.target, Upsert.calls, serviceOptionUpsert, hk.1, hk.2]

theorem createOrUpdateAddonCRD_body_store {SI SO WSI : Type}
    (g : Globals SI SO WSI) (addonName : String) (rkeDataKeys : GoMap Bool)
    (e : String × String) (c : Cluster SI SO WSI) (log : List (Call SI SO WSI))
    (hwf : WellKeyed (fun obj => (obj.Namespace, obj.Name)) c.Addons) :
    createOrUpdateAddonCRD.body g (recording storeController) addonName rkeDataKeys e (c, log) =
      (none,
        ({ c with
            Addons :=
              (addonUpsert g addonName e.1 e.2 (rkeDataKeys.lookup e.1).isSome).apply
                (g.GlobalNamespace, g.ToLower addonName ++ "-" ++ e.1) c.Addons },
          log ++ (addonUpsert g addonName e.1 e.2 (rkeDataKeys.lookup e.1).isSome).calls
            (.GetAddon g.GlobalNamespace (g.ToLower addonName ++ "-" ++ e.1))
            .CreateAddon .UpdateAddon
            (c.Addons (g.GlobalNamespace, g.ToLower addonName ++ "-" ++ e.1)))) := by
  obtain ⟨k8sVersion, template⟩ := e
  cases hget : c.Addons (g.GlobalNamespace, g.ToLower addonName ++ "-" ++ k8sVersion) with
  | none =>
    simp [createOrUpdateAddonCRD.body, recording, Lister.recording,
      Interface.recording, storeController, storeGet, storeCreate, hget, IsNotFound,
      Upsert.apply, Upsert.target, Upsert.calls, addonUpsert]
  | some obj =>
    have hk := hwf _ _ hget
    simp only [Prod.mk.injEq] at hk
    by_cases heq : obj.Template = template
    · cases hex : (rkeDataKeys.lookup k8sVersion).isSome
      · simp [createOrUpdateAddonCRD.body, recording, Lister.recording,
          Interface.recording, storeController, storeGet, storeUpdate, hget, heq,
          Upsert.apply, Upsert.target, Upsert.calls, addonUpsert, hk.1, hk.2, hex]
      · by_cases hl : obj.Labels = existLabel
        · have hu : (addonUpsert g addonName k8sVersion template true).update obj = none := by
            simp [addonUpsert, heq, hl]
          rw [Upsert.apply_eq_self _ _ _ _ hget hu]
          simp [createOrUpdateAddonCRD.body, recording, Lister.recording,
            Interface.recording, storeController, storeGet, hget, heq, Upsert.calls, hu, hl,
            hex]
        · simp [createOrUpdateAddonCRD.body, recording, Lister.recording,
            Interface.recording, storeController, storeGet, storeUpdate, hget, heq,
            Upsert.apply, Upsert.target, Upsert.calls, addonUpsert, hk.1, hk.2, hl, hex]
    · have hu : (addonUpsert g addonName k8sVersion template
          (rkeDataKeys.lookup k8sVersion).isSome).update obj = none := by
        simp [addonUpsert, heq]
      rw [Upsert.apply_eq_self _ _ _ _ hget hu]
      simp [createOrUpdateAddonCRD.body, recording, Lister.recording,
        Interface.recording, storeController, storeGet, hget, heq, Upsert.calls, hu]


/-! ## Sequences of steps on a store -/

theorem WellKeyed.apply {O : Type} {key : O → String × String}
    {store : String × String → Option O} (h : WellKeyed key store) (a : Action O)
    (ha : a.KeyOK key) : WellKeyed key (a.2.apply a.1 store) := by
  intro k obj hk
  by_cases hka : k = a.1
  · subst hka
    rw [Upsert.apply_self] at hk
    simp only [Option.some.injEq] at hk
    subst hk
    cases hs : store a.1 with
    | none => simpa [Upsert.target] using ha.1
    | some o =>
      cases hu : a.2.update o with
      | none => simpa [Upsert.target, hu] using h _ _ hs
      | some o' =>
        have := ha.2 _ _ hu
        simp [Upsert.target, hu, this, h _ _ hs]
  · rw [Upsert.apply_other _ _ _ _ hka] at hk
    exact h _ _ hk

theorem WellKeyed.applyAll {O : Type} {key : O → String × String} (acts : List (Action O))
    (hacts : ∀ a ∈ acts, a.KeyOK key) {store : String × String → Option O}
    (h : WellKeyed key store) : WellKeyed key (applyAll acts store) := by
  induction acts generalizing store with
  | nil => exact h
  | cons a rest ih =>
    simp only [Kdm.applyAll, List.foldl_cons]
    exact ih (fun b hb => hacts b (List.mem_cons_of_mem _ hb))
      (h.apply a (hacts a (List.mem_cons_self _ _)))

theorem applyAll_cons {O : Type} (a : Action O) (rest : List (Action O))
    (store : String × String → Option O) :
    applyAll (a :: rest) store = applyAll rest (a.2.apply a.1 store) := rfl

theorem applyAll_append {O : Type} (l1 l2 : List (Action O))
    (store : String × String → Option O) :
    applyAll (l1 ++ l2) store = applyAll l2 (applyAll l1 store) := by
  simp [applyAll, List.foldl_append]

theorem callsAll_append {O C : Type} (get : String → String → C) (create update : O → C)
    (l1 l2 : List (Action O)) (store : String × String → Option O) :
    callsAll get create update (l1 ++ l2) store =
      callsAll get create update l1 store ++
        callsAll get create update l2 (applyAll l1 store) := by
  induction l1 generalizing store with
  | nil => simp [callsAll, applyAll]
  | cons a rest ih => simp [callsAll, applyAll_cons, ih]

/-- A range loop over steps on one store of the state. -/
theorem forEach_store {α S O C : Type} (get : S → (String × String → Option O))
    (set : S → (String × String → Option O) → S)
    (hsg : ∀ s, set s (get s) = s) (hgs : ∀ s x, get (set s x) = x)
    (hss : ∀ s x y, set (set s x) y = set s y)
    (key : O → String × String) (getC : String → String → C) (createC updateC : O → C)
    (act : α → Action O) (hact : ∀ e, (act e).KeyOK key)
    (body : α → S × List C → Option GoError × (S × List C))
    (hbody : ∀ e s log, WellKeyed key (get s) →
      body e (s, log) =
        (none, (set s ((act e).2.apply (act e).1 (get s)),
          log ++ (act e).2.calls (getC (act e).1.1 (act e).1.2) createC updateC
            (get s (act e).1))))
    (l : List α) (s : S) (log : List C) (hwf : WellKeyed key (get s)) :
    forEach body l (s, log) =
      (none, (set s (applyAll (l.map act) (get s)),
        log ++ callsAll getC createC updateC (l.map act) (get s))) := by
  induction l generalizing s log with
  | nil => simp [forEach, applyAll, callsAll, hsg]
  | cons e rest ih =>
    simp only [forEach, hbody e s log hwf]
    rw [ih]
    · simp [hgs, hss, applyAll_cons, callsAll, List.append_assoc]
    · rw [hgs]
      exact hwf.apply _ (hact e)


/-- A range loop whose body runs a sequence of steps on one store of the state. -/
theorem forEach_store_list {α S O C : Type} (get : S → (String × String → Option O))
    (set : S → (String × String → Option O) → S)
    (hsg : ∀ s, set s (get s) = s) (hgs : ∀ s x, get (set s x) = x)
    (hss : ∀ s x y, set (set s x) y = set s y)
    (key : O → String × String) (getC : String → String → C) (createC updateC : O → C)
    (acts : α → List (Action O)) (hacts : ∀ e, ∀ a ∈ acts e, a.KeyOK key)
    (body : α → S × List C → Option GoError × (S × List C))
    (hbody : ∀ e s log, WellKeyed key (get s) →
      body e (s, log) =
        (none, (set s (applyAll (acts e) (get s)),
          log ++ callsAll getC createC updateC (acts e) (get s))))
    (l : List α) (s : S) (log : List C) (hwf : WellKeyed key (get s)) :
    forEach body l (s, log) =
      (none, (set s (applyAll (l.flatMap acts) (get s)),
        log ++ callsAll getC createC updateC (l.flatMap acts) (get s))) := by
  induction l generalizing s log with
  | nil => simp [forEach, applyAll, callsAll, hsg]
  | cons e rest ih =>
    simp only [forEach, hbody e s log hwf]
    rw [ih]
    · simp [hgs, hss, applyAll_append, callsAll_append, List.append_assoc]
    · rw [hgs]
      exact WellKeyed.applyAll _ (hacts e) hwf

theorem systemImageAction_keyOK {SI SO WSI : Type} [DecidableEq SI] (g : Globals SI SO WSI)
    (e : String × SI) :
    (systemImageAction g e).KeyOK (fun obj => (obj.Namespace, obj.Name)) := by
  refine ⟨rfl, ?_⟩
  intro obj obj' h
  simp only [systemImageAction, systemImageUpsert] at h
  split at h
  · simp at h
  · simp only [Option.some.injEq] at h; subst h; rfl

theorem windowsSystemImageAction_keyOK {SI SO WSI : Type} [DecidableEq WSI]
    (g : Globals SI SO WSI) (e : String × WSI) :
    (windowsSystemImageAction g e).KeyOK (fun obj => (obj.Namespace, obj.Name)) := by
  refine ⟨rfl, ?_⟩
  intro obj obj' h
  simp only [windowsSystemImageAction, windowsSystemImageUpsert] at h
  split at h
  · simp at h
  · simp only [Option.some.injEq] at h; subst h; rfl

theorem windowsServiceOptionAction_keyOK {SI SO WSI : Type} [DecidableEq SO]
    (g : Globals SI SO WSI) (e : String × SO) :
    (windowsServiceOptionAction g e).KeyOK (fun obj => (obj.Namespace, obj.Name)) := by
  refine ⟨rfl, ?_⟩
  intro obj obj' h
  simp only [windowsServiceOptionAction, windowsServiceOptionUpsert] at h
  split at h
  · simp at h
  · simp only [Option.some.injEq] at h; subst h; rfl

theorem serviceOptionAction_keyOK {SI SO WSI : Type} [DecidableEq SO]
    (g : Globals SI SO WSI) (rkeDataKeys : GoMap Bool) (e : String × SO) :
    (serviceOptionAction g rkeDataKeys e).KeyOK (fun obj => (obj.Namespace, obj.Name)) := by
  refine ⟨rfl, ?_⟩
  intro obj obj' h
  simp only [serviceOptionAction, serviceOptionUpsert] at h
  split at h
  · split at h
    · simp at h
    · split at h <;> (simp only [Option.some.injEq] at h; subst h; rfl)
  · simp only [Option.some.injEq] at h; subst h; rfl

theorem addonAction_keyOK {SI SO WSI : Type} (g : Globals SI SO WSI) (addonName : String)
    (e : String × String) :
    (addonAction g addonName e).KeyOK (fun obj => (obj.Namespace, obj.Name)) := by
  refine ⟨rfl, ?_⟩
  intro obj obj' h
  simp only [addonAction, addonUpsert] at h
  split at h
  · split at h
    · simp at h
    · split at h <;> (simp only [Option.some.injEq] at h; subst h; rfl)
  · simp at h

/-! ## The reconcilers on the store -/

theorem saveServiceOptions_store {SI SO WSI : Type} [DecidableEq SO] (g : Globals SI SO WSI)
    (l : GoMap SO) (c : Cluster SI SO WSI) (log : List (Call SI SO WSI))
    (hwf : WellKeyed (fun obj => (obj.Namespace, obj.Name)) c.ServiceOptions) :
    saveServiceOptions g (recording storeController) l (c, log) =
      (none,
        ({ c with
            ServiceOptions :=
              applyAll (l.map (serviceOptionAction g (getRKEVendorOptions g)))
                c.ServiceOptions },
          log ++ callsAll .GetServiceOption .CreateServiceOption .UpdateServiceOption
            (l.map (serviceOptionAction g (getRKEVendorOptions g))) c.ServiceOptions)) := by
  unfold saveServiceOptions
  exact forEach_store (fun c : Cluster SI SO WSI => c.ServiceOptions)
    (fun c x => { c with ServiceOptions := x }) (fun _ => rfl) (fun _ _ => rfl)
    (fun _ _ _ => rfl) (fun obj => (obj.Namespace, obj.Name)) _ _ _
    (serviceOptionAction g (getRKEVendorOptions g)) (serviceOptionAction_keyOK g _) _
    (fun e s log h => createOrUpdateServiceOptionCRD_store g e.1 e.2 _ s log h) l c log hwf

theorem createOrUpdateAddonCRD_store {SI SO WSI : Type} (g : Globals SI SO WSI)
    (addonName : String) (templateData : GoMap String) (c : Cluster SI SO WSI)
    (log : List (Call SI SO WSI))
    (hwf : WellKeyed (fun obj => (obj.Namespace, obj.Name)) c.Addons) :
    createOrUpdateAddonCRD g (recording storeController) addonName templateData (c, log) =
      (none,
        ({ c with Addons := applyAll (templateData.map (addonAction g addonName)) c.Addons },
          log ++ callsAll .GetAddon .CreateAddon .UpdateAddon
            (templateData.map (addonAction g addonName)) c.Addons)) := by
  unfold createOrUpdateAddonCRD
  exact forEach_store (fun c : Cluster SI SO WSI => c.Addons)
    (fun c x => { c with Addons := x }) (fun _ => rfl) (fun _ _ => rfl)
    (fun _ _ _ => rfl) (fun obj => (obj.Namespace, obj.Name)) _ _ _
    (addonAction g addonName) (addonAction_keyOK g addonName) _
    (fun e s log h => createOrUpdateAddonCRD_body_store g addonName _ e s log h)
    templateData c log hwf

theorem saveAddons_store {SI SO WSI : Type} (g : Globals SI SO WSI)
    (K : GoMap (GoMap String)) (c : Cluster SI SO WSI) (log : List (Call SI SO WSI))
    (hwf : WellKeyed (fun obj => (obj.Namespace, obj.Name)) c.Addons) :
    saveAddons g (recording storeController) K (c, log) =
      (none,
        ({ c with Addons := applyAll (addonActions g K) c.Addons },
          log ++ callsAll .GetAddon .CreateAddon .UpdateAddon (addonActions g K) c.Addons)) := by
  unfold saveAddons addonActions
  exact forEach_store_list (fun c : Cluster SI SO WSI => c.Addons)
    (fun c x => { c with Addons := x }) (fun _ => rfl) (fun _ _ => rfl)
    (fun _ _ _ => rfl) (fun obj => (obj.Namespace, obj.Name)) _ _ _
    (fun a => a.2.map (addonAction g a.1))
    (fun e a ha => by
      obtain ⟨x, _, rfl⟩ := List.mem_map.1 ha
      exact addonAction_keyOK g e.1 x) _
    (fun e s log h => createOrUpdateAddonCRD_store g e.1 e.2 s log h) K c log hwf

theorem saveWindowsInfo_store {SI SO WSI : Type} [DecidableEq SO] [DecidableEq WSI]
    (g : Globals SI SO WSI) (l1 : GoMap WSI) (l2 : GoMap SO) (c : Cluster SI SO WSI)
    (log : List (Call SI SO WSI))
    (hwf1 : WellKeyed (fun obj => (obj.Namespace, obj.Name)) c.WindowsSystemImages)
    (hwf2 : WellKeyed (fun obj => (obj.Namespace, obj.Name)) c.ServiceOptions) :
    saveWindowsInfo g (recording storeController) l1 l2 (c, log) =
      (none,
        ({ c with
            WindowsSystemImages :=
              applyAll (l1.map (windowsSystemImageAction g)) c.WindowsSystemImages
            ServiceOptions :=
              applyAll (l2.map (windowsServiceOptionAction g)) c.ServiceOptions },
          (log ++ callsAll .GetWindowsSystemImage .CreateWindowsSystemImage
              .UpdateWindowsSystemImage (l1.map (windowsSystemImageAction g))
              c.WindowsSystemImages) ++
            callsAll .GetServiceOption .CreateServiceOption .UpdateServiceOption
              (l2.map (windowsServiceOptionAction g)) c.ServiceOptions)) := by
  unfold saveWindowsInfo
  rw [forEach_store (fun c : Cluster SI SO WSI => c.WindowsSystemImages)
    (fun c x => { c with WindowsSystemImages := x }) (fun _ => rfl) (fun _ _ => rfl)
    (fun _ _ _ => rfl) (fun obj => (obj.Namespace, obj.Name)) _ _ _
    (windowsSystemImageAction g) (windowsSystemImageAction_keyOK g) _
    (fun e s log h => createOrUpdateWindowsSystemImageCRD_store g e.1 e.2 true s log h)
    l1 c log hwf1]
  simp only
  exact forEach_store (fun c : Cluster SI SO WSI => c.ServiceOptions)
    (fun c x => { c with ServiceOptions := x }) (fun _ => rfl) (fun _ _ => rfl)
    (fun _ _ _ => rfl) (fun obj => (obj.Namespace, obj.Name)) _ _ _
    (windowsServiceOptionAction g) (windowsServiceOptionAction_keyOK g) _
    (fun e s log h => createOrUpdateWindowsServiceOptionCRD_store g e.1 e.2 s log h)
    l2 _ _ hwf2


theorem saveSystemImages_loop_store {SI SO WSI : Type} [DecidableEq SI]
    (g : Globals SI SO WSI) (info : GoMap K8sVersionInfo) (R : String) (l : GoMap SI)
    (m : GoMap String) (c : Cluster SI SO WSI) (log : List (Call SI SO WSI))
    (hwf : WellKeyed (fun obj => (obj.Namespace, obj.Name)) c.SystemImages) :
    saveSystemImages.loop g (recording storeController) info R l m (c, log) =
      (.ok (representatives g info R l.keys m),
        ({ c with
            SystemImages :=
              applyAll
                ((l.filter (fun e => !skipsEntry g info R e.1)).map (systemImageAction g))
                c.SystemImages },
          log ++ callsAll .GetSystemImage .CreateSystemImage .UpdateSystemImage
            ((l.filter (fun e => !skipsEntry g info R e.1)).map (systemImageAction g))
            c.SystemImages)) := by
  induction l generalizing m c log with
  | nil => simp [saveSystemImages.loop, representatives, GoMap.keys, applyAll, callsAll]
  | cons e rest ih =>
    obtain ⟨v, img⟩ := e
    simp only [saveSystemImages.loop]
    by_cases hskip : skipsEntry g info R v = true
    · have hskip' := hskip
      simp only [skipsEntry] at hskip
      rw [if_pos hskip, ih _ _ _ hwf]
      simp [representatives, GoMap.keys, hskip']
    · have hskip' := hskip
      simp only [skipsEntry] at hskip
      rw [if_neg hskip, createOrUpdateSystemImageCRD_store g v img c log hwf]
      have hwf' : WellKeyed (fun obj : RKEK8sSystemImage SI => (obj.Namespace, obj.Name))
          ((systemImageUpsert g v img).apply (g.GlobalNamespace, v) c.SystemImages) :=
        hwf.apply (systemImageAction g (v, img)) (systemImageAction_keyOK g (v, img))
      simp only
      by_cases hex : excludesMajor g info R (GetTagMajorVersion v) = true
      · have hex' := hex
        simp only [excludesMajor] at hex
        rw [if_pos hex, ih _ _ _ hwf']
        simp [representatives, GoMap.keys, hskip', hex', applyAll_cons, callsAll,
          systemImageAction, List.append_assoc]
      · have hex' := hex
        simp only [excludesMajor] at hex
        rw [if_neg hex]
        split
        · rename_i hlt
          rw [ih _ _ _ hwf']
          simp [representatives, GoMap.keys, hskip', hex', hlt, applyAll_cons, callsAll,
            systemImageAction, List.append_assoc]
        · rename_i hlt
          rw [ih _ _ _ hwf']
          simp [representatives, GoMap.keys, hskip', hex', hlt, applyAll_cons, callsAll,
            systemImageAction, List.append_assoc]

theorem recording_Set {SI SO WSI : Type} (setting : Setting)
    (s : Cluster SI SO WSI × List (Call SI SO WSI)) (value : String) :
    (storeSettings.recording : Settings (Cluster SI SO WSI × List (Call SI SO WSI))).Set
        setting s value =
      (none, ({ s.1 with Settings := Function.update s.1.Settings setting (some value) },
        s.2 ++ [.SetSetting setting value])) := rfl

theorem applyAll_other {O : Type} (acts : List (Action O)) (store : String × String → Option O)
    (k : String × String) (hk : k ∉ acts.map Prod.fst) : applyAll acts store k = store k := by
  induction acts generalizing store with
  | nil => rfl
  | cons a rest ih =>
    simp only [List.map_cons, List.mem_cons, not_or] at hk
    rw [applyAll_cons, ih _ hk.2, Upsert.apply_other _ _ _ _ hk.1]

theorem applyAll_self {O : Type} (acts : List (Action O)) (store : String × String → Option O)
    (hnd : (acts.map Prod.fst).Nodup) (a : Action O) (ha : a ∈ acts) :
    applyAll acts store a.1 = some (a.2.target (store a.1)) := by
  induction acts generalizing store with
  | nil => simp at ha
  | cons b rest ih =>
    simp only [List.map_cons, List.nodup_cons] at hnd
    rw [applyAll_cons]
    rcases List.mem_cons.1 ha with rfl | ha
    · rw [applyAll_other _ _ _ hnd.1, Upsert.apply_self]
    · have hne : a.1 ≠ b.1 := by
        intro h
        exact hnd.1 (h ▸ List.mem_map_of_mem Prod.fst ha)
      rw [ih _ hnd.2 ha, Upsert.apply_other _ _ _ _ hne]

theorem Upsert.apply_comm {O : Type} (a b : Action O) (h : a.1 ≠ b.1)
    (store : String × String → Option O) :
    b.2.apply b.1 (a.2.apply a.1 store) = a.2.apply a.1 (b.2.apply b.1 store) := by
  unfold Upsert.apply
  rw [Function.update_noteq h.symm, Function.update_noteq h, Function.update_comm h.symm]

/-- Steps on distinct keys can be run in any order. -/
theorem applyAll_perm {O : Type} {l1 l2 : List (Action O)} (hp : l1.Perm l2)
    (hnd : (l1.map Prod.fst).Nodup) (store : String × String → Option O) :
    applyAll l1 store = applyAll l2 store := by
  unfold applyAll
  refine List.Perm.foldl_eq' hp ?_ store
  intro a ha b hb z
  by_cases hab : a = b
  · subst hab; rfl
  · have hk : a.1 ≠ b.1 := by
      intro h
      exact hab (List.inj_on_of_nodup_map hnd ha hb h)
    exact Upsert.apply_comm a b hk z

theorem mem_callsAll_get {O C : Type} (get : String → String → C) (create update : O → C)
    (acts : List (Action O)) (store : String × String → Option O) (a : Action O)
    (ha : a ∈ acts) : get a.1.1 a.1.2 ∈ callsAll get create update acts store := by
  induction acts generalizing store with
  | nil => simp at ha
  | cons b rest ih =>
    simp only [callsAll, List.mem_append]
    rcases List.mem_cons.1 ha with rfl | ha
    · left
      cases hs : store a.1 with
      | none => simp [Upsert.calls]
      | some o => cases hu : a.2.update o <;> simp [Upsert.calls, hu]
    · right; exact ih _ ha

/-- On every settings sink, the calls of `SaveSettings` are an initial part of its sequence of
writes. -/
theorem SaveSettings_log {σ SI SO WSI : Type} (g : Globals SI SO WSI) (st : Settings σ)
    (cur : GoMap Unit) (svc : GoMap SO) (table : GoMap String) (R : String)
    (maxVersions : List String) (s : σ) (log : List (Call SI SO WSI)) :
    ∃ k, (SaveSettings g st.recording cur svc table R maxVersions (s, log)).2.2 =
      log ++ ((settingsWrites g cur svc table R maxVersions).take k).map
        (fun p => Call.SetSetting p.1 p.2) := by
  unfold SaveSettings settingsWrites
  simp only [Settings.recording]
  cases g.marshalCurrVersions cur with
  | error err => exact ⟨0, by simp⟩
  | ok d1 =>
    simp only
    rcases h1 : (st.Set .KubernetesVersionToSystemImages s d1).1 with _ | e
    · simp only
      rcases h2 : (st.Set .KubernetesVersionsCurrent
          (st.Set .KubernetesVersionToSystemImages s d1).2
          (",".intercalate (sortStrings cur.keys))).1 with _ | e
      · simp only
        cases g.marshalSvcOptions svc with
        | error err => exact ⟨2, by simp⟩
        | ok d2 =>
          simp only
          rcases h3 : (st.Set .KubernetesVersionToServiceOptions
            (st.Set .KubernetesVersionsCurrent
              (st.Set .KubernetesVersionToSystemImages s d1).2
              (",".intercalate (sortStrings cur.keys))).2 d2).1 with _ | e
          · simp only
            rcases h4 : (st.Set .KubernetesVersion
              (st.Set .KubernetesVersionToServiceOptions
                (st.Set .KubernetesVersionsCurrent
                  (st.Set .KubernetesVersionToSystemImages s d1).2
                  (",".intercalate (sortStrings cur.keys))).2 d2).2
              (SaveSettings.defaultK8sVersion table R)).1 with _ | e
            · simp only
              cases maxVersions with
              | nil => exact ⟨4, by simp⟩
              | cons a as =>
                simp only
                rcases h5 : (st.Set .UIKubernetesSupportedVersions
                  (st.Set .KubernetesVersion
                    (st.Set .KubernetesVersionToServiceOptions
                      (st.Set .KubernetesVersionsCurrent
                        (st.Set .KubernetesVersionToSystemImages s d1).2
                        (",".intercalate (sortStrings cur.keys))).2 d2).2
                    (SaveSettings.defaultK8sVersion table R)).2
                  (">=" ++ a ++ ".x <=" ++
                    GetTagMajorVersion (SaveSettings.defaultK8sVersion table R) ++ ".x")).1
                  with _ | e
                · exact ⟨6, by simp⟩
                · exact ⟨5, by simp⟩
            · exact ⟨4, by simp⟩
          · exact ⟨3, by simp⟩
      · exact ⟨2, by simp⟩
    · exact ⟨1, by simp⟩


theorem mem_writesTo {SI SO WSI : Type} (setting : Setting) (log : List (Call SI SO WSI))
    (value : String) :
    value ∈ writesTo setting log ↔ Call.SetSetting setting value ∈ log := by
  simp only [writesTo, List.mem_filterMap]
  constructor
  · rintro ⟨x, hx, h⟩
    cases x <;> simp at h
    obtain ⟨h1, h2⟩ := h
    subst h1 h2
    exact hx
  · intro h
    exact ⟨_, h, by simp⟩

theorem mem_settingsWrites_version {SI SO WSI : Type} (g : Globals SI SO WSI)
    (cur : GoMap Unit) (svc : GoMap SO) (table : GoMap String) (R : String)
    (maxVersions : List String) (value : String)
    (h : (Setting.KubernetesVersion, value) ∈ settingsWrites g cur svc table R maxVersions) :
    value = SaveSettings.defaultK8sVersion table R := by
  unfold settingsWrites at h
  cases h1 : g.marshalCurrVersions cur with
  | error e => simp [h1] at h
  | ok d1 =>
    cases h2 : g.marshalSvcOptions svc with
    | error e => simp [h1, h2] at h
    | ok d2 =>
      cases maxVersions with
      | nil => simpa [h1, h2] using h
      | cons a as => simpa [h1, h2] using h

/-- C10: when the two maps are serialised without error and the three earlier writes succeed,
`SaveSettings` writes the kubernetes-version setting exactly once, and the value written is
`table[R]` when `R` is a key of the table with a non-empty value and `table["default"]` (the
empty string when the table has no such key) otherwise. On every settings sink and from every
state, a value that `SaveSettings` writes to the kubernetes-version setting is that value. -/
theorem default_version_resolution {σ SI SO WSI : Type} (g : Globals SI SO WSI)
    (st : Settings σ) (cur : GoMap Unit) (svc : GoMap SO) (table : GoMap String) (R : String)
    (maxVersions : List String) (s : σ) (d1 d2 : String)
    (hm1 : g.marshalCurrVersions cur = .ok d1) (hm2 : g.marshalSvcOptions svc = .ok d2)
    (h1 : (st.Set .KubernetesVersionToSystemImages s d1).1 = none)
    (h2 : (st.Set .KubernetesVersionsCurrent (st.Set .KubernetesVersionToSystemImages s d1).2
        (",".intercalate (sortStrings cur.keys))).1 = none)
    (h3 : (st.Set .KubernetesVersionToServiceOptions
        (st.Set .KubernetesVersionsCurrent (st.Set .KubernetesVersionToSystemImages s d1).2
          (",".intercalate (sortStrings cur.keys))).2 d2).1 = none) :
    ∃ written : String,
      writesTo .KubernetesVersion
          (SaveSettings g (st.recording : Settings (σ × List (Call SI SO WSI))) cur svc table R
            maxVersions (s, [])).2.2 = [written] ∧
      (∀ v, table.lookup R = some v → v ≠ "" → written = v) ∧
      ((table.lookup R = none ∨ table.lookup R = some "") →
        written = (table.lookup "default").getD "") ∧
      (∀ (st' : Settings σ) (s' : σ),
        ∀ value ∈ writesTo .KubernetesVersion
          (SaveSettings g (st'.recording : Settings (σ × List (Call SI SO WSI))) cur svc table
            R maxVersions (s', [])).2.2, value = written) := by
  refine ⟨SaveSettings.defaultK8sVersion table R, ?_, ?_, ?_, ?_⟩
  · unfold SaveSettings
    simp only [Settings.recording, hm1, hm2, h1, h2, h3]
    rcases h4 : (st.Set .KubernetesVersion
        (st.Set .KubernetesVersionToServiceOptions
          (st.Set .KubernetesVersionsCurrent
            (st.Set .KubernetesVersionToSystemImages s d1).2
            (",".intercalate (sortStrings cur.keys))).2 d2).2
        (SaveSettings.defaultK8sVersion table R)).1 with _ | e
    · simp only
      cases maxVersions with
      | nil => simp [writesTo]
      | cons a as =>
        simp only
        rcases h5 : (st.Set .UIKubernetesSupportedVersions
          (st.Set .KubernetesVersion
            (st.Set .KubernetesVersionToServiceOptions
              (st.Set .KubernetesVersionsCurrent
                (st.Set .KubernetesVersionToSystemImages s d1).2
                (",".intercalate (sortStrings cur.keys))).2 d2).2
            (SaveSettings.defaultK8sVersion table R)).2
          (">=" ++ a ++ ".x <=" ++
            GetTagMajorVersion (SaveSettings.defaultK8sVersion table R) ++ ".x")).1
          with _ | e
        · simp [writesTo]
        · simp [writesTo]
    · simp [writesTo]
  · intro v hv hne
    simp [SaveSettings.defaultK8sVersion, hv, hne]
  · intro h
    rcases h with h | h <;> simp [SaveSettings.defaultK8sVersion, h]
  · intro st' s' value hvalue
    rw [mem_writesTo] at hvalue
    obtain ⟨k, hk⟩ := SaveSettings_log g st' cur svc table R maxVersions s'
      ([] : List (Call SI SO WSI))
    rw [hk] at hvalue
    simp only [List.nil_append, List.mem_map] at hvalue
    obtain ⟨p, hp, hpe⟩ := hvalue
    simp only [Call.SetSetting.injEq] at hpe
    have hp' : (Setting.KubernetesVersion, value) ∈
        settingsWrites g cur svc table R maxVersions := by
      rw [← hpe.1, ← hpe.2]; exact List.mem_of_mem_take hp
    exact mem_settingsWrites_version g cur svc table R maxVersions value hp'

/-- C10 (witness): with the table `2.3 ↦ v1.18.9` and running version `2.3` the value written
to the kubernetes-version setting is `v1.18.9`. -/
theorem default_version_resolution_witness :
    (∃ written : String,
      writesTo .KubernetesVersion
          (SaveSettings sampleGlobals
            (sampleSettings.recording :
              Settings (Cluster String String String × List (Call String String String)))
            [] [] [("2.3", "v1.18.9")] "2.3" [] (sampleEmpty, [])).2.2 = [written] ∧
      (∀ v, List.lookup "2.3" [("2.3", "v1.18.9")] = some v → v ≠ "" → written = v) ∧
      ((List.lookup "2.3" [("2.3", "v1.18.9")] = none ∨
          List.lookup "2.3" [("2.3", "v1.18.9")] = some "") →
        written = (List.lookup "default" [("2.3", "v1.18.9")]).getD "") ∧
      (∀ (st' : Settings (Cluster String String String)) (s' : Cluster String String String),
        ∀ value ∈ writesTo .KubernetesVersion
          (SaveSettings sampleGlobals
            (st'.recording :
              Settings (Cluster String String String × List (Call String String String)))
            [] [] [("2.3", "v1.18.9")] "2.3" [] (s', [])).2.2, value = written)) ∧
    writesTo .KubernetesVersion
        (SaveSettings sampleGlobals
          (sampleSettings.recording :
            Settings (Cluster String String String × List (Call String String String)))
          [] [] [("2.3", "v1.18.9")] "2.3" [] (sampleEmpty, [])).2.2 = ["v1.18.9"] :=
  ⟨default_version_resolution sampleGlobals sampleSettings [] [] [("2.3", "v1.18.9")] "2.3" []
      sampleEmpty "" "" rfl rfl rfl rfl rfl,
    by decide⟩


theorem SaveSettings_store_writes {SI SO WSI : Type} (g : Globals SI SO WSI)
    (cur : GoMap Unit) (svc : GoMap SO) (table : GoMap String) (R : String)
    (maxVersions : List String) (c : Cluster SI SO WSI) (log : List (Call SI SO WSI)) :
    ∃ settings : Setting → Option String,
      (SaveSettings g storeSettings.recording cur svc table R maxVersions (c, log)).2 =
        ({ c with Settings := settings },
          log ++ (settingsWrites g cur svc table R maxVersions).map
            (fun p => Call.SetSetting p.1 p.2)) := by
  unfold SaveSettings settingsWrites
  simp only [recording_Set]
  cases g.marshalCurrVersions cur with
  | error err => exact ⟨c.Settings, by simp⟩
  | ok d1 =>
    cases g.marshalSvcOptions svc with
    | error err => exact ⟨_, by simp; rfl⟩
    | ok d2 =>
      cases maxVersions with
      | nil => exact ⟨_, by simp; rfl⟩
      | cons a as => exact ⟨_, by simp; rfl⟩

theorem saveSystemImages_store {SI SO WSI : Type} [DecidableEq SI] [Inhabited SO]
    (g : Globals SI SO WSI) (l : GoMap SI) (info : GoMap K8sVersionInfo) (so : GoMap SO)
    (table : GoMap String) (c : Cluster SI SO WSI) (log : List (Call SI SO WSI))
    (hwf : WellKeyed (fun obj => (obj.Namespace, obj.Name)) c.SystemImages) :
    ∃ (settings : Setting → Option String) (writes : List (Setting × String)),
      (saveSystemImages g storeSettings.recording (recording storeController) l info so table
          (c, log)).2 =
        ({ c with
            SystemImages :=
              applyAll
                ((l.filter (fun e => !skipsEntry g info g.GetRancherVersion e.1)).map
                  (systemImageAction g))
                c.SystemImages
            Settings := settings },
          (log ++ callsAll .GetSystemImage .CreateSystemImage .UpdateSystemImage
            ((l.filter (fun e => !skipsEntry g info g.GetRancherVersion e.1)).map
              (systemImageAction g))
            c.SystemImages) ++ writes.map (fun p => Call.SetSetting p.1 p.2)) ∧
      writes =
        settingsWrites g
          ((representatives g info g.GetRancherVersion l.keys []).foldl
            (fun m e => m.set e.2 ()) [])
          ((representatives g info g.GetRancherVersion l.keys []).foldl
            (fun m e => m.set e.2 ((so.lookup e.1).getD default)) [])
          table g.GetRancherVersion
          (sortStrings (representatives g info g.GetRancherVersion l.keys []).keys) := by
  unfold saveSystemImages
  simp only [saveSystemImages_loop_store g info g.GetRancherVersion l [] c log hwf,
    updateSettings]
  obtain ⟨settings, h⟩ := SaveSettings_store_writes g
    ((representatives g info g.GetRancherVersion l.keys []).foldl (fun m e => m.set e.2 ()) [])
    ((representatives g info g.GetRancherVersion l.keys []).foldl
      (fun m e => m.set e.2 ((so.lookup e.1).getD default)) [])
    table g.GetRancherVersion
    (sortStrings (representatives g info g.GetRancherVersion l.keys []).keys)
    { c with
      SystemImages :=
        applyAll
          ((l.filter (fun e => !skipsEntry g info g.GetRancherVersion e.1)).map
            (systemImageAction g))
          c.SystemImages }
    (log ++ callsAll .GetSystemImage .CreateSystemImage .UpdateSystemImage
      ((l.filter (fun e => !skipsEntry g info g.GetRancherVersion e.1)).map
        (systemImageAction g))
      c.SystemImages)
  exact ⟨settings, _, h, rfl⟩

/-- An entry that the loop does not skip is looked up, and after `saveSystemImages` the store
holds its object with the payload of the catalog. -/
theorem saveSystemImages_reconciles {SI SO WSI : Type} [DecidableEq SI] [Inhabited SO]
    (g : Globals SI SO WSI) (l : GoMap SI) (info : GoMap K8sVersionInfo) (so : GoMap SO)
    (table : GoMap String) (c : Cluster SI SO WSI) (log : List (Call SI SO WSI))
    (hwf : WellKeyed (fun obj => (obj.Namespace, obj.Name)) c.SystemImages) (hl : l.WF)
    (v : String) (img : SI) (hv : (v, img) ∈ l)
    (hskip : skipsEntry g info g.GetRancherVersion v = false) :
    Call.GetSystemImage g.GlobalNamespace v ∈
        (saveSystemImages g storeSettings.recording (recording storeController) l info so
          table (c, log)).2.2 ∧
      ∃ obj,
        (saveSystemImages g storeSettings.recording (recording storeController) l info so
          table (c, log)).2.1.SystemImages (g.GlobalNamespace, v) = some obj ∧
        obj.SystemImages = img := by
  obtain ⟨settings, writes, h, -⟩ := saveSystemImages_store g l info so table c log hwf
  rw [h]
  have hmem : systemImageAction g (v, img) ∈
      (l.filter (fun e => !skipsEntry g info g.GetRancherVersion e.1)).map
        (systemImageAction g) :=
    List.mem_map_of_mem _ (List.mem_filter.2 ⟨hv, by simp [hskip]⟩)
  have hnd : (((l.filter (fun e => !skipsEntry g info g.GetRancherVersion e.1)).map
      (systemImageAction g)).map Prod.fst).Nodup := by
    have h1 : ((l.filter (fun e => !skipsEntry g info g.GetRancherVersion e.1)).map
        Prod.fst).Nodup := (List.Nodup.sublist ((List.filter_sublist _).map _) hl)
    rw [List.map_map]
    have h2 := h1.map (f := fun k : String => (g.GlobalNamespace, k))
      (fun a b hab => by simpa using hab)
    simpa [List.map_map, Function.comp_def, systemImageAction] using h2
  refine ⟨?_, ?_⟩
  · simp only [List.mem_append]
    left; right
    exact mem_callsAll_get _ _ _ _ _ _ hmem
  · have := applyAll_self _ c.SystemImages hnd _ hmem
    simp only [systemImageAction] at this
    refine ⟨_, this, ?_⟩
    cases hs : c.SystemImages (g.GlobalNamespace, v) with
    | none => simp [Upsert.target, systemImageUpsert]
    | some o =>
      by_cases ho : o.SystemImages = img
      · simp [Upsert.target, systemImageUpsert, ho]
      · simp [Upsert.target, systemImageUpsert, ho]


theorem wellKeyed_empty :
    WellKeyed (fun obj : RKEK8sSystemImage String => (obj.Namespace, obj.Name))
      sampleEmpty.SystemImages := by
  intro k obj h
  simp [sampleEmpty, Cluster.empty] at h

theorem skipsEntry_eq_false_of_min {SI SO WSI : Type} (g : Globals SI SO WSI)
    (info : GoMap K8sVersionInfo) (R v : String) (record : K8sVersionInfo)
    (hrec : info.lookup v = some record)
    (hge : 0 ≤ g.CompareSimple R record.MinRancherVersion) :
    skipsEntry g info R v = false := by
  simp only [skipsEntry, hrec, toIgnoreForAllK8s_eq]
  simp only [decide_eq_false_iff_not, not_and, not_lt]
  exact fun _ => hge

/-- C6: the result of `toIgnoreForAllK8s` is the same for every two values of
`MaxRancherVersion`. Hence an entry whose own record has `MinRancherVersion` set, no
deprecation bound, and a running version that is not below the minimum is not ignored,
whatever `MaxRancherVersion` is: on the store, `saveSystemImages` looks its object up and
leaves it persisted with the payload of the catalog. -/
theorem min_version_override {SI SO WSI : Type} [DecidableEq SI] [Inhabited SO]
    (g : Globals SI SO WSI) (l : GoMap SI) (info : GoMap K8sVersionInfo) (so : GoMap SO)
    (table : GoMap String) (c : Cluster SI SO WSI)
    (hwf : WellKeyed (fun obj => (obj.Namespace, obj.Name)) c.SystemImages) (hl : l.WF)
    (v : String) (img : SI) (hv : (v, img) ∈ l) (record : K8sVersionInfo)
    (hrec : info.lookup v = some record) (_hmin : record.MinRancherVersion ≠ "")
    (_hdep : record.DeprecateRancherVersion = "")
    (hge : 0 ≤ g.CompareSimple g.GetRancherVersion record.MinRancherVersion) :
    (∀ (other : K8sVersionInfo) (R max1 max2 : String),
      toIgnoreForAllK8s g { other with MaxRancherVersion := max1 } R =
        toIgnoreForAllK8s g { other with MaxRancherVersion := max2 } R) ∧
    toIgnoreForAllK8s g record g.GetRancherVersion = false ∧
    Call.GetSystemImage g.GlobalNamespace v ∈
      (saveSystemImages g storeSettings.recording (recording storeController) l info so
        table (c, [])).2.2 ∧
    ∃ obj,
      (saveSystemImages g storeSettings.recording (recording storeController) l info so
        table (c, [])).2.1.SystemImages (g.GlobalNamespace, v) = some obj ∧
      obj.SystemImages = img := by
  have hskip := skipsEntry_eq_false_of_min g info g.GetRancherVersion v record hrec hge
  refine ⟨?_, ?_, saveSystemImages_reconciles g l info so table c [] hwf hl v img hv hskip⟩
  · intro other R max1 max2
    simp [toIgnoreForAllK8s]
  · simpa [skipsEntry, hrec] using hskip

/-- C6 (witness): minimum `2.4`, maximum `2.2`, running version `2.5`: the entry `v1.18.9` is
created. -/
theorem min_version_override_witness :
    0 < sampleGlobals25.CompareSimple "2.5" "2.2" ∧
    ((∀ (other : K8sVersionInfo) (R max1 max2 : String),
      toIgnoreForAllK8s sampleGlobals25 { other with MaxRancherVersion := max1 } R =
        toIgnoreForAllK8s sampleGlobals25 { other with MaxRancherVersion := max2 } R) ∧
    toIgnoreForAllK8s sampleGlobals25
      { MinRancherVersion := "2.4", MaxRancherVersion := "2.2", DeprecateRancherVersion := "" }
      sampleGlobals25.GetRancherVersion = false ∧
    Call.GetSystemImage sampleGlobals25.GlobalNamespace "v1.18.9" ∈
      (saveSystemImages sampleGlobals25 sampleSettings.recording (recording sampleStore)
        [("v1.18.9", "images")]
        [("v1.18.9", { MinRancherVersion := "2.4", MaxRancherVersion := "2.2",
                       DeprecateRancherVersion := "" })]
        [] [] (sampleEmpty, [])).2.2 ∧
    ∃ obj,
      (saveSystemImages sampleGlobals25 sampleSettings.recording (recording sampleStore)
        [("v1.18.9", "images")]
        [("v1.18.9", { MinRancherVersion := "2.4", MaxRancherVersion := "2.2",
                       DeprecateRancherVersion := "" })]
        [] [] (sampleEmpty, [])).2.1.SystemImages (sampleGlobals25.GlobalNamespace, "v1.18.9") =
        some obj ∧
      obj.SystemImages = "images") :=
  ⟨by decide,
    min_version_override sampleGlobals25 [("v1.18.9", "images")]
      [("v1.18.9", { MinRancherVersion := "2.4", MaxRancherVersion := "2.2",
                     DeprecateRancherVersion := "" })]
      [] [] sampleEmpty wellKeyed_empty (by decide) "v1.18.9" "images" (by decide)
      { MinRancherVersion := "2.4", MaxRancherVersion := "2.2", DeprecateRancherVersion := "" }
      (by decide) (by decide) rfl (by decide)⟩


theorem lookup_mem {V : Type} (m : GoMap V) (k : String) (v : V)
    (h : m.lookup k = some v) : (k, v) ∈ m := by
  induction m with
  | nil => simp at h
  | cons e rest ih =>
    obtain ⟨a, b⟩ := e
    rw [lookup_cons_ite] at h
    by_cases hk : k = a
    · simp only [hk, if_true, Option.some.injEq] at h
      simp [hk, h]
    · simp only [hk, if_false] at h
      exact List.mem_cons_of_mem _ (ih h)

theorem GoMap.mem_set {V : Type} (m : GoMap V) (k : String) (v : V) (x : String × V)
    (h : x ∈ m.set k v) : x = (k, v) ∨ x ∈ m := by
  induction m with
  | nil => simpa [GoMap.set] using h
  | cons e rest ih =>
    obtain ⟨a, b⟩ := e
    simp only [GoMap.set] at h
    split at h
    · rcases List.mem_cons.1 h with h | h
      · exact Or.inl h
      · exact Or.inr (List.mem_cons_of_mem _ h)
    · rcases List.mem_cons.1 h with h | h
      · exact Or.inr (h ▸ List.mem_cons_self _ _)
      · rcases ih h with h | h
        · exact Or.inl h
        · exact Or.inr (List.mem_cons_of_mem _ h)

theorem GoMap.mem_keys_set {V : Type} (m : GoMap V) (k : String) (v : V) (k' : String)
    (h : k' ∈ (m.set k v).keys) : k' = k ∨ k' ∈ m.keys := by
  obtain ⟨x, hx, rfl⟩ := List.mem_map.1 h
  rcases GoMap.mem_set m k v x hx with h | h
  · left; rw [h]
  · right; exact List.mem_map_of_mem _ h

theorem GoMap.mem_keys_foldl_set_values {W : Type} (f : String × String → W)
    (m : GoMap String) (acc : GoMap W) (k : String)
    (h : k ∈ (m.foldl (fun acc e => acc.set e.2 (f e)) acc).keys) :
    k ∈ acc.keys ∨ ∃ M, (M, k) ∈ m := by
  induction m generalizing acc with
  | nil => exact Or.inl h
  | cons e rest ih =>
    rcases ih _ h with h | ⟨M, hM⟩
    · rcases GoMap.mem_keys_set _ _ _ _ h with h | h
      · right; exact ⟨e.1, by rw [h]; exact List.mem_cons_self _ _⟩
      · exact Or.inl h
    · right; exact ⟨M, List.mem_cons_of_mem _ hM⟩

theorem isCandidate_iff {SI SO WSI : Type} (g : Globals SI SO WSI)
    (info : GoMap K8sVersionInfo) (R M v : String) :
    isCandidate g info R M v = true ↔
      skipsEntry g info R v = false ∧ GetTagMajorVersion v = M ∧
        excludesMajor g info R M = false := by
  simp only [isCandidate, Bool.and_eq_true, Bool.not_eq_true', decide_eq_true_eq]
  constructor
  · rintro ⟨⟨h1, h2⟩, h3⟩
    exact ⟨h1, h2, h2 ▸ h3⟩
  · rintro ⟨h1, h2, h3⟩
    exact ⟨⟨h1, h2⟩, h2 ▸ h3⟩

theorem representatives_mem {SI SO WSI : Type} (g : Globals SI SO WSI)
    (info : GoMap K8sVersionInfo) (R : String) (keys : List String) (m : GoMap String)
    (x : String × String) (h : x ∈ representatives g info R keys m) :
    x ∈ m ∨ (x.2 ∈ keys ∧ isCandidate g info R x.1 x.2 = true) := by
  induction keys generalizing m with
  | nil => exact Or.inl h
  | cons v rest ih =>
    simp only [representatives] at h
    split at h
    · rcases ih _ h with h | h
      · exact Or.inl h
      · exact Or.inr ⟨List.mem_cons_of_mem _ h.1, h.2⟩
    · rename_i hskip
      split at h
      · rcases ih _ h with h | h
        · exact Or.inl h
        · exact Or.inr ⟨List.mem_cons_of_mem _ h.1, h.2⟩
      · rename_i hex
        split at h
        · rcases ih _ h with h | h
          · rcases GoMap.mem_set _ _ _ _ h with h | h
            · right
              subst h
              refine ⟨List.mem_cons_self _ _, ?_⟩
              rw [isCandidate_iff]
              exact ⟨by simpa using hskip, rfl, by simpa using hex⟩
            · exact Or.inl h
          · exact Or.inr ⟨List.mem_cons_of_mem _ h.1, h.2⟩
        · rcases ih _ h with h | h
          · exact Or.inl h
          · exact Or.inr ⟨List.mem_cons_of_mem _ h.1, h.2⟩

theorem mem_callsAll {O C : Type} (get : String → String → C) (create update : O → C)
    (acts : List (Action O)) (store : String × String → Option O) (x : C)
    (h : x ∈ callsAll get create update acts store) :
    (∃ ns name, x = get ns name) ∨ (∃ obj, x = create obj) ∨ (∃ obj, x = update obj) := by
  induction acts generalizing store with
  | nil => simp [callsAll] at h
  | cons a rest ih =>
    simp only [callsAll, List.mem_append] at h
    rcases h with h | h
    · cases hs : store a.1 with
      | none =>
        simp only [hs, Upsert.calls, List.mem_cons, List.mem_singleton, List.not_mem_nil,
          or_false] at h
        rcases h with h | h
        · exact Or.inl ⟨_, _, h⟩
        · exact Or.inr (Or.inl ⟨_, h⟩)
      | some o =>
        cases hu : a.2.update o with
        | none =>
          simp only [hs, Upsert.calls, hu, List.mem_singleton] at h
          exact Or.inl ⟨_, _, h⟩
        | some o' =>
          simp only [hs, Upsert.calls, hu, List.mem_cons, List.mem_singleton,
            List.not_mem_nil, or_false] at h
          rcases h with h | h
          · exact Or.inl ⟨_, _, h⟩
          · exact Or.inr (Or.inr ⟨_, h⟩)
    · exact ih _ h

theorem mem_settingsWrites_current {SI SO WSI : Type} (g : Globals SI SO WSI)
    (cur : GoMap Unit) (svc : GoMap SO) (table : GoMap String) (R : String)
    (maxVersions : List String) (value : String)
    (h : (Setting.KubernetesVersionsCurrent, value) ∈
      settingsWrites g cur svc table R maxVersions) :
    value = ",".intercalate (sortStrings cur.keys) := by
  unfold settingsWrites at h
  cases h1 : g.marshalCurrVersions cur with
  | error e => simp [h1] at h
  | ok d1 =>
    cases h2 : g.marshalSvcOptions svc with
    | error e => simpa [h1, h2] using h
    | ok d2 =>
      cases maxVersions with
      | nil => simpa [h1, h2] using h
      | cons a as => simpa [h1, h2] using h

theorem mem_sortStrings (l : List String) (x : String) : x ∈ sortStrings l ↔ x ∈ l :=
  (List.perm_insertionSort _ l).mem_iff


theorem excludesMajor_of_max {SI SO WSI : Type} (g : Globals SI SO WSI)
    (info : GoMap K8sVersionInfo) (R M : String) (majorInfo : K8sVersionInfo)
    (hmajor : info.lookup M = some majorInfo) (hmax : majorInfo.MaxRancherVersion ≠ "")
    (hgt : 0 < g.CompareSimple R majorInfo.MaxRancherVersion) :
    excludesMajor g info R M = true := by
  simp [excludesMajor, hmajor, toIgnoreForK8sCurrent, Compare_gt, hmax, hgt]

theorem pickMax_perm (l1 l2 : List String) (h : ∀ x, x ∈ l1 ↔ x ∈ l2) :
    pickMax none l1 = pickMax none l2 := by
  cases h1 : pickMax none l1 with
  | none =>
    rw [pickMax_none_eq_none] at h1
    subst h1
    have : l2 = [] := List.eq_nil_iff_forall_not_mem.2 fun x hx => by simpa using (h x).2 hx
    rw [this]; rfl
  | some v =>
    rw [pickMax_none_iff] at h1
    symm
    rw [pickMax_none_iff]
    exact ⟨(h v).1 h1.1, fun u hu => h1.2 u ((h u).2 hu)⟩

/-- C8: on the store the loop of `saveSystemImages` ends without error, and the map it builds
holds a key `M` exactly when some version of the catalog is not skipped, has major version `M`
and `M` is not excluded; the value of `M` is the version `v` of that set with
`strLt v u = false` for every version `u` of the set, its greatest element in the string
order; and for every other iteration order of the catalog the loop builds a map with the same
value under every key. -/
theorem representative_selection {SI SO WSI : Type} [DecidableEq SI] (g : Globals SI SO WSI)
    (l : GoMap SI) (info : GoMap K8sVersionInfo) (c : Cluster SI SO WSI)
    (log : List (Call SI SO WSI))
    (hwf : WellKeyed (fun obj => (obj.Namespace, obj.Name)) c.SystemImages) :
    ∃ m s', saveSystemImages.loop g (recording storeController) info g.GetRancherVersion l []
        (c, log) = (.ok m, s') ∧
      (∀ M, (m.lookup M).isSome = true ↔
        ∃ v ∈ l.keys, skipsEntry g info g.GetRancherVersion v = false ∧
          GetTagMajorVersion v = M ∧ excludesMajor g info g.GetRancherVersion M = false) ∧
      (∀ M v, m.lookup M = some v ↔
        (v ∈ l.keys ∧ skipsEntry g info g.GetRancherVersion v = false ∧
          GetTagMajorVersion v = M ∧ excludesMajor g info g.GetRancherVersion M = false) ∧
        ∀ u ∈ l.keys, skipsEntry g info g.GetRancherVersion u = false →
          GetTagMajorVersion u = M → excludesMajor g info g.GetRancherVersion M = false →
          strLt v u = false) ∧
      (∀ l' : GoMap SI, l.Perm l' →
        ∃ m' s'', saveSystemImages.loop g (recording storeController) info
            g.GetRancherVersion l' [] (c, log) = (.ok m', s'') ∧
          ∀ M, m'.lookup M = m.lookup M) := by
  have hloop := saveSystemImages_loop_store g info g.GetRancherVersion l [] c log hwf
  have hmap := saveSystemImages_loop_map g (recording storeController) info
    g.GetRancherVersion l [] (c, log) _ _ hloop
  refine ⟨_, _, hloop, ?_, ?_, ?_⟩
  · intro M
    rw [hmap M]
    simp only [List.lookup_nil]
    rw [← Option.ne_none_iff_isSome, Ne, pickMax_none_eq_none, List.filter_eq_nil_iff]
    simp only [not_forall, Classical.not_imp, Decidable.not_not, isCandidate_iff, exists_prop]
  · intro M v
    rw [hmap M]
    simp only [List.lookup_nil]
    rw [pickMax_none_iff]
    simp only [List.mem_filter, isCandidate_iff, strLt_false_iff]
    constructor
    · rintro ⟨⟨h1, h2⟩, h3⟩
      exact ⟨⟨h1, h2⟩, fun u hu a b d => h3 u ⟨hu, a, b, d⟩⟩
    · rintro ⟨⟨h1, h2⟩, h3⟩
      exact ⟨⟨h1, h2⟩, fun u hu => h3 u hu.1 hu.2.1 hu.2.2.1 hu.2.2.2⟩
  · intro l' hp
    have hloop' := saveSystemImages_loop_store g info g.GetRancherVersion l' [] c log hwf
    have hmap' := saveSystemImages_loop_map g (recording storeController) info
      g.GetRancherVersion l' [] (c, log) _ _ hloop'
    refine ⟨_, _, hloop', ?_⟩
    intro M
    rw [hmap M, hmap' M]
    simp only [List.lookup_nil]
    apply pickMax_perm
    intro x
    simp only [List.mem_filter, GoMap.keys]
    rw [(hp.map Prod.fst).mem_iff]

/-- C8 (witness): the versions `v1.18.1`, `v1.19.3`, `v1.18.9` give `v1.18 ↦ v1.18.9` and
`v1.19 ↦ v1.19.3`. -/
theorem representative_selection_witness :
    (∃ m s', saveSystemImages.loop sampleGlobals (recording sampleStore) []
        sampleGlobals.GetRancherVersion
        [("v1.18.1", "a"), ("v1.19.3", "c"), ("v1.18.9", "b")] [] (sampleEmpty, []) =
          (.ok m, s') ∧
      (∀ M, (m.lookup M).isSome = true ↔
        ∃ v ∈ GoMap.keys [("v1.18.1", "a"), ("v1.19.3", "c"), ("v1.18.9", "b")],
          skipsEntry sampleGlobals [] sampleGlobals.GetRancherVersion v = false ∧
          GetTagMajorVersion v = M ∧
          excludesMajor sampleGlobals [] sampleGlobals.GetRancherVersion M = false) ∧
      (∀ M v, m.lookup M = some v ↔
        (v ∈ GoMap.keys [("v1.18.1", "a"), ("v1.19.3", "c"), ("v1.18.9", "b")] ∧
          skipsEntry sampleGlobals [] sampleGlobals.GetRancherVersion v = false ∧
          GetTagMajorVersion v = M ∧
          excludesMajor sampleGlobals [] sampleGlobals.GetRancherVersion M = false) ∧
        ∀ u ∈ GoMap.keys [("v1.18.1", "a"), ("v1.19.3", "c"), ("v1.18.9", "b")],
          skipsEntry sampleGlobals [] sampleGlobals.GetRancherVersion u = false →
          GetTagMajorVersion u = M →
          excludesMajor sampleGlobals [] sampleGlobals.GetRancherVersion M = false →
          strLt v u = false) ∧
      (∀ l' : GoMap String,
        List.Perm [("v1.18.1", "a"), ("v1.19.3", "c"), ("v1.18.9", "b")] l' →
        ∃ m' s'', saveSystemImages.loop sampleGlobals (recording sampleStore) []
            sampleGlobals.GetRancherVersion l' [] (sampleEmpty, []) = (.ok m', s'') ∧
          ∀ M, m'.lookup M = m.lookup M)) ∧
    (saveSystemImages.loop sampleGlobals (recording sampleStore) []
        sampleGlobals.GetRancherVersion
        [("v1.18.1", "a"), ("v1.19.3", "c"), ("v1.18.9", "b")] [] (sampleEmpty, [])).1 =
      .ok [("v1.18", "v1.18.9"), ("v1.19", "v1.19.3")] :=
  ⟨representative_selection sampleGlobals
      [("v1.18.1", "a"), ("v1.19.3", "c"), ("v1.18.9", "b")] [] sampleEmpty []
      wellKeyed_empty,
    by rfl⟩


/-! ## Iteration order -/

/-- C9 (counterexample): the addons `Cleanup` and `cleanup` share the object name
`cleanup-v1.18.9`. On the empty store the two iteration orders of the same map leave different
templates in that object. -/
theorem addon_order_counterexample :
    sampleAddonsA.Perm sampleAddonsB ∧
    ((saveAddons sampleGlobals (recording sampleStore) sampleAddonsA
        (sampleEmpty, [])).2.1.Addons ("cattle-global-data", "cleanup-v1.18.9")).map
        (fun obj => obj.Template) = some "a" ∧
    ((saveAddons sampleGlobals (recording sampleStore) sampleAddonsB
        (sampleEmpty, [])).2.1.Addons ("cattle-global-data", "cleanup-v1.18.9")).map
        (fun obj => obj.Template) = some "b" :=
  ⟨List.Perm.swap _ _ _, by decide, by decide⟩

theorem nodup_keys_of_WF {V O : Type} (l : GoMap V) (hl : l.WF) (ns : String)
    (f : String → String) (hf : Function.Injective f) (act : String × V → Action O)
    (hact : ∀ e, (act e).1 = (ns, f e.1)) : ((l.map act).map Prod.fst).Nodup := by
  have h1 : (l.map Prod.fst).Nodup := hl
  have h2 := h1.map (f := fun k : String => (ns, f k))
    (fun a b hab => hf (by simpa using hab))
  have : (l.map act).map Prod.fst = (l.map Prod.fst).map (fun k : String => (ns, f k)) := by
    simp only [List.map_map]
    apply List.map_congr_left
    intro e _
    simp [hact e]
  rw [this]
  exact h2

theorem getWindowsName_injective : Function.Injective getWindowsName := by
  intro a b h
  have h2 := congrArg String.data h
  simp only [getWindowsName, String.data_append, List.append_cancel_left_eq] at h2
  exact String.ext h2


theorem GoMap.set_of_not_mem {V : Type} (m : GoMap V) (k : String) (v : V)
    (h : k ∉ m.keys) : m.set k v = m ++ [(k, v)] := by
  induction m with
  | nil => rfl
  | cons e rest ih =>
    obtain ⟨a, b⟩ := e
    simp only [GoMap.keys, List.map_cons, List.mem_cons, not_or] at h
    have hne : ¬ a = k := fun hh => h.1 hh.symm
    simp only [GoMap.set, hne, if_false, List.cons_append]
    rw [ih h.2]

theorem GoMap.foldl_set_values {W : Type} (f : String × String → W) (m : GoMap String)
    (acc : GoMap W) (hnd : (acc.keys ++ m.map Prod.snd).Nodup) :
    m.foldl (fun acc e => acc.set e.2 (f e)) acc = acc ++ m.map (fun e => (e.2, f e)) := by
  induction m generalizing acc with
  | nil => simp
  | cons e rest ih =>
    simp only [List.foldl_cons]
    have hk : e.2 ∉ acc.keys := by
      intro h
      rw [List.nodup_append] at hnd
      exact hnd.2.2 h (by simp)
    rw [GoMap.set_of_not_mem _ _ _ hk, ih]
    · simp
    · simpa [GoMap.keys, List.append_assoc] using hnd

theorem GoMap.WF_set {V : Type} (m : GoMap V) (k : String) (v : V) (h : m.WF) :
    (m.set k v).WF := by
  induction m with
  | nil => simp [GoMap.set, GoMap.WF]
  | cons e rest ih =>
    obtain ⟨a, b⟩ := e
    simp only [GoMap.WF, List.map_cons, List.nodup_cons] at h
    simp only [GoMap.set]
    split
    · rename_i hak
      subst hak
      simpa [GoMap.WF] using h
    · rename_i hak
      simp only [GoMap.WF, List.map_cons, List.nodup_cons]
      refine ⟨?_, ih h.2⟩
      intro hmem
      rcases GoMap.mem_keys_set rest k v a hmem with h1 | h1
      · exact hak h1
      · exact h.1 h1

theorem representatives_WF {SI SO WSI : Type} (g : Globals SI SO WSI)
    (info : GoMap K8sVersionInfo) (R : String) (keys : List String) (m : GoMap String)
    (h : m.WF) : (representatives g info R keys m).WF := by
  induction keys generalizing m with
  | nil => exact h
  | cons v rest ih =>
    simp only [representatives]
    split
    · exact ih _ h
    · split
      · exact ih _ h
      · split
        · exact ih _ (GoMap.WF_set _ _ _ h)
        · exact ih _ h

theorem GoMap.mem_iff_lookup {V : Type} (m : GoMap V) (h : m.WF) (k : String) (v : V) :
    (k, v) ∈ m ↔ m.lookup k = some v := by
  refine ⟨?_, lookup_mem m k v⟩
  induction m with
  | nil => simp
  | cons e rest ih =>
    obtain ⟨a, b⟩ := e
    simp only [GoMap.WF, List.map_cons, List.nodup_cons] at h
    intro hmem
    rw [lookup_cons_ite]
    rcases List.mem_cons.1 hmem with hh | hh
    · simp only [Prod.mk.injEq] at hh
      simp [hh.1, hh.2]
    · have hne : ¬ k = a := by
        intro hka
        exact h.1 (hka ▸ List.mem_map_of_mem Prod.fst hh)
      simp only [hne, if_false]
      exact ih h.2 hh

theorem GoMap.nodup_of_WF {V : Type} (m : GoMap V) (h : m.WF) : m.Nodup :=
  List.Nodup.of_map Prod.fst h

/-- Two maps with one entry per key and the same value under every key list the same
entries. -/
theorem GoMap.perm_of_lookup {V : Type} (m m' : GoMap V) (h : m.WF) (h' : m'.WF)
    (hl : ∀ k, m.lookup k = m'.lookup k) : m.Perm m' := by
  rw [List.perm_ext_iff_of_nodup (GoMap.nodup_of_WF m h) (GoMap.nodup_of_WF m' h')]
  rintro ⟨k, v⟩
  rw [GoMap.mem_iff_lookup m h, GoMap.mem_iff_lookup m' h', hl k]

theorem sortStrings_perm (l1 l2 : List String) (h : l1.Perm l2) :
    sortStrings l1 = sortStrings l2 := by
  haveI : IsTotal String (fun a b => strLt b a = false) :=
    ⟨fun a b => by simp only [strLt_false_iff]; exact le_total a b⟩
  haveI : IsTrans String (fun a b => strLt b a = false) :=
    ⟨fun a b c => by simp only [strLt_false_iff]; exact le_trans⟩
  haveI : IsAntisymm String (fun a b => strLt b a = false) :=
    ⟨fun a b => by simp only [strLt_false_iff]; exact le_antisymm⟩
  unfold sortStrings
  exact List.eq_of_perm_of_sorted
    (((List.perm_insertionSort _ l1).trans h).trans (List.perm_insertionSort _ l2).symm)
    (List.sorted_insertionSort _ l1) (List.sorted_insertionSort _ l2)

theorem representatives_values_nodup {SI SO WSI : Type} (g : Globals SI SO WSI)
    (info : GoMap K8sVersionInfo) (R : String) (keys : List String) :
    ((representatives g info R keys []).map Prod.snd).Nodup := by
  have hwf := representatives_WF g info R keys [] (by simp [GoMap.WF])
  have hmaj : ∀ x ∈ representatives g info R keys [], GetTagMajorVersion x.2 = x.1 := by
    intro x hx
    rcases representatives_mem g info R keys [] x hx with h | ⟨_, h⟩
    · simp at h
    · exact ((isCandidate_iff _ _ _ _ _).1 h).2.1
  have : (representatives g info R keys []).map Prod.fst =
      ((representatives g info R keys []).map Prod.snd).map GetTagMajorVersion := by
    rw [List.map_map]
    exact List.map_congr_left fun x hx => (hmaj x hx).symm
  unfold GoMap.WF at hwf
  rw [this] at hwf
  exact List.Nodup.of_map _ hwf


theorem SaveSettings_store_cluster {SI SO WSI : Type} (g : Globals SI SO WSI)
    (cur : GoMap Unit) (svc : GoMap SO) (table : GoMap String) (R : String)
    (maxVersions : List String) (c : Cluster SI SO WSI) (log : List (Call SI SO WSI)) :
    (SaveSettings g storeSettings.recording cur svc table R maxVersions (c, log)).2.1 =
      { c with
        Settings :=
          (settingsWrites g cur svc table R maxVersions).foldl
            (fun s p => Function.update s p.1 (some p.2)) c.Settings } := by
  unfold SaveSettings settingsWrites
  simp only [recording_Set]
  cases g.marshalCurrVersions cur with
  | error err => rfl
  | ok d1 =>
    cases g.marshalSvcOptions svc with
    | error err => rfl
    | ok d2 =>
      cases maxVersions with
      | nil => rfl
      | cons a as => rfl

theorem saveSystemImages_store_cluster {SI SO WSI : Type} [DecidableEq SI] [Inhabited SO]
    (g : Globals SI SO WSI) (l : GoMap SI) (info : GoMap K8sVersionInfo) (so : GoMap SO)
    (table : GoMap String) (c : Cluster SI SO WSI) (log : List (Call SI SO WSI))
    (hwf : WellKeyed (fun obj => (obj.Namespace, obj.Name)) c.SystemImages) :
    (saveSystemImages g storeSettings.recording (recording storeController) l info so table
        (c, log)).2.1 =
      { c with
        SystemImages :=
          applyAll
            ((l.filter (fun e => !skipsEntry g info g.GetRancherVersion e.1)).map
              (systemImageAction g))
            c.SystemImages
        Settings :=
          (settingsWrites g
            ((representatives g info g.GetRancherVersion l.keys []).foldl
              (fun m e => m.set e.2 ()) [])
            ((representatives g info g.GetRancherVersion l.keys []).foldl
              (fun m e => m.set e.2 ((so.lookup e.1).getD default)) [])
            table g.GetRancherVersion
            (sortStrings (representatives g info g.GetRancherVersion l.keys []).keys)).foldl
            (fun s p => Function.update s p.1 (some p.2)) c.Settings } := by
  unfold saveSystemImages
  simp only [saveSystemImages_loop_store g info g.GetRancherVersion l [] c log hwf,
    updateSettings]
  rw [SaveSettings_store_cluster]

theorem representatives_perm {SI SO WSI : Type} [DecidableEq SI] (g : Globals SI SO WSI)
    (info : GoMap K8sVersionInfo) (R : String) (l l' : GoMap SI) (hp : l.Perm l')
    (c : Cluster SI SO WSI)
    (hwf : WellKeyed (fun obj => (obj.Namespace, obj.Name)) c.SystemImages) :
    (representatives g info R l.keys []).Perm (representatives g info R l'.keys []) := by
  apply GoMap.perm_of_lookup _ _ (representatives_WF _ _ _ _ _ (by simp [GoMap.WF]))
    (representatives_WF _ _ _ _ _ (by simp [GoMap.WF]))
  intro M
  have h1 := saveSystemImages_loop_map g (recording storeController) info R l [] (c, []) _ _
    (saveSystemImages_loop_store g info R l [] c [] hwf) M
  have h2 := saveSystemImages_loop_map g (recording storeController) info R l' [] (c, []) _ _
    (saveSystemImages_loop_store g info R l' [] c [] hwf) M
  rw [h1, h2]
  apply pickMax_perm
  intro x
  simp only [List.mem_filter, GoMap.keys]
  rw [(hp.map Prod.fst).mem_iff]

theorem settingsWrites_perm {SI SO WSI : Type} [Inhabited SO] (g : Globals SI SO WSI)
    (hm1 : ∀ a b : GoMap Unit, a.Perm b → g.marshalCurrVersions a = g.marshalCurrVersions b)
    (hm2 : ∀ a b : GoMap SO, a.Perm b → g.marshalSvcOptions a = g.marshalSvcOptions b)
    (so : GoMap SO) (table : GoMap String) (R : String) (m m' : GoMap String)
    (hp : m.Perm m') (hnd : (m.map Prod.snd).Nodup) :
    settingsWrites g (m.foldl (fun acc e => acc.set e.2 ()) [])
        (m.foldl (fun acc e => acc.set e.2 ((so.lookup e.1).getD default)) [])
        table R (sortStrings m.keys) =
      settingsWrites g (m'.foldl (fun acc e => acc.set e.2 ()) [])
        (m'.foldl (fun acc e => acc.set e.2 ((so.lookup e.1).getD default)) [])
        table R (sortStrings m'.keys) := by
  have hnd' : (m'.map Prod.snd).Nodup := (hp.map Prod.snd).nodup_iff.1 hnd
  rw [GoMap.foldl_set_values (fun _ => ()) m [] (by simpa [GoMap.keys] using hnd),
    GoMap.foldl_set_values (fun _ => ()) m' [] (by simpa [GoMap.keys] using hnd'),
    GoMap.foldl_set_values (fun e => (so.lookup e.1).getD default) m []
      (by simpa [GoMap.keys] using hnd),
    GoMap.foldl_set_values (fun e => (so.lookup e.1).getD default) m' []
      (by simpa [GoMap.keys] using hnd')]
  simp only [List.nil_append]
  have hk : sortStrings m.keys = sortStrings m'.keys :=
    sortStrings_perm _ _ (hp.map Prod.fst)
  have hc : sortStrings (GoMap.keys (m.map fun e => (e.2, ()))) =
      sortStrings (GoMap.keys (m'.map fun e => (e.2, ()))) :=
    sortStrings_perm _ _ ((hp.map _).map Prod.fst)
  unfold settingsWrites
  rw [hm1 _ _ (hp.map fun e => (e.2, ())),
    hm2 _ _ (hp.map fun e => (e.2, (so.lookup e.1).getD default)), hk, hc]


theorem addonActions_perm {SI SO WSI : Type} (g : Globals SI SO WSI)
    (K K' : GoMap (GoMap String)) (h : Reordered K K') :
    (addonActions g K).Perm (addonActions g K') := by
  obtain ⟨K'', hp, hf⟩ := h
  refine (List.Perm.flatMap_right _ hp).trans ?_
  clear hp
  induction hf with
  | nil => exact List.Perm.refl _
  | cons hab _ ih =>
    rename_i a b l1 l2
    simp only [List.flatMap_cons]
    refine List.Perm.append ?_ ih
    rw [hab.1]
    exact hab.2.map _

theorem addonActions_keys {SI SO WSI : Type} (g : Globals SI SO WSI)
    (K : GoMap (GoMap String)) :
    (addonActions g K).map Prod.fst = (addonNames g K).map fun n => (g.GlobalNamespace, n) := by
  simp [addonActions, addonNames, List.map_flatMap, List.flatMap_map, addonAction,
    Function.comp_def]

theorem addonActions_nodup {SI SO WSI : Type} (g : Globals SI SO WSI)
    (K : GoMap (GoMap String)) (h : (addonNames g K).Nodup) :
    ((addonActions g K).map Prod.fst).Nodup := by
  rw [addonActions_keys]
  exact h.map fun a b hab => by simpa using hab

/-- C9 (amended): on the store, from a well-keyed cluster, the final cluster (persisted objects
and settings) is the same for every iteration order of the catalog maps: for
`saveSystemImages` (when `json.Marshal` of a map does not depend on the order in which the
map is listed), for `saveServiceOptions`, for `saveWindowsInfo`, and for `saveAddons` when no
two entries of the addon templates share an object name
`strings.ToLower(addonName) + "-" + version` (the list `addonNames`, in which `strings.ToLower`
is the field `g.ToLower`, left arbitrary). -/
theorem order_independence {SI SO WSI : Type} [DecidableEq SI] [DecidableEq SO]
    [DecidableEq WSI] [Inhabited SO] (g : Globals SI SO WSI) (c : Cluster SI SO WSI)
    (hc : c.WF)
    (hm1 : ∀ a b : GoMap Unit, a.Perm b → g.marshalCurrVersions a = g.marshalCurrVersions b)
    (hm2 : ∀ a b : GoMap SO, a.Perm b → g.marshalSvcOptions a = g.marshalSvcOptions b) :
    (∀ (l l' : GoMap SI) (info : GoMap K8sVersionInfo) (so : GoMap SO) (table : GoMap String),
      l.WF → l.Perm l' →
      (saveSystemImages g storeSettings.recording (recording storeController) l info so table
          (c, [])).2.1 =
        (saveSystemImages g storeSettings.recording (recording storeController) l' info so
          table (c, [])).2.1) ∧
    (∀ l l' : GoMap SO, l.WF → l.Perm l' →
      (saveServiceOptions g (recording storeController) l (c, [])).2.1 =
        (saveServiceOptions g (recording storeController) l' (c, [])).2.1) ∧
    (∀ K K' : GoMap (GoMap String), (addonNames g K).Nodup → Reordered K K' →
      (saveAddons g (recording storeController) K (c, [])).2.1 =
        (saveAddons g (recording storeController) K' (c, [])).2.1) ∧
    (∀ (l1 l1' : GoMap WSI) (l2 l2' : GoMap SO),
      l1.WF → l2.WF → l1.Perm l1' → l2.Perm l2' →
      (saveWindowsInfo g (recording storeController) l1 l2 (c, [])).2.1 =
        (saveWindowsInfo g (recording storeController) l1' l2' (c, [])).2.1) := by
  obtain ⟨hsi, hso, had, hwsi⟩ := hc
  refine ⟨?_, ?_, ?_, ?_⟩
  · intro l l' info so table hl hp
    rw [saveSystemImages_store_cluster g l info so table c [] hsi,
      saveSystemImages_store_cluster g l' info so table c [] hsi]
    have hacts : applyAll
        ((l.filter (fun e => !skipsEntry g info g.GetRancherVersion e.1)).map
          (systemImageAction g)) c.SystemImages =
        applyAll
          ((l'.filter (fun e => !skipsEntry g info g.GetRancherVersion e.1)).map
            (systemImageAction g)) c.SystemImages := by
      apply applyAll_perm ((hp.filter _).map _)
      apply nodup_keys_of_WF _ _ g.GlobalNamespace id (fun _ _ h => h)
      · exact fun e => rfl
      · exact List.Nodup.sublist ((List.filter_sublist _).map _) hl
    rw [hacts, settingsWrites_perm g hm1 hm2 so table g.GetRancherVersion _ _
      (representatives_perm g info g.GetRancherVersion l l' hp c hsi)
      (representatives_values_nodup g info g.GetRancherVersion l.keys)]
  · intro l l' hl hp
    rw [saveServiceOptions_store g l c [] hso, saveServiceOptions_store g l' c [] hso]
    simp only
    rw [applyAll_perm (hp.map _)
      (nodup_keys_of_WF _ hl g.GlobalNamespace id (fun _ _ h => h) _ (fun e => rfl))]
  · intro K K' hK hr
    rw [saveAddons_store g K c [] had, saveAddons_store g K' c [] had]
    simp only
    rw [applyAll_perm (addonActions_perm g K K' hr) (addonActions_nodup g K hK)]
  · intro l1 l1' l2 l2' h1 h2 hp1 hp2
    rw [saveWindowsInfo_store g l1 l2 c [] hwsi hso,
      saveWindowsInfo_store g l1' l2' c [] hwsi hso]
    simp only
    rw [applyAll_perm (hp1.map _)
      (nodup_keys_of_WF _ h1 g.GlobalNamespace getWindowsName getWindowsName_injective _
        (fun e => rfl)),
      applyAll_perm (hp2.map _)
      (nodup_keys_of_WF _ h2 g.GlobalNamespace getWindowsName getWindowsName_injective _
        (fun e => rfl))]


theorem sampleEmpty_WF : sampleEmpty.WF := by
  refine ⟨?_, ?_, ?_, ?_⟩ <;> intro k obj h <;> simp [sampleEmpty, Cluster.empty] at h

theorem sampleGlobals_marshalCurrVersions (a b : GoMap Unit) (h : a.Perm b) :
    sampleGlobals.marshalCurrVersions a = sampleGlobals.marshalCurrVersions b := by
  simp only [sampleGlobals, GoMap.keys]
  rw [sortStrings_perm _ _ (h.map Prod.fst)]

theorem sampleGlobals_marshalSvcOptions (a b : GoMap String) (h : a.Perm b) :
    sampleGlobals.marshalSvcOptions a = sampleGlobals.marshalSvcOptions b := by
  simp only [sampleGlobals, GoMap.keys]
  rw [sortStrings_perm _ _ (h.map Prod.fst)]

/-- C9 (witness): on the empty store, two service options in either order, and the two
versions of the addon `Cleanup` in either order, leave the same cluster. -/
theorem order_independence_witness :
    (saveServiceOptions sampleGlobals (recording sampleStore)
        [("v1.18.9", "x"), ("v1.19.3", "y")] (sampleEmpty, [])).2.1 =
      (saveServiceOptions sampleGlobals (recording sampleStore)
        [("v1.19.3", "y"), ("v1.18.9", "x")] (sampleEmpty, [])).2.1 ∧
    (saveAddons sampleGlobals (recording sampleStore)
        [("Cleanup", [("v1.18.9", "a"), ("v1.19.3", "b")])] (sampleEmpty, [])).2.1 =
      (saveAddons sampleGlobals (recording sampleStore)
        [("Cleanup", [("v1.19.3", "b"), ("v1.18.9", "a")])] (sampleEmpty, [])).2.1 :=
  ⟨(order_independence sampleGlobals sampleEmpty sampleEmpty_WF
      sampleGlobals_marshalCurrVersions sampleGlobals_marshalSvcOptions).2.1
      [("v1.18.9", "x"), ("v1.19.3", "y")] [("v1.19.3", "y"), ("v1.18.9", "x")]
      (by decide) (List.Perm.swap _ _ _),
    (order_independence sampleGlobals sampleEmpty sampleEmpty_WF
      sampleGlobals_marshalCurrVersions sampleGlobals_marshalSvcOptions).2.2.1
      [("Cleanup", [("v1.18.9", "a"), ("v1.19.3", "b")])]
      [("Cleanup", [("v1.19.3", "b"), ("v1.18.9", "a")])]
      (by decide)
      ⟨_, List.Perm.refl _,
        List.Forall₂.cons ⟨rfl, List.Perm.swap _ _ _⟩ List.Forall₂.nil⟩⟩


/-! ## A second run -/

theorem SaveSettings_eq_writeAll {σ SI SO WSI : Type} (g : Globals SI SO WSI)
    (st : Settings σ) (cur : GoMap Unit) (svc : GoMap SO) (table : GoMap String) (R : String)
    (maxVersions : List String) (s : σ) :
    SaveSettings g st cur svc table R maxVersions s =
      match writeAll st (settingsWrites g cur svc table R maxVersions) s with
      | (some err, s1) => (some err, s1)
      | (none, s1) => (marshalError g cur svc, s1) := by
  unfold SaveSettings settingsWrites marshalError writeAll
  cases g.marshalCurrVersions cur with
  | error err => rfl
  | ok d1 =>
    simp only [forEach]
    rcases h1 : st.Set .KubernetesVersionToSystemImages s d1 with ⟨_ | e, s1⟩
    · simp only
      rcases h2 : st.Set .KubernetesVersionsCurrent s1
        (",".intercalate (sortStrings cur.keys)) with ⟨_ | e, s2⟩
      · simp only
        cases g.marshalSvcOptions svc with
        | error err => rfl
        | ok d2 =>
          simp only [forEach]
          rcases h3 : st.Set .KubernetesVersionToServiceOptions s2 d2 with ⟨_ | e, s3⟩
          · simp only
            rcases h4 : st.Set .KubernetesVersion s3
              (SaveSettings.defaultK8sVersion table R) with ⟨_ | e, s4⟩
            · simp only
              cases maxVersions with
              | nil => rfl
              | cons a as =>
                simp only [forEach]
                rcases h5 : st.Set .UIKubernetesSupportedVersions s4
                  (">=" ++ a ++ ".x <=" ++
                    GetTagMajorVersion (SaveSettings.defaultK8sVersion table R) ++ ".x")
                  with ⟨_ | e, s5⟩
                · simp only
                  rcases h6 : st.Set .UIKubernetesDefaultVersion s5
                    ("<=" ++ GetTagMajorVersion (SaveSettings.defaultK8sVersion table R) ++
                      ".x") with ⟨_ | e, s6⟩ <;> rfl
                · rfl
            · rfl
          · rfl
      · rfl
    · rfl

theorem writeAll_recording_log {σ SI SO WSI : Type} (st : Settings σ)
    (writes : List (Setting × String)) (s : σ) (log : List (Call SI SO WSI))
    (h : (writeAll st.recording writes (s, log)).1 = none) :
    (writeAll st.recording writes (s, log)).2.2 =
      log ++ writes.map (fun p => Call.SetSetting p.1 p.2) := by
  induction writes generalizing s log with
  | nil => simp [writeAll, forEach]
  | cons p rest ih =>
    simp only [writeAll, forEach, Settings.recording] at h ⊢
    rcases hp : (st.Set p.1 s p.2).1 with _ | e
    · simp only [hp] at h ⊢
      have := ih _ _ h
      simp only [writeAll, Settings.recording] at this
      rw [this]
      simp
    · simp [hp] at h


/-! ## The default version that cannot be resolved -/

theorem SaveSettings_log_of_none {σ SI SO WSI : Type} (g : Globals SI SO WSI)
    (st : Settings σ) (cur : GoMap Unit) (svc : GoMap SO) (table : GoMap String) (R : String)
    (maxVersions : List String) (s : σ) (log : List (Call SI SO WSI))
    (h : (SaveSettings g st.recording cur svc table R maxVersions (s, log)).1 = none) :
    ∃ d1 d2, g.marshalCurrVersions cur = .ok d1 ∧ g.marshalSvcOptions svc = .ok d2 ∧
      (SaveSettings g st.recording cur svc table R maxVersions (s, log)).2.2 =
        log ++ (settingsWrites g cur svc table R maxVersions).map
          (fun p => Call.SetSetting p.1 p.2) := by
  rw [SaveSettings_eq_writeAll] at h ⊢
  have hlog := writeAll_recording_log st (settingsWrites g cur svc table R maxVersions) s log
  rcases hw : writeAll st.recording (settingsWrites g cur svc table R maxVersions) (s, log)
    with ⟨_ | e, s1⟩
  · rw [hw] at h hlog
    simp only at h hlog ⊢
    unfold marshalError at h
    cases h1 : g.marshalCurrVersions cur with
    | error e => simp [h1] at h
    | ok d1 =>
      cases h2 : g.marshalSvcOptions svc with
      | error e => simp [h1, h2] at h
      | ok d2 => exact ⟨d1, d2, rfl, rfl, hlog trivial⟩
  · rw [hw] at h
    simp at h

theorem sortStrings_head (l : List String) (a : String) (as : List String)
    (h : sortStrings l = a :: as) : a ∈ l ∧ ∀ k ∈ l, strLt k a = false := by
  haveI : IsTotal String (fun a b => strLt b a = false) :=
    ⟨fun a b => by simp only [strLt_false_iff]; exact le_total a b⟩
  haveI : IsTrans String (fun a b => strLt b a = false) :=
    ⟨fun a b c => by simp only [strLt_false_iff]; exact le_trans⟩
  have hs : (sortStrings l).Sorted (fun a b => strLt b a = false) :=
    List.sorted_insertionSort _ l
  rw [h] at hs
  have hmem : ∀ x, x ∈ l ↔ x ∈ a :: as := fun x => by rw [← h, mem_sortStrings]
  refine ⟨(hmem a).2 (List.mem_cons_self _ _), ?_⟩
  intro k hk
  rcases List.mem_cons.1 ((hmem k).1 hk) with rfl | hk'
  · rw [strLt_false_iff]
  · exact List.rel_of_sorted_cons hs k hk'


/-- C12: when the representative map is not empty and `updateSettings` returns no error (both
maps are serialised and every write of `SaveSettings` succeeds), the log holds exactly one
write to ui-kubernetes-supported-versions, of `">=" + minMajor + ".x <=" + maxMajor + ".x"`,
and exactly one write to ui-kubernetes-default-version, of `"<=" + maxMajor + ".x"`, where
`minMajor` is a key of the representative map that no other key precedes and `maxMajor` is
`GetTagMajorVersion` of the resolved default version. -/
theorem range_strings {σ SI SO WSI : Type} [Inhabited SO] (g : Globals SI SO WSI)
    (st : Settings σ) (m : GoMap String) (R : String) (so : GoMap SO) (table : GoMap String)
    (s : σ) (hne : m ≠ [])
    (hret : (updateSettings g (st.recording : Settings (σ × List (Call SI SO WSI))) m R so
      table (s, [])).1 = none) :
    ∃ minMajor : String,
      minMajor ∈ m.keys ∧ (∀ k ∈ m.keys, strLt k minMajor = false) ∧
      writesTo .UIKubernetesSupportedVersions
          (updateSettings g (st.recording : Settings (σ × List (Call SI SO WSI))) m R so table
            (s, [])).2.2 =
        [">=" ++ minMajor ++ ".x <=" ++
          GetTagMajorVersion (SaveSettings.defaultK8sVersion table R) ++ ".x"] ∧
      writesTo .UIKubernetesDefaultVersion
          (updateSettings g (st.recording : Settings (σ × List (Call SI SO WSI))) m R so table
            (s, [])).2.2 =
        ["<=" ++ GetTagMajorVersion (SaveSettings.defaultK8sVersion table R) ++ ".x"] := by
  unfold updateSettings at hret ⊢
  obtain ⟨d1, d2, hm1, hm2, hlog⟩ := SaveSettings_log_of_none g st _ _ table R _ s [] hret
  simp only at hlog ⊢
  rw [hlog]
  cases hk : sortStrings m.keys with
  | nil =>
    exfalso
    apply hne
    have : m.keys = [] := by
      apply List.eq_nil_iff_forall_not_mem.2
      intro x hx
      rw [← mem_sortStrings, hk] at hx
      simp at hx
    simpa [GoMap.keys] using this
  | cons a as =>
    obtain ⟨hmem, hmin⟩ := sortStrings_head _ _ _ hk
    refine ⟨a, hmem, hmin, ?_, ?_⟩ <;>
      simp [settingsWrites, hm1, hm2, writesTo]

/-- C12 (witness): representatives `v1.18 ↦ v1.18.9` and `v1.19 ↦ v1.19.3` with the default
version `v1.18.9`: the two range strings are `>=v1.18.x <=v1.18.x` and `<=v1.18.x`. -/
theorem range_strings_witness :
    (∃ minMajor : String,
      minMajor ∈ GoMap.keys [("v1.19", "v1.19.3"), ("v1.18", "v1.18.9")] ∧
      (∀ k ∈ GoMap.keys [("v1.19", "v1.19.3"), ("v1.18", "v1.18.9")],
        strLt k minMajor = false) ∧
      writesTo .UIKubernetesSupportedVersions
          (updateSettings sampleGlobals
            (sampleSettings.recording :
              Settings (Cluster String String String × List (Call String String String)))
            [("v1.19", "v1.19.3"), ("v1.18", "v1.18.9")] "2.4" [] [("default", "v1.18.9")]
            (sampleEmpty, [])).2.2 =
        [">=" ++ minMajor ++ ".x <=" ++
          GetTagMajorVersion (SaveSettings.defaultK8sVersion [("default", "v1.18.9")] "2.4") ++
          ".x"] ∧
      writesTo .UIKubernetesDefaultVersion
          (updateSettings sampleGlobals
            (sampleSettings.recording :
              Settings (Cluster String String String × List (Call String String String)))
            [("v1.19", "v1.19.3"), ("v1.18", "v1.18.9")] "2.4" [] [("default", "v1.18.9")]
            (sampleEmpty, [])).2.2 =
        ["<=" ++
          GetTagMajorVersion (SaveSettings.defaultK8sVersion [("default", "v1.18.9")] "2.4") ++
          ".x"]) ∧
    writesTo .UIKubernetesSupportedVersions
        (updateSettings sampleGlobals
          (sampleSettings.recording :
            Settings (Cluster String String String × List (Call String String String)))
          [("v1.19", "v1.19.3"), ("v1.18", "v1.18.9")] "2.4" [] [("default", "v1.18.9")]
          (sampleEmpty, [])).2.2 = [">=v1.18.x <=v1.18.x"] ∧
    writesTo .UIKubernetesDefaultVersion
        (updateSettings sampleGlobals
          (sampleSettings.recording :
            Settings (Cluster String String String × List (Call String String String)))
          [("v1.19", "v1.19.3"), ("v1.18", "v1.18.9")] "2.4" [] [("default", "v1.18.9")]
          (sampleEmpty, [])).2.2 = ["<=v1.18.x"] :=
  ⟨range_strings sampleGlobals sampleSettings [("v1.19", "v1.19.3"), ("v1.18", "v1.18.9")]
      "2.4" [] [("default", "v1.18.9")] sampleEmpty (by decide) (by decide),
    by decide, by decide⟩


/-! ## The empty candidate set -/

theorem representatives_nil {SI SO WSI : Type} (g : Globals SI SO WSI)
    (info : GoMap K8sVersionInfo) (R : String) (keys : List String)
    (h : ∀ v ∈ keys, isCandidate g info R (GetTagMajorVersion v) v = false) :
    representatives g info R keys [] = [] := by
  apply List.eq_nil_iff_forall_not_mem.2
  intro x hx
  rcases representatives_mem g info R keys [] x hx with h' | ⟨hmem, hc⟩
  · simp at h'
  · have hM := ((isCandidate_iff _ _ _ _ _).1 hc).2.1
    rw [← hM, h x.2 hmem] at hc
    simp at hc

/-- C13: when no version of the catalog is a candidate (every entry is skipped or its major
version is excluded), `saveSystemImages` on the store leaves the settings
ui-kubernetes-supported-versions and ui-kubernetes-default-version with the values they held
before the call, and, when the two (empty) maps are serialised without error, it returns no
error and the kubernetes-version setting holds the resolved default version. On every
settings sink, `updateSettings` with an empty representative map submits no write to the two
range settings. -/
theorem empty_candidates_keep_ranges {SI SO WSI : Type} [DecidableEq SI] [Inhabited SO]
    (g : Globals SI SO WSI) (l : GoMap SI) (info : GoMap K8sVersionInfo) (so : GoMap SO)
    (table : GoMap String) (c : Cluster SI SO WSI) (d1 d2 : String)
    (hwf : WellKeyed (fun obj => (obj.Namespace, obj.Name)) c.SystemImages)
    (hnone : ∀ v ∈ l.keys,
      isCandidate g info g.GetRancherVersion (GetTagMajorVersion v) v = false)
    (hm1 : g.marshalCurrVersions [] = .ok d1) (hm2 : g.marshalSvcOptions [] = .ok d2) :
    (saveSystemImages g storeSettings.recording (recording storeController) l info so table
        (c, [])).1 = none ∧
    (saveSystemImages g storeSettings.recording (recording storeController) l info so table
        (c, [])).2.1.Settings .UIKubernetesSupportedVersions =
      c.Settings .UIKubernetesSupportedVersions ∧
    (saveSystemImages g storeSettings.recording (recording storeController) l info so table
        (c, [])).2.1.Settings .UIKubernetesDefaultVersion =
      c.Settings .UIKubernetesDefaultVersion ∧
    (saveSystemImages g storeSettings.recording (recording storeController) l info so table
        (c, [])).2.1.Settings .KubernetesVersion =
      some (SaveSettings.defaultK8sVersion table g.GetRancherVersion) ∧
    (∀ (σ : Type) (st : Settings σ) (s : σ) (R : String),
      writesTo .UIKubernetesSupportedVersions
          (updateSettings g (st.recording : Settings (σ × List (Call SI SO WSI))) [] R so table
            (s, [])).2.2 = [] ∧
      writesTo .UIKubernetesDefaultVersion
          (updateSettings g (st.recording : Settings (σ × List (Call SI SO WSI))) [] R so table
            (s, [])).2.2 = []) := by
  have hrep := representatives_nil g info g.GetRancherVersion l.keys hnone
  have hsort : sortStrings (GoMap.keys ([] : GoMap String)) = [] := rfl
  refine ⟨?_, ?_, ?_, ?_, ?_⟩
  · unfold saveSystemImages
    simp only [saveSystemImages_loop_store g info g.GetRancherVersion l [] c [] hwf,
      updateSettings, hrep, List.foldl_nil, hsort]
    unfold SaveSettings
    simp [hm1, hm2, recording_Set]
  · rw [saveSystemImages_store_cluster g l info so table c [] hwf, hrep]
    simp [settingsWrites, hm1, hm2, hsort, Function.update]
  · rw [saveSystemImages_store_cluster g l info so table c [] hwf, hrep]
    simp [settingsWrites, hm1, hm2, hsort, Function.update]
  · rw [saveSystemImages_store_cluster g l info so table c [] hwf, hrep]
    simp [settingsWrites, hm1, hm2, hsort, Function.update]
  · intro σ st s R
    obtain ⟨k, hk⟩ := SaveSettings_log g st [] [] table R [] s ([] : List (Call SI SO WSI))
    have hw : ∀ setting, setting = Setting.UIKubernetesSupportedVersions ∨
        setting = Setting.UIKubernetesDefaultVersion →
        writesTo setting
          (updateSettings g (st.recording : Settings (σ × List (Call SI SO WSI))) [] R so
            table (s, [])).2.2 = [] := by
      intro setting hsetting
      apply List.eq_nil_iff_forall_not_mem.2
      intro value hvalue
      rw [mem_writesTo] at hvalue
      simp only [updateSettings, List.foldl_nil, hsort] at hvalue
      rw [hk] at hvalue
      simp only [List.nil_append, List.mem_map] at hvalue
      obtain ⟨p, hp, hpe⟩ := hvalue
      have hp' := List.mem_of_mem_take hp
      simp only [Call.SetSetting.injEq] at hpe
      unfold settingsWrites at hp'
      cases h1 : g.marshalCurrVersions [] with
      | error e => simp [h1] at hp'
      | ok d1 =>
        cases h2 : g.marshalSvcOptions [] with
        | error e =>
          simp only [h1, h2, List.mem_cons, List.mem_nil_iff, or_false] at hp'
          rcases hp' with rfl | rfl <;> rcases hsetting with rfl | rfl <;> simp at hpe
        | ok d2 =>
          simp only [h1, h2, List.mem_cons, List.mem_nil_iff, or_false] at hp'
          rcases hp' with rfl | rfl | rfl | rfl <;> rcases hsetting with rfl | rfl <;>
            simp at hpe
    exact ⟨hw _ (Or.inl rfl), hw _ (Or.inr rfl)⟩


/-- C13 (witness): the catalog holds the version `v1.18.9` alone, whose major version `v1.18`
is closed at `2.3` while the running version is `2.4`. Both range settings still hold `old`
after `saveSystemImages`, and the kubernetes-version setting holds `v1.18.9`. -/
theorem empty_candidates_keep_ranges_witness :
    (∀ v ∈ GoMap.keys [("v1.18.9", "images")],
      isCandidate sampleGlobals infoMax23 "2.4" (GetTagMajorVersion v) v = false) ∧
    (saveSystemImages sampleGlobals sampleSettings.recording (recording sampleStore)
        [("v1.18.9", "images")] infoMax23 [] [("default", "v1.18.9")]
        (clusterOldRanges, [])).2.1.Settings .UIKubernetesSupportedVersions = some "old" ∧
    (saveSystemImages sampleGlobals sampleSettings.recording (recording sampleStore)
        [("v1.18.9", "images")] infoMax23 [] [("default", "v1.18.9")]
        (clusterOldRanges, [])).2.1.Settings .UIKubernetesDefaultVersion = some "old" ∧
    (saveSystemImages sampleGlobals sampleSettings.recording (recording sampleStore)
        [("v1.18.9", "images")] infoMax23 [] [("default", "v1.18.9")]
        (clusterOldRanges, [])).2.1.Settings .KubernetesVersion = some "v1.18.9" :=
  have h := empty_candidates_keep_ranges sampleGlobals [("v1.18.9", "images")] infoMax23 []
    [("default", "v1.18.9")] clusterOldRanges "" ""
    (by intro k obj hk; simp [clusterOldRanges, sampleEmpty, Cluster.empty] at hk)
    (by decide) rfl rfl
  ⟨by decide, h.2.1, h.2.2.1, h.2.2.2.1⟩


/-! ## Labels and payload of the object submitted to `Update` -/

/-- C14: for a service option, a Windows service option, a system image and a Windows system
image, on every controller: when the lookup finds an object whose payload differs from the
payload of the catalog, the step submits, after the `Get`, exactly one `Update`, of the object
found with the payload of the catalog; its label map is the label map of the object found,
whatever the keys of the vendor catalog are. -/
theorem labels_kept_on_payload_update {σ SI SO WSI : Type} [DecidableEq SI] [DecidableEq SO]
    [DecidableEq WSI] (g : Globals SI SO WSI) (md : MetadataController σ SI SO WSI)
    (k8sVersion : String) (s : σ) :
    (∀ (serviceOptions : SO) (rkeDataKeys : GoMap Bool) (obj : RKEK8sServiceOption SO)
        (s1 : σ),
      md.ServiceOptionsLister.Get s g.GlobalNamespace k8sVersion = (.ok obj, s1) →
      obj.ServiceOptions ≠ serviceOptions →
      ∃ obj' : RKEK8sServiceOption SO,
        (createOrUpdateServiceOptionCRD g (recording md) k8sVersion serviceOptions rkeDataKeys
            (s, [])).2.2 =
          [.GetServiceOption g.GlobalNamespace k8sVersion, .UpdateServiceOption obj'] ∧
        obj'.Labels = obj.Labels ∧ obj' = { obj with ServiceOptions := serviceOptions }) ∧
    (∀ (serviceOptions : SO) (obj : RKEK8sServiceOption SO) (s1 : σ),
      md.ServiceOptionsLister.Get s g.GlobalNamespace (getWindowsName k8sVersion) =
        (.ok obj, s1) →
      obj.ServiceOptions ≠ serviceOptions →
      ∃ obj' : RKEK8sServiceOption SO,
        (createOrUpdateWindowsServiceOptionCRD g (recording md) k8sVersion serviceOptions
            (s, [])).2.2 =
          [.GetServiceOption g.GlobalNamespace (getWindowsName k8sVersion),
            .UpdateServiceOption obj'] ∧
        obj'.Labels = obj.Labels ∧ obj' = { obj with ServiceOptions := serviceOptions }) ∧
    (∀ (systemImages : SI) (obj : RKEK8sSystemImage SI) (s1 : σ),
      md.SystemImagesLister.Get s g.GlobalNamespace k8sVersion = (.ok obj, s1) →
      obj.SystemImages ≠ systemImages →
      ∃ obj' : RKEK8sSystemImage SI,
        (createOrUpdateSystemImageCRD g (recording md) k8sVersion systemImages (s, [])).2.2 =
          [.GetSystemImage g.GlobalNamespace k8sVersion, .UpdateSystemImage obj'] ∧
        obj'.Labels = obj.Labels ∧ obj' = { obj with SystemImages := systemImages }) ∧
    (∀ (systemImages : WSI) (windows : Bool) (obj : RKEK8sWindowsSystemImage WSI) (s1 : σ),
      md.WindowsSystemImagesLister.Get s g.GlobalNamespace (getWindowsName k8sVersion) =
        (.ok obj, s1) →
      obj.SystemImages ≠ systemImages →
      ∃ obj' : RKEK8sWindowsSystemImage WSI,
        (createOrUpdateWindowsSystemImageCRD g (recording md) k8sVersion systemImages windows
            (s, [])).2.2 =
          [.GetWindowsSystemImage g.GlobalNamespace (getWindowsName k8sVersion),
            .UpdateWindowsSystemImage obj'] ∧
        obj'.Labels = obj.Labels ∧ obj' = { obj with SystemImages := systemImages }) := by
  refine ⟨?_, ?_, ?_, ?_⟩
  · intro serviceOptions rkeDataKeys obj s1 hget hne
    refine ⟨{ obj with ServiceOptions := serviceOptions }, ?_, rfl, rfl⟩
    simp [createOrUpdateServiceOptionCRD, recording, Lister.recording, Interface.recording,
      hget, hne]
  · intro serviceOptions obj s1 hget hne
    refine ⟨{ obj with ServiceOptions := serviceOptions }, ?_, rfl, rfl⟩
    simp [createOrUpdateWindowsServiceOptionCRD, recording, Lister.recording,
      Interface.recording, hget, hne]
  · intro systemImages obj s1 hget hne
    refine ⟨{ obj with SystemImages := systemImages }, ?_, rfl, rfl⟩
    simp [createOrUpdateSystemImageCRD, recording, Lister.recording, Interface.recording,
      hget, hne]
  · intro systemImages windows obj s1 hget hne
    refine ⟨{ obj with SystemImages := systemImages }, ?_, rfl, rfl⟩
    simp [createOrUpdateWindowsSystemImageCRD, recording, Lister.recording,
      Interface.recording, hget, hne]

/-- C14 (witness): the stored service option `v1.18.9` has payload `old` and two labels; the
catalog holds payload `options` for the vendor version `v1.18.9`. The object submitted to
`Update` carries the same two labels. -/
theorem labels_kept_on_payload_update_witness :
    ∃ obj' : RKEK8sServiceOption String,
      (createOrUpdateServiceOptionCRD sampleGlobals (recording sampleStore) "v1.18.9"
          "options" (getRKEVendorOptions sampleGlobals) (clusterLabelledOption, [])).2.2 =
        [.GetServiceOption "cattle-global-data" "v1.18.9", .UpdateServiceOption obj'] ∧
      obj'.Labels = [("owner", "ops"), (sendRKELabel, "true")] ∧
      obj' =
        { Name := "v1.18.9", Namespace := "cattle-global-data",
          Labels := [("owner", "ops"), (sendRKELabel, "true")],
          ServiceOptions := "options", Kind := rkeServiceOptionKind,
          APIVersion := APIVersion } :=
  (labels_kept_on_payload_update sampleGlobals sampleStore "v1.18.9" clusterLabelledOption).1
    "options" (getRKEVendorOptions sampleGlobals)
    { Name := "v1.18.9", Namespace := "cattle-global-data",
      Labels := [("owner", "ops"), (sendRKELabel, "true")],
      ServiceOptions := "old", Kind := rkeServiceOptionKind,
      APIVersion := APIVersion }
    clusterLabelledOption rfl (by decide)


/-! ## The names of the Windows objects -/

theorem getWindowsName_ne (v : String) : getWindowsName v ≠ v := by
  intro h
  have h2 := congrArg String.length h
  simp only [getWindowsName, String.length_append] at h2
  have h3 : "w".length = 1 := by decide
  omega

theorem Upsert.mem_calls {O C : Type} (u : Upsert O) (get : C) (create update : O → C)
    (o : Option O) (call : C) (h : call ∈ u.calls get create update o) :
    call = get ∨ (o = none ∧ call = create u.create) ∨
      ∃ obj obj', o = some obj ∧ u.update obj = some obj' ∧ call = update obj' := by
  cases o with
  | none =>
    simp only [Upsert.calls, List.mem_cons, List.mem_nil_iff, or_false] at h
    rcases h with h | h
    · exact Or.inl h
    · exact Or.inr (Or.inl ⟨rfl, h⟩)
  | some obj =>
    simp only [Upsert.calls] at h
    cases hu : u.update obj with
    | none =>
      simp only [hu, List.mem_singleton] at h
      exact Or.inl h
    | some obj' =>
      simp only [hu, List.mem_cons, List.mem_nil_iff, or_false] at h
      rcases h with h | h
      · exact Or.inl h
      · exact Or.inr (Or.inr ⟨obj, obj', rfl, hu, h⟩)

/-- C15: the name `getWindowsName v` is `"w" + v`, differs from `v`, and `getWindowsName` is
injective. On the store, from a well-keyed cluster: the step for the Windows service option of
`v` reads and writes only objects named `"w" + v`, and leaves every service option under
another key, so the one named `v`, and every object of another kind as they were; the step for
the Windows system image of `v` does the same on the Windows system images and leaves the
system images and the service options as they were; and the step for the Linux service option
of `v` reads and writes only objects named `v` and leaves the service option named `"w" + v`
as it was. -/
theorem windows_key_isolation {SI SO WSI : Type} [DecidableEq SI] [DecidableEq SO]
    [DecidableEq WSI] (g : Globals SI SO WSI) (v : String) (c : Cluster SI SO WSI)
    (hc : c.WF) :
    getWindowsName v = "w" ++ v ∧ getWindowsName v ≠ v ∧
    Function.Injective getWindowsName ∧
    (∀ serviceOptions : SO,
      (∀ call ∈ (createOrUpdateWindowsServiceOptionCRD g (recording storeController) v
          serviceOptions (c, [])).2.2, call.name = getWindowsName v) ∧
      (∀ key, key ≠ (g.GlobalNamespace, getWindowsName v) →
        (createOrUpdateWindowsServiceOptionCRD g (recording storeController) v
          serviceOptions (c, [])).2.1.ServiceOptions key = c.ServiceOptions key) ∧
      (∀ ns, (createOrUpdateWindowsServiceOptionCRD g (recording storeController) v
          serviceOptions (c, [])).2.1.ServiceOptions (ns, v) = c.ServiceOptions (ns, v)) ∧
      (createOrUpdateWindowsServiceOptionCRD g (recording storeController) v
          serviceOptions (c, [])).2.1.SystemImages = c.SystemImages ∧
      (createOrUpdateWindowsServiceOptionCRD g (recording storeController) v
          serviceOptions (c, [])).2.1.Addons = c.Addons ∧
      (createOrUpdateWindowsServiceOptionCRD g (recording storeController) v
          serviceOptions (c, [])).2.1.WindowsSystemImages = c.WindowsSystemImages) ∧
    (∀ (systemImages : WSI) (windows : Bool),
      (∀ call ∈ (createOrUpdateWindowsSystemImageCRD g (recording storeController) v
          systemImages windows (c, [])).2.2, call.name = getWindowsName v) ∧
      (∀ key, key ≠ (g.GlobalNamespace, getWindowsName v) →
        (createOrUpdateWindowsSystemImageCRD g (recording storeController) v
          systemImages windows (c, [])).2.1.WindowsSystemImages key =
            c.WindowsSystemImages key) ∧
      (createOrUpdateWindowsSystemImageCRD g (recording storeController) v
          systemImages windows (c, [])).2.1.SystemImages = c.SystemImages ∧
      (createOrUpdateWindowsSystemImageCRD g (recording storeController) v
          systemImages windows (c, [])).2.1.ServiceOptions = c.ServiceOptions ∧
      (createOrUpdateWindowsSystemImageCRD g (recording storeController) v
          systemImages windows (c, [])).2.1.Addons = c.Addons) ∧
    (∀ (serviceOptions : SO) (rkeDataKeys : GoMap Bool),
      (∀ call ∈ (createOrUpdateServiceOptionCRD g (recording storeController) v
          serviceOptions rkeDataKeys (c, [])).2.2, call.name = v) ∧
      (∀ key, key ≠ (g.GlobalNamespace, v) →
        (createOrUpdateServiceOptionCRD g (recording storeController) v
          serviceOptions rkeDataKeys (c, [])).2.1.ServiceOptions key = c.ServiceOptions key) ∧
      (∀ ns, (createOrUpdateServiceOptionCRD g (recording storeController) v
          serviceOptions rkeDataKeys (c, [])).2.1.ServiceOptions (ns, getWindowsName v) =
            c.ServiceOptions (ns, getWindowsName v))) := by
  obtain ⟨-, hso, -, hwsi⟩ := hc
  refine ⟨rfl, getWindowsName_ne v, getWindowsName_injective, ?_, ?_, ?_⟩
  · intro serviceOptions
    rw [createOrUpdateWindowsServiceOptionCRD_store g v serviceOptions c [] hso]
    refine ⟨?_, ?_, ?_, rfl, rfl, rfl⟩
    · intro call hcall
      simp only [List.nil_append] at hcall
      rcases Upsert.mem_calls _ _ _ _ _ _ hcall with h | ⟨-, h⟩ | ⟨obj, obj', ho, hu, h⟩
      · rw [h]; rfl
      · rw [h]; rfl
      · have hk := (windowsServiceOptionAction_keyOK g (v, serviceOptions)).2 obj obj' hu
        have hk' := hso _ _ ho
        rw [hk'] at hk
        simp only [Prod.mk.injEq] at hk
        rw [h]
        exact hk.2
    · intro key hkey
      exact Upsert.apply_other _ _ _ _ hkey
    · intro ns
      apply Upsert.apply_other
      intro h
      simp only [Prod.mk.injEq] at h
      exact getWindowsName_ne v h.2.symm
  · intro systemImages windows
    rw [createOrUpdateWindowsSystemImageCRD_store g v systemImages windows c [] hwsi]
    refine ⟨?_, ?_, rfl, rfl, rfl⟩
    · intro call hcall
      simp only [List.nil_append] at hcall
      rcases Upsert.mem_calls _ _ _ _ _ _ hcall with h | ⟨-, h⟩ | ⟨obj, obj', ho, hu, h⟩
      · rw [h]; rfl
      · rw [h]; rfl
      · have hk := (windowsSystemImageAction_keyOK g (v, systemImages)).2 obj obj' hu
        have hk' := hwsi _ _ ho
        rw [hk'] at hk
        simp only [Prod.mk.injEq] at hk
        rw [h]
        exact hk.2
    · intro key hkey
      exact Upsert.apply_other _ _ _ _ hkey
  · intro serviceOptions rkeDataKeys
    rw [createOrUpdateServiceOptionCRD_store g v serviceOptions rkeDataKeys c [] hso]
    refine ⟨?_, ?_, ?_⟩
    · intro call hcall
      simp only [List.nil_append] at hcall
      rcases Upsert.mem_calls _ _ _ _ _ _ hcall with h | ⟨-, h⟩ | ⟨obj, obj', ho, hu, h⟩
      · rw [h]; rfl
      · rw [h]; rfl
      · have hk := (serviceOptionAction_keyOK g rkeDataKeys (v, serviceOptions)).2 obj obj' hu
        have hk' := hso _ _ ho
        rw [hk'] at hk
        simp only [Prod.mk.injEq] at hk
        rw [h]
        exact hk.2
    · intro key hkey
      exact Upsert.apply_other _ _ _ _ hkey
    · intro ns
      apply Upsert.apply_other
      intro h
      simp only [Prod.mk.injEq] at h
      exact getWindowsName_ne v h.2


theorem clusterLabelledOption_WF : clusterLabelledOption.WF := by
  refine ⟨?_, ?_, ?_, ?_⟩
  · intro k obj h; simp [clusterLabelledOption, sampleEmpty, Cluster.empty] at h
  · intro k obj h
    simp only [clusterLabelledOption] at h
    split at h
    · next hk =>
      simp only [Option.some.injEq] at h
      subst h hk
      rfl
    · simp at h
  · intro k obj h; simp [clusterLabelledOption, sampleEmpty, Cluster.empty] at h
  · intro k obj h; simp [clusterLabelledOption, sampleEmpty, Cluster.empty] at h

/-- C15 (witness): the cluster holds the Linux service option `v1.18.9`. The step for the
Windows service option of `v1.18.9` creates the object `wv1.18.9` and the object `v1.18.9` is
the one the cluster held. -/
theorem windows_key_isolation_witness :
    getWindowsName "v1.18.9" = "wv1.18.9" ∧ getWindowsName "v1.18.9" ≠ "v1.18.9" ∧
    (createOrUpdateWindowsServiceOptionCRD sampleGlobals (recording sampleStore) "v1.18.9"
        "windows" (clusterLabelledOption, [])).2.1.ServiceOptions
        ("cattle-global-data", "v1.18.9") =
      clusterLabelledOption.ServiceOptions ("cattle-global-data", "v1.18.9") ∧
    (createOrUpdateWindowsServiceOptionCRD sampleGlobals (recording sampleStore) "v1.18.9"
        "windows" (clusterLabelledOption, [])).2.1.ServiceOptions
        ("cattle-global-data", "wv1.18.9") =
      some { Name := "wv1.18.9", Namespace := "cattle-global-data", Labels := [],
             ServiceOptions := "windows", Kind := rkeServiceOptionKind,
             APIVersion := APIVersion } :=
  have h := windows_key_isolation sampleGlobals "v1.18.9" clusterLabelledOption
    clusterLabelledOption_WF
  ⟨by decide, h.2.1, (h.2.2.2.1 "windows").2.2.1 "cattle-global-data", by decide⟩


/-! ## Errors of the step for one catalog entry -/

/-- C16: on every controller and from every state, the step of each kind (system image,
Windows system image, service option, Windows service option, addon entry) classifies the
errors of its calls as `ErrorClassified` says: an error of the lookup other than `NotFound` is
returned and neither `Create` nor `Update` is submitted; after `NotFound`, a `Create` that
fails with `AlreadyExists` makes the step return no error and a `Create` that fails with
another error makes it return that error; and the error of an `Update`, whatever it is, is
returned as it is. -/
theorem error_classification {σ SI SO WSI : Type} [DecidableEq SI] [DecidableEq SO]
    [DecidableEq WSI] (g : Globals SI SO WSI) (md : MetadataController σ SI SO WSI)
    (k8sVersion : String) (s : σ) :
    (∀ systemImages : SI,
      ErrorClassified md.SystemImagesLister md.SystemImages g.GlobalNamespace k8sVersion
        (Call.GetSystemImage : String → String → Call SI SO WSI) .CreateSystemImage
        .UpdateSystemImage s
        (createOrUpdateSystemImageCRD g (recording md) k8sVersion systemImages (s, []))) ∧
    (∀ (systemImages : WSI) (windows : Bool),
      ErrorClassified md.WindowsSystemImagesLister md.WindowsSystemImages g.GlobalNamespace
        (getWindowsName k8sVersion)
        (Call.GetWindowsSystemImage : String → String → Call SI SO WSI)
        .CreateWindowsSystemImage .UpdateWindowsSystemImage s
        (createOrUpdateWindowsSystemImageCRD g (recording md) k8sVersion systemImages windows
          (s, []))) ∧
    (∀ (serviceOptions : SO) (rkeDataKeys : GoMap Bool),
      ErrorClassified md.ServiceOptionsLister md.ServiceOptions g.GlobalNamespace k8sVersion
        (Call.GetServiceOption : String → String → Call SI SO WSI) .CreateServiceOption
        .UpdateServiceOption s
        (createOrUpdateServiceOptionCRD g (recording md) k8sVersion serviceOptions rkeDataKeys
          (s, []))) ∧
    (∀ serviceOptions : SO,
      ErrorClassified md.ServiceOptionsLister md.ServiceOptions g.GlobalNamespace
        (getWindowsName k8sVersion)
        (Call.GetServiceOption : String → String → Call SI SO WSI) .CreateServiceOption
        .UpdateServiceOption s
        (createOrUpdateWindowsServiceOptionCRD g (recording md) k8sVersion serviceOptions
          (s, []))) ∧
    (∀ (addonName template : String) (rkeDataKeys : GoMap Bool),
      ErrorClassified md.AddonsLister md.Addons g.GlobalNamespace
        (g.ToLower addonName ++ "-" ++ k8sVersion)
        (Call.GetAddon : String → String → Call SI SO WSI) .CreateAddon .UpdateAddon s
        (createOrUpdateAddonCRD.body g (recording md) addonName rkeDataKeys
          (k8sVersion, template) (s, []))) := by
  refine ⟨?_, ?_, ?_, ?_, ?_⟩
  · intro systemImages
    refine ⟨?_, ?_, ?_⟩
    · intro err s1 hget hnf
      simp [createOrUpdateSystemImageCRD, recording, Lister.recording, hget, hnf]
    · intro err s1 hget hnf
      refine ⟨{ Name := k8sVersion, Namespace := g.GlobalNamespace, Labels := [],
                SystemImages := systemImages,
                Kind := rkeSystemImageKind, APIVersion := APIVersion }, ?_, ?_, ?_⟩
      · simp only [createOrUpdateSystemImageCRD, recording, Lister.recording,
          Interface.recording, hget, hnf]
        rcases hc : md.SystemImages.Create s1 _ with ⟨_ | e, s2⟩
        · simp
        · simp; split <;> simp
      · intro hc
        simp [createOrUpdateSystemImageCRD, recording, Lister.recording,
          Interface.recording, hget, hnf, hc, IsAlreadyExists]
      · intro e hc he
        simp [createOrUpdateSystemImageCRD, recording, Lister.recording,
          Interface.recording, hget, hnf, hc, he]
    · intro obj s1 hget obj' hmem
      simp only [createOrUpdateSystemImageCRD, recording, Lister.recording,
        Interface.recording, hget] at hmem ⊢
      split at hmem
      · simp at hmem
      · next hne =>
        simp only [List.nil_append, List.cons_append, List.mem_cons, List.mem_nil_iff,
          or_false, Call.UpdateSystemImage.injEq, reduceCtorEq, false_or] at hmem
        simp [hne, hmem]
  · intro systemImages windows
    refine ⟨?_, ?_, ?_⟩
    · intro err s1 hget hnf
      simp [createOrUpdateWindowsSystemImageCRD, recording, Lister.recording, hget, hnf]
    · intro err s1 hget hnf
      refine ⟨{ Name := getWindowsName k8sVersion, Namespace := g.GlobalNamespace,
                Labels := [], SystemImages := systemImages,
                Kind := rkeWindowsSystemImageKind, APIVersion := APIVersion }, ?_, ?_, ?_⟩
      · simp only [createOrUpdateWindowsSystemImageCRD, recording, Lister.recording,
          Interface.recording, hget, hnf]
        rcases hc : md.WindowsSystemImages.Create s1 _ with ⟨_ | e, s2⟩
        · simp
        · simp; split <;> simp
      · intro hc
        simp [createOrUpdateWindowsSystemImageCRD, recording, Lister.recording,
          Interface.recording, hget, hnf, hc, IsAlreadyExists]
      · intro e hc he
        simp [createOrUpdateWindowsSystemImageCRD, recording, Lister.recording,
          Interface.recording, hget, hnf, hc, he]
    · intro obj s1 hget obj' hmem
      simp only [createOrUpdateWindowsSystemImageCRD, recording, Lister.recording,
        Interface.recording, hget] at hmem ⊢
      split at hmem
      · simp at hmem
      · next hne =>
        simp only [List.nil_append, List.cons_append, List.mem_cons, List.mem_nil_iff,
          or_false, Call.UpdateWindowsSystemImage.injEq, reduceCtorEq, false_or] at hmem
        simp [hne, hmem]
  · intro serviceOptions rkeDataKeys
    refine ⟨?_, ?_, ?_⟩
    · intro err s1 hget hnf
      simp [createOrUpdateServiceOptionCRD, recording, Lister.recording, hget, hnf]
    · intro err s1 hget hnf
      refine ⟨{ Name := k8sVersion, Namespace := g.GlobalNamespace,
                Labels := if (rkeDataKeys.lookup k8sVersion).isSome = true then existLabel
                  else [],
                ServiceOptions := serviceOptions,
                Kind := rkeServiceOptionKind, APIVersion := APIVersion }, ?_, ?_, ?_⟩
      · simp only [createOrUpdateServiceOptionCRD, recording, Lister.recording,
          Interface.recording, hget, hnf]
        rcases hc : md.ServiceOptions.Create s1 _ with ⟨_ | e, s2⟩
        · simp
        · simp; split <;> simp
      · intro hc
        simp only [createOrUpdateServiceOptionCRD, recording, Lister.recording,
          Interface.recording, hget, hnf, hc]
        simp [IsAlreadyExists]
      · intro e hc he
        simp only [createOrUpdateServiceOptionCRD, recording, Lister.recording,
          Interface.recording, hget, hnf, hc]
        simp [he]
    · intro obj s1 hget obj' hmem
      simp only [createOrUpdateServiceOptionCRD, recording, Lister.recording,
        Interface.recording, hget] at hmem ⊢
      split at hmem
      · next heq =>
        simp only [heq, if_true] at hmem ⊢
        split at hmem
        · simp at hmem
        · next hl =>
          simp only [hl, if_false] at hmem ⊢
          split at hmem
          · next hex =>
            simp only [List.nil_append, List.cons_append, List.mem_cons, List.mem_nil_iff,
              or_false, Call.UpdateServiceOption.injEq, reduceCtorEq, false_or] at hmem
            simp [hex, hmem]
          · next hex =>
            simp only [List.nil_append, List.cons_append, List.mem_cons, List.mem_nil_iff,
              or_false, Call.UpdateServiceOption.injEq, reduceCtorEq, false_or] at hmem
            simp [hex, hmem]
      · next hne =>
        simp only [List.nil_append, List.cons_append, List.mem_cons, List.mem_nil_iff,
          or_false, Call.UpdateServiceOption.injEq, reduceCtorEq, false_or] at hmem
        simp [hne, hmem]
  · intro serviceOptions
    refine ⟨?_, ?_, ?_⟩
    · intro err s1 hget hnf
      simp [createOrUpdateWindowsServiceOptionCRD, recording, Lister.recording, hget, hnf]
    · intro err s1 hget hnf
      refine ⟨{ Name := getWindowsName k8sVersion, Namespace := g.GlobalNamespace,
                Labels := [], ServiceOptions := serviceOptions,
                Kind := rkeServiceOptionKind, APIVersion := APIVersion }, ?_, ?_, ?_⟩
      · simp only [createOrUpdateWindowsServiceOptionCRD, recording, Lister.recording,
          Interface.recording, hget, hnf]
        rcases hc : md.ServiceOptions.Create s1 _ with ⟨_ | e, s2⟩
        · simp
        · simp; split <;> simp
      · intro hc
        simp [createOrUpdateWindowsServiceOptionCRD, recording, Lister.recording,
          Interface.recording, hget, hnf, hc, IsAlreadyExists]
      · intro e hc he
        simp [createOrUpdateWindowsServiceOptionCRD, recording, Lister.recording,
          Interface.recording, hget, hnf, hc, he]
    · intro obj s1 hget obj' hmem
      simp only [createOrUpdateWindowsServiceOptionCRD, recording, Lister.recording,
        Interface.recording, hget] at hmem ⊢
      split at hmem
      · simp at hmem
      · next hne =>
        simp only [List.nil_append, List.cons_append, List.mem_cons, List.mem_nil_iff,
          or_false, Call.UpdateServiceOption.injEq, reduceCtorEq, false_or] at hmem
        simp [hne, hmem]
  · intro addonName template rkeDataKeys
    refine ⟨?_, ?_, ?_⟩
    · intro err s1 hget hnf
      simp [createOrUpdateAddonCRD.body, recording, Lister.recording, hget, hnf]
    · intro err s1 hget hnf
      refine ⟨{ Name := g.ToLower addonName ++ "-" ++ k8sVersion,
                Namespace := g.GlobalNamespace,
                Labels := if (rkeDataKeys.lookup k8sVersion).isSome = true then existLabel
                  else [],
                Template := template,
                Kind := rkeAddonKind, APIVersion := APIVersion }, ?_, ?_, ?_⟩
      · simp only [createOrUpdateAddonCRD.body, recording, Lister.recording,
          Interface.recording, hget, hnf]
        rcases hc : md.Addons.Create s1 _ with ⟨_ | e, s2⟩
        · simp
        · simp; split <;> simp
      · intro hc
        simp only [createOrUpdateAddonCRD.body, recording, Lister.recording,
          Interface.recording, hget, hnf, hc]
        simp [IsAlreadyExists]
      · intro e hc he
        simp only [createOrUpdateAddonCRD.body, recording, Lister.recording,
          Interface.recording, hget, hnf, hc]
        simp [he]
    · intro obj s1 hget obj' hmem
      simp only [createOrUpdateAddonCRD.body, recording, Lister.recording,
        Interface.recording, hget] at hmem ⊢
      split at hmem
      · next heq =>
        simp only [heq, if_true] at hmem ⊢
        split at hmem
        · simp at hmem
        · next hl =>
          simp only [hl, if_false] at hmem ⊢
          split at hmem
          · next hex =>
            simp only [List.nil_append, List.cons_append, List.mem_cons, List.mem_nil_iff,
              or_false, Call.UpdateAddon.injEq, reduceCtorEq, false_or] at hmem
            simp [hex, hmem]
          · next hex =>
            simp only [List.nil_append, List.cons_append, List.mem_cons, List.mem_nil_iff,
              or_false, Call.UpdateAddon.injEq, reduceCtorEq, false_or] at hmem
            simp [hex, hmem]
      · simp at hmem


/-- C16 (witness): the lister answers `NotFound` from a stale cache and the `Create` fails
with `AlreadyExists`: the step for the system image `v1.18.9` returns no error. -/
theorem error_classification_witness :
    (createOrUpdateSystemImageCRD sampleGlobals (recording staleCacheController) "v1.18.9"
      "images" (sampleEmpty, [])).1 = none :=
  match ((error_classification sampleGlobals staleCacheController "v1.18.9" sampleEmpty).1
      "images").2.1 .NotFound sampleEmpty rfl rfl with
  | ⟨_, _, h, _⟩ => h rfl


/-! ## The first error ends the pass -/

/-- C18 (counterexample): the catalog holds the versions `v1.18.9` and `v1.18-rc.1`. Their
major versions `v1.18` and `v1.18-rc` are in this order, so the representatives by ascending
major key are `v1.18.9`, `v1.18-rc.1`; the pass writes `v1.18-rc.1,v1.18.9` to the
kubernetes-versions-current setting, because `-` precedes `.`. -/
theorem current_versions_order_counterexample :
    representatives sampleGlobals [] "2.4" ["v1.18.9", "v1.18-rc.1"] [] =
      [("v1.18", "v1.18.9"), ("v1.18-rc", "v1.18-rc.1")] ∧
    byMajorKey [("v1.18", "v1.18.9"), ("v1.18-rc", "v1.18-rc.1")] =
      ["v1.18.9", "v1.18-rc.1"] ∧
    writesTo .KubernetesVersionsCurrent
        (createOrUpdateMetadata sampleGlobals sampleSettings.recording (recording sampleStore)
          dataReleaseCandidate (sampleEmpty, [])).2.2 = ["v1.18-rc.1,v1.18.9"] ∧
    (createOrUpdateMetadata sampleGlobals sampleSettings.recording (recording sampleStore)
        dataReleaseCandidate (sampleEmpty, [])).1 = none := by
  refine ⟨by decide, by decide, by decide, by decide⟩


theorem lt_append_of_lt (a b x y : List Char) (h : a < b) (hp : ¬ a <+: b) :
    a ++ x < b ++ y := by
  induction h with
  | nil => exact absurd List.nil_prefix hp
  | cons _ ih =>
    apply List.Lex.cons
    apply ih
    intro hpre
    exact hp ((List.cons_prefix_cons).2 ⟨rfl, hpre⟩)
  | rel hab => exact List.Lex.rel hab

theorem intercalate_splitDot (l : List Char) : List.intercalate ['.'] (splitDot l) = l := by
  induction l with
  | nil => rfl
  | cons c cs ih =>
    simp only [splitDot]
    cases hs : splitDot cs with
    | nil =>
      rw [hs] at ih
      simp [List.intercalate] at ih
      simp [List.intercalate, ← ih]
    | cons w ws =>
      rw [hs] at ih
      simp only
      split
      · next hc =>
        subst hc
        rw [← ih]
        simp [List.intercalate]
      · rw [← ih]
        cases ws <;> simp [List.intercalate]

theorem GetTagMajorVersion_isPrefix (v : String) : (GetTagMajorVersion v).data <+: v.data := by
  unfold GetTagMajorVersion
  simp only
  split
  · exact List.nil_prefix
  · next hlen =>
    have h := intercalate_splitDot v.data
    rcases hs : splitDot v.data with _ | ⟨w1, _ | ⟨w2, rest⟩⟩
    · simp [hs] at hlen
    · simp [hs] at hlen
    · rw [hs] at h
      simp only [List.take_succ_cons, List.take_zero]
      rw [← h]
      cases rest <;> simp [List.intercalate]


theorem byMajorKey_eq_sortStrings (m : GoMap String) (hwf : m.WF)
    (hmaj : ∀ x ∈ m, GetTagMajorVersion x.2 = x.1)
    (hpre : ∀ a ∈ m.keys, ∀ b ∈ m.keys, a.data <+: b.data → a = b) :
    sortStrings (m.map Prod.snd) = byMajorKey m := by
  haveI : IsTotal String (fun a b => strLt b a = false) :=
    ⟨fun a b => by simp only [strLt_false_iff]; exact le_total a b⟩
  haveI : IsTrans String (fun a b => strLt b a = false) :=
    ⟨fun a b c => by simp only [strLt_false_iff]; exact le_trans⟩
  haveI : IsAntisymm String (fun a b => strLt b a = false) :=
    ⟨fun a b => by simp only [strLt_false_iff]; exact le_antisymm⟩
  have hlook : ∀ x ∈ m, (m.lookup x.1).getD "" = x.2 := by
    intro x hx
    rw [(GoMap.mem_iff_lookup m hwf x.1 x.2).1 hx]
    rfl
  have hperm : (m.map Prod.snd).Perm (byMajorKey m) := by
    unfold byMajorKey
    have h1 : ((sortStrings m.keys).map fun M => (m.lookup M).getD "").Perm
        (m.keys.map fun M => (m.lookup M).getD "") :=
      (List.perm_insertionSort _ m.keys).map _
    refine List.Perm.trans ?_ h1.symm
    rw [GoMap.keys, List.map_map]
    rw [List.map_congr_left (fun x hx => by
      show Prod.snd x = ((fun M => (List.lookup M m).getD "") ∘ Prod.fst) x
      exact (hlook x hx).symm)]
  unfold sortStrings
  refine List.eq_of_perm_of_sorted ((List.perm_insertionSort _ _).trans hperm)
    (List.sorted_insertionSort _ _) ?_
  unfold byMajorKey
  rw [List.Sorted, List.pairwise_map]
  have hs : (sortStrings m.keys).Sorted (fun a b => strLt b a = false) :=
    List.sorted_insertionSort _ _
  refine List.Pairwise.imp_of_mem ?_ hs
  intro a b ha hb hab
  rw [mem_sortStrings] at ha hb
  by_cases heq : a = b
  · subst heq
    rw [strLt_false_iff]
  · obtain ⟨x, hx, hxa⟩ := List.mem_map.1 ha
    obtain ⟨y, hy, hyb⟩ := List.mem_map.1 hb
    have hlt : a.data < b.data := by
      have h1 : a < b := lt_of_le_of_ne ((strLt_false_iff b a).1 hab) heq
      have h2 := (strLt_iff a b).2 h1
      simpa [strLt] using h2
    have hnp : ¬ a.data <+: b.data := fun h => heq (hpre a ha b hb h)
    have hxp : a.data <+: x.2.data := by
      rw [← hxa, ← hmaj x hx]; exact GetTagMajorVersion_isPrefix x.2
    have hyp : b.data <+: y.2.data := by
      rw [← hyb, ← hmaj y hy]; exact GetTagMajorVersion_isPrefix y.2
    obtain ⟨t, ht⟩ := hxp
    obtain ⟨u, hu⟩ := hyp
    have hv := lt_append_of_lt a.data b.data t u hlt hnp
    rw [ht, hu] at hv
    rw [← hxa, ← hyb, hlook x hx, hlook y hy, strLt_false_iff]
    apply le_of_lt
    apply (strLt_iff _ _).1
    simpa [strLt] using hv


theorem currVersions_keys (m : GoMap String) (hwf : m.WF)
    (hmaj : ∀ x ∈ m, GetTagMajorVersion x.2 = x.1) :
    GoMap.keys (m.foldl (fun acc e => acc.set e.2 ()) ([] : GoMap Unit)) = m.map Prod.snd := by
  have hnd : (m.map Prod.snd).Nodup := by
    have h : (m.map Prod.snd).map GetTagMajorVersion = m.map Prod.fst := by
      rw [List.map_map]
      exact List.map_congr_left fun x hx => hmaj x hx
    have h2 : ((m.map Prod.snd).map GetTagMajorVersion).Nodup := by rw [h]; exact hwf
    exact List.Nodup.of_map _ h2
  rw [GoMap.foldl_set_values (fun _ => ()) m [] (by simpa [GoMap.keys] using hnd)]
  simp [GoMap.keys]

/-- C18 (amended): for a representative map with one entry per major key, each version under
its own major version. On every settings sink, a value that `updateSettings` writes to the
kubernetes-versions-current setting is the comma-joined list of the representative versions
in ascending order of the version strings themselves, and when `updateSettings` returns no
error that value is written exactly once. When no major key of the map is a proper prefix of
another, this list is the list of the representatives in ascending order of their major
keys. -/
theorem current_versions_order {σ SI SO WSI : Type} [Inhabited SO] (g : Globals SI SO WSI)
    (st : Settings σ) (m : GoMap String) (R : String) (so : GoMap SO) (table : GoMap String)
    (s : σ) (hwf : m.WF) (hmaj : ∀ x ∈ m, GetTagMajorVersion x.2 = x.1) :
    (∀ value ∈ writesTo .KubernetesVersionsCurrent
        (updateSettings g (st.recording : Settings (σ × List (Call SI SO WSI))) m R so table
          (s, [])).2.2,
      value = ",".intercalate (sortStrings (m.map Prod.snd))) ∧
    ((updateSettings g (st.recording : Settings (σ × List (Call SI SO WSI))) m R so table
        (s, [])).1 = none →
      writesTo .KubernetesVersionsCurrent
          (updateSettings g (st.recording : Settings (σ × List (Call SI SO WSI))) m R so table
            (s, [])).2.2 =
        [",".intercalate (sortStrings (m.map Prod.snd))]) ∧
    ((∀ a ∈ m.keys, ∀ b ∈ m.keys, a.data <+: b.data → a = b) →
      sortStrings (m.map Prod.snd) = byMajorKey m) := by
  have hkeys := currVersions_keys m hwf hmaj
  refine ⟨?_, ?_, byMajorKey_eq_sortStrings m hwf hmaj⟩
  · intro value hvalue
    rw [mem_writesTo] at hvalue
    unfold updateSettings at hvalue
    obtain ⟨k, hk⟩ := SaveSettings_log g st
      (m.foldl (fun acc e => acc.set e.2 ()) ([] : GoMap Unit))
      (m.foldl (fun acc e => acc.set e.2 ((so.lookup e.1).getD default)) [])
      table R (sortStrings m.keys) s ([] : List (Call SI SO WSI))
    simp only at hvalue
    rw [hk] at hvalue
    simp only [List.nil_append, List.mem_map] at hvalue
    obtain ⟨p, hp, hpe⟩ := hvalue
    simp only [Call.SetSetting.injEq] at hpe
    have hp' : (Setting.KubernetesVersionsCurrent, value) ∈
        settingsWrites g (m.foldl (fun acc e => acc.set e.2 ()) ([] : GoMap Unit))
          (m.foldl (fun acc e => acc.set e.2 ((so.lookup e.1).getD default)) [])
          table R (sortStrings m.keys) := by
      rw [← hpe.1, ← hpe.2]; exact List.mem_of_mem_take hp
    rw [mem_settingsWrites_current _ _ _ _ _ _ _ hp', hkeys]
  · intro hret
    unfold updateSettings at hret ⊢
    obtain ⟨d1, d2, hm1, hm2, hlog⟩ := SaveSettings_log_of_none g st _ _ table R _ s [] hret
    simp only at hlog ⊢
    rw [hlog]
    cases hk : sortStrings m.keys with
    | nil => simp [settingsWrites, hm1, hm2, writesTo, hkeys]
    | cons a as => simp [settingsWrites, hm1, hm2, writesTo, hkeys]

/-- C18 (witness): the representatives `v1.18 ↦ v1.18.9` and `v1.19 ↦ v1.19.3`: the value
written is `v1.18.9,v1.19.3`, which is also the list by ascending major key. -/
theorem current_versions_order_witness :
    GoMap.WF [("v1.19", "v1.19.3"), ("v1.18", "v1.18.9")] ∧
    writesTo .KubernetesVersionsCurrent
        (updateSettings sampleGlobals
          (sampleSettings.recording :
            Settings (Cluster String String String × List (Call String String String)))
          [("v1.19", "v1.19.3"), ("v1.18", "v1.18.9")] "2.4" [] [("default", "v1.18.9")]
          (sampleEmpty, [])).2.2 =
      [",".intercalate
        (sortStrings (List.map Prod.snd [("v1.19", "v1.19.3"), ("v1.18", "v1.18.9")]))] ∧
    sortStrings (List.map Prod.snd [("v1.19", "v1.19.3"), ("v1.18", "v1.18.9")]) =
      byMajorKey [("v1.19", "v1.19.3"), ("v1.18", "v1.18.9")] ∧
    ",".intercalate
        (sortStrings (List.map Prod.snd [("v1.19", "v1.19.3"), ("v1.18", "v1.18.9")])) =
      "v1.18.9,v1.19.3" :=
  have h := current_versions_order sampleGlobals sampleSettings
    [("v1.19", "v1.19.3"), ("v1.18", "v1.18.9")] "2.4" ([] : GoMap String)
    [("default", "v1.18.9")] sampleEmpty (by decide) (by decide)
  ⟨by decide, h.2.1 (by decide), h.2.2 (by decide), by decide⟩


/-! ## The provenance label of an object whose payload is unchanged -/

theorem GoMap.lookup_delete_self {V : Type} (m : GoMap V) (k : String) :
    (m.delete k).lookup k = none := by
  induction m with
  | nil => rfl
  | cons e rest ih =>
    obtain ⟨a, b⟩ := e
    unfold GoMap.delete at ih ⊢
    by_cases h : a = k
    · simp only [List.filter_cons, ne_eq, h, not_true_eq_false, decide_False,
        Bool.false_eq_true, if_false]
      exact ih
    · have hk : k ≠ a := fun h' => h h'.symm
      simp only [List.filter_cons, ne_eq, h, not_false_eq_true, decide_True, if_true]
      rw [lookup_cons_ite, if_neg hk]
      exact ih

theorem existLabel_lookup : existLabel.lookup sendRKELabel = some "false" := by decide

/-- The label map that the step leaves on an object whose payload is unchanged. -/
theorem reconciled_labels_lookup (labels : GoMap String) (exists_ : Bool) :
    (exists_ = true →
      (if labels = existLabel ∧ exists_ = true then labels
        else if exists_ = true then existLabel
        else labels.delete sendRKELabel).lookup sendRKELabel = some "false") ∧
    (exists_ = false →
      (if labels = existLabel ∧ exists_ = true then labels
        else if exists_ = true then existLabel
        else labels.delete sendRKELabel).lookup sendRKELabel = none) := by
  constructor
  · intro h
    subst h
    by_cases hl : labels = existLabel
    · simp [hl, existLabel_lookup]
    · simp [hl, existLabel_lookup]
  · intro h
    subst h
    simp [GoMap.lookup_delete_self]


theorem serviceOptionUpsert_target_same {SI SO WSI : Type} [DecidableEq SO]
    (g : Globals SI SO WSI) (k8sVersion : String) (serviceOptions : SO) (exists_ : Bool)
    (obj : RKEK8sServiceOption SO) (h : obj.ServiceOptions = serviceOptions) :
    (serviceOptionUpsert g k8sVersion serviceOptions exists_).target (some obj) =
      { obj with
        Labels :=
          if obj.Labels = existLabel ∧ exists_ = true then obj.Labels
          else if exists_ = true then existLabel
          else obj.Labels.delete sendRKELabel } := by
  simp only [Upsert.target, serviceOptionUpsert]
  rw [if_pos h]
  by_cases h1 : obj.Labels = existLabel ∧ exists_ = true
  · rw [if_pos h1, if_pos h1]; rfl
  · rw [if_neg h1, if_neg h1]
    by_cases h2 : exists_ = true
    · rw [if_pos h2, if_pos h2]; rfl
    · rw [if_neg h2, if_neg h2]; rfl

theorem addonUpsert_target_same {SI SO WSI : Type} (g : Globals SI SO WSI)
    (addonName k8sVersion template : String) (exists_ : Bool) (obj : RKEAddon)
    (h : obj.Template = template) :
    (addonUpsert g addonName k8sVersion template exists_).target (some obj) =
      { obj with
        Labels :=
          if obj.Labels = existLabel ∧ exists_ = true then obj.Labels
          else if exists_ = true then existLabel
          else obj.Labels.delete sendRKELabel } := by
  simp only [Upsert.target, addonUpsert]
  rw [if_pos h]
  by_cases h1 : obj.Labels = existLabel ∧ exists_ = true
  · rw [if_pos h1, if_pos h1]; rfl
  · rw [if_neg h1, if_neg h1]
    by_cases h2 : exists_ = true
    · rw [if_pos h2, if_pos h2]; rfl
    · rw [if_neg h2, if_neg h2]; rfl


/-- C19: on the store, from a well-keyed cluster, for a service option and for an addon entry
whose object is found with the payload of the catalog: the step returns no error; the object
stored under the key afterwards has the payload it had; its label `io.cattle.rke_store` is
`"false"` when the version is in the vendor catalog (the vendor service options, or the vendor
templates of the addon), and the label is absent when it is not. -/
theorem label_convergence {SI SO WSI : Type} [DecidableEq SI] [DecidableEq SO]
    [DecidableEq WSI] (g : Globals SI SO WSI) (c : Cluster SI SO WSI) (hc : c.WF)
    (k8sVersion : String) :
    (∀ (serviceOptions : SO) (obj : RKEK8sServiceOption SO),
      c.ServiceOptions (g.GlobalNamespace, k8sVersion) = some obj →
      obj.ServiceOptions = serviceOptions →
      (createOrUpdateServiceOptionCRD g (recording storeController) k8sVersion serviceOptions
        (getRKEVendorOptions g) (c, [])).1 = none ∧
      ∃ obj' : RKEK8sServiceOption SO,
        (createOrUpdateServiceOptionCRD g (recording storeController) k8sVersion
          serviceOptions (getRKEVendorOptions g) (c, [])).2.1.ServiceOptions
            (g.GlobalNamespace, k8sVersion) = some obj' ∧
        obj'.ServiceOptions = obj.ServiceOptions ∧
        (k8sVersion ∈ g.DriverData.K8sVersionServiceOptions.keys →
          obj'.Labels.lookup sendRKELabel = some "false") ∧
        (k8sVersion ∉ g.DriverData.K8sVersionServiceOptions.keys →
          obj'.Labels.lookup sendRKELabel = none)) ∧
    (∀ (addonName template : String) (obj : RKEAddon),
      c.Addons (g.GlobalNamespace, g.ToLower addonName ++ "-" ++ k8sVersion) = some obj →
      obj.Template = template →
      (createOrUpdateAddonCRD.body g (recording storeController) addonName
        (getRKEVendorData g addonName) (k8sVersion, template) (c, [])).1 = none ∧
      ∃ obj' : RKEAddon,
        (createOrUpdateAddonCRD.body g (recording storeController) addonName
          (getRKEVendorData g addonName) (k8sVersion, template) (c, [])).2.1.Addons
            (g.GlobalNamespace, g.ToLower addonName ++ "-" ++ k8sVersion) = some obj' ∧
        obj'.Template = obj.Template ∧
        ((∃ templateData,
            g.DriverData.K8sVersionedTemplates.lookup addonName = some templateData ∧
              k8sVersion ∈ templateData.keys) →
          obj'.Labels.lookup sendRKELabel = some "false") ∧
        ((¬ ∃ templateData,
            g.DriverData.K8sVersionedTemplates.lookup addonName = some templateData ∧
              k8sVersion ∈ templateData.keys) →
          obj'.Labels.lookup sendRKELabel = none)) := by
  obtain ⟨-, hso, had, -⟩ := hc
  constructor
  · intro serviceOptions obj hget heq
    rw [createOrUpdateServiceOptionCRD_store g k8sVersion serviceOptions _ c [] hso]
    have hl := reconciled_labels_lookup obj.Labels
      ((getRKEVendorOptions g).lookup k8sVersion).isSome
    refine ⟨rfl, _, Upsert.apply_self _ _ _, ?_⟩
    rw [hget, serviceOptionUpsert_target_same g k8sVersion serviceOptions _ obj heq]
    refine ⟨rfl, ?_, ?_⟩
    · intro hv
      exact hl.1 (by rw [getRKEVendorOptions_isSome]; exact decide_eq_true hv)
    · intro hv
      exact hl.2 (by rw [getRKEVendorOptions_isSome]; exact decide_eq_false hv)
  · intro addonName template obj hget heq
    rw [createOrUpdateAddonCRD_body_store g addonName _ (k8sVersion, template) c [] had]
    have hl := reconciled_labels_lookup obj.Labels
      ((getRKEVendorData g addonName).lookup k8sVersion).isSome
    have hiff := getRKEVendorData_isSome g addonName k8sVersion
    refine ⟨rfl, _, Upsert.apply_self _ _ _, ?_⟩
    simp only at hget ⊢
    rw [hget, addonUpsert_target_same g addonName k8sVersion template _ obj heq]
    refine ⟨rfl, ?_, ?_⟩
    · intro hv
      exact hl.1 (hiff.2 hv)
    · intro hv
      apply hl.2
      cases h : ((getRKEVendorData g addonName).lookup k8sVersion).isSome with
      | false => rfl
      | true => exact absurd (hiff.1 h) hv


/-- C19 (witness): the stored service option `v1.18.9` has the payload `old` of the catalog and
the label `io.cattle.rke_store = true`; the version is in the vendor catalog. After the step
the stored object has the payload `old` and the label `io.cattle.rke_store = false`. -/
theorem label_convergence_witness :
    ∃ obj' : RKEK8sServiceOption String,
      (createOrUpdateServiceOptionCRD sampleGlobals (recording sampleStore) "v1.18.9" "old"
        (getRKEVendorOptions sampleGlobals) (clusterLabelledOption, [])).2.1.ServiceOptions
          ("cattle-global-data", "v1.18.9") = some obj' ∧
      obj'.ServiceOptions = "old" ∧
      obj'.Labels.lookup sendRKELabel = some "false" :=
  match (label_convergence sampleGlobals clusterLabelledOption clusterLabelledOption_WF
      "v1.18.9").1 "old"
      { Name := "v1.18.9", Namespace := "cattle-global-data",
        Labels := [("owner", "ops"), (sendRKELabel, "true")],
        ServiceOptions := "old", Kind := rkeServiceOptionKind,
        APIVersion := APIVersion } rfl rfl with
  | ⟨_, obj', h1, h2, h3, _⟩ => ⟨obj', h1, h2, h3 (by decide)⟩


theorem GoMap.lookup_delete_other {V : Type} (m : GoMap V) (k k' : String) (h : k ≠ k') :
    (m.delete k').lookup k = m.lookup k := by
  induction m with
  | nil => rfl
  | cons e rest ih =>
    obtain ⟨a, b⟩ := e
    unfold GoMap.delete at ih ⊢
    by_cases ha : a = k'
    · simp only [List.filter_cons, ne_eq, ha, not_true_eq_false, decide_False,
        Bool.false_eq_true, if_false]
      rw [lookup_cons_ite, if_neg h]
      exact ih
    · simp only [List.filter_cons, ne_eq, ha, not_false_eq_true, decide_True, if_true]
      rw [lookup_cons_ite, lookup_cons_ite, ih]

/-- C20: on every controller, for a service option and for an addon entry whose object is
found with the payload of the catalog. When the version is in the vendor catalog and the label
map of the object is not exactly `io.cattle.rke_store = "false"`, the step submits one
`Update`, of the object found with the label map `existLabel`: no other label of the object
is kept. When the version is not in the vendor catalog, the step submits one `Update`, of the
object found with its label map minus the key `io.cattle.rke_store`: every other label keeps
its value. -/
theorem label_reconciliation_replaces_map {σ SI SO WSI : Type} [DecidableEq SI]
    [DecidableEq SO] [DecidableEq WSI] (g : Globals SI SO WSI)
    (md : MetadataController σ SI SO WSI) (k8sVersion : String) (s : σ) :
    (∀ (serviceOptions : SO) (obj : RKEK8sServiceOption SO) (s1 : σ),
      md.ServiceOptionsLister.Get s g.GlobalNamespace k8sVersion = (.ok obj, s1) →
      obj.ServiceOptions = serviceOptions →
      (k8sVersion ∈ g.DriverData.K8sVersionServiceOptions.keys → obj.Labels ≠ existLabel →
        (createOrUpdateServiceOptionCRD g (recording md) k8sVersion serviceOptions
            (getRKEVendorOptions g) (s, [])).2.2 =
          [.GetServiceOption g.GlobalNamespace k8sVersion,
            .UpdateServiceOption { obj with Labels := existLabel }] ∧
        ∀ k, k ≠ sendRKELabel → existLabel.lookup k = none) ∧
      (k8sVersion ∉ g.DriverData.K8sVersionServiceOptions.keys →
        (createOrUpdateServiceOptionCRD g (recording md) k8sVersion serviceOptions
            (getRKEVendorOptions g) (s, [])).2.2 =
          [.GetServiceOption g.GlobalNamespace k8sVersion,
            .UpdateServiceOption { obj with Labels := obj.Labels.delete sendRKELabel }] ∧
        (obj.Labels.delete sendRKELabel).lookup sendRKELabel = none ∧
        ∀ k, k ≠ sendRKELabel →
          (obj.Labels.delete sendRKELabel).lookup k = obj.Labels.lookup k)) ∧
    (∀ (addonName template : String) (obj : RKEAddon) (s1 : σ),
      md.AddonsLister.Get s g.GlobalNamespace (g.ToLower addonName ++ "-" ++ k8sVersion) =
        (.ok obj, s1) →
      obj.Template = template →
      ((∃ templateData,
          g.DriverData.K8sVersionedTemplates.lookup addonName = some templateData ∧
            k8sVersion ∈ templateData.keys) → obj.Labels ≠ existLabel →
        (createOrUpdateAddonCRD.body g (recording md) addonName
            (getRKEVendorData g addonName) (k8sVersion, template) (s, [])).2.2 =
          [.GetAddon g.GlobalNamespace (g.ToLower addonName ++ "-" ++ k8sVersion),
            .UpdateAddon { obj with Labels := existLabel }] ∧
        ∀ k, k ≠ sendRKELabel → existLabel.lookup k = none) ∧
      ((¬ ∃ templateData,
          g.DriverData.K8sVersionedTemplates.lookup addonName = some templateData ∧
            k8sVersion ∈ templateData.keys) →
        (createOrUpdateAddonCRD.body g (recording md) addonName
            (getRKEVendorData g addonName) (k8sVersion, template) (s, [])).2.2 =
          [.GetAddon g.GlobalNamespace (g.ToLower addonName ++ "-" ++ k8sVersion),
            .UpdateAddon { obj with Labels := obj.Labels.delete sendRKELabel }] ∧
        (obj.Labels.delete sendRKELabel).lookup sendRKELabel = none ∧
        ∀ k, k ≠ sendRKELabel →
          (obj.Labels.delete sendRKELabel).lookup k = obj.Labels.lookup k)) := by
  have hother : ∀ k, k ≠ sendRKELabel → existLabel.lookup k = none := by
    intro k hk
    simp only [existLabel]
    rw [lookup_cons_ite, if_neg hk]
    rfl
  constructor
  · intro serviceOptions obj s1 hget heq
    constructor
    · intro hv hne
      have hex : ((getRKEVendorOptions g).lookup k8sVersion).isSome = true := by
        rw [getRKEVendorOptions_isSome]; exact decide_eq_true hv
      refine ⟨?_, hother⟩
      simp only [createOrUpdateServiceOptionCRD, recording, Lister.recording,
        Interface.recording, hget, hex]
      rw [if_pos heq, if_neg (fun h => hne h.1)]
      simp
    · intro hv
      have hex : ((getRKEVendorOptions g).lookup k8sVersion).isSome = false := by
        rw [getRKEVendorOptions_isSome]; exact decide_eq_false hv
      refine ⟨?_, GoMap.lookup_delete_self _ _,
        fun k hk => GoMap.lookup_delete_other _ _ _ hk⟩
      simp only [createOrUpdateServiceOptionCRD, recording, Lister.recording,
        Interface.recording, hget, hex]
      rw [if_pos heq, if_neg (by simp)]
      simp
  · intro addonName template obj s1 hget heq
    have hiff := getRKEVendorData_isSome g addonName k8sVersion
    constructor
    · intro hv hne
      have hex := hiff.2 hv
      refine ⟨?_, hother⟩
      simp only [createOrUpdateAddonCRD.body, recording, Lister.recording,
        Interface.recording, hget, hex]
      rw [if_pos heq, if_neg (fun h => hne h.1)]
      simp
    · intro hv
      have hex : ((getRKEVendorData g addonName).lookup k8sVersion).isSome = false := by
        cases h : ((getRKEVendorData g addonName).lookup k8sVersion).isSome with
        | false => rfl
        | true => exact absurd (hiff.1 h) hv
      refine ⟨?_, GoMap.lookup_delete_self _ _,
        fun k hk => GoMap.lookup_delete_other _ _ _ hk⟩
      simp only [createOrUpdateAddonCRD.body, recording, Lister.recording,
        Interface.recording, hget, hex]
      rw [if_pos heq, if_neg (by simp)]
      simp

/-- C20 (witness): the stored service option `v1.18.9` has the payload `old` of the catalog and
the labels `owner = ops` and `io.cattle.rke_store = true`; the version is in the vendor
catalog. The object submitted to `Update` has the label map `existLabel`, in which the label
`owner` is absent. -/
theorem label_reconciliation_replaces_map_witness :
    (createOrUpdateServiceOptionCRD sampleGlobals (recording sampleStore) "v1.18.9" "old"
        (getRKEVendorOptions sampleGlobals) (clusterLabelledOption, [])).2.2 =
      [.GetServiceOption "cattle-global-data" "v1.18.9",
        .UpdateServiceOption
          { Name := "v1.18.9", Namespace := "cattle-global-data", Labels := existLabel,
            ServiceOptions := "old", Kind := rkeServiceOptionKind,
            APIVersion := APIVersion }] ∧
    existLabel.lookup "owner" = none :=
  have h := ((label_reconciliation_replaces_map sampleGlobals sampleStore "v1.18.9"
      clusterLabelledOption).1 "old"
      { Name := "v1.18.9", Namespace := "cattle-global-data",
        Labels := [("owner", "ops"), (sendRKELabel, "true")],
        ServiceOptions := "old", Kind := rkeServiceOptionKind,
        APIVersion := APIVersion } clusterLabelledOption rfl rfl).1 (by decide) (by decide)
  ⟨h.1, h.2 "owner" (by decide)⟩


/-! ## Versions kept out of the current versions -/

theorem mem_settingsWrites_images {SI SO WSI : Type} (g : Globals SI SO WSI)
    (cur : GoMap Unit) (svc : GoMap SO) (table : GoMap String) (R : String)
    (maxVersions : List String) (value : String)
    (h : (Setting.KubernetesVersionToSystemImages, value) ∈
      settingsWrites g cur svc table R maxVersions) :
    g.marshalCurrVersions cur = .ok value := by
  unfold settingsWrites at h
  cases h1 : g.marshalCurrVersions cur with
  | error e => simp [h1] at h
  | ok d1 =>
    cases h2 : g.marshalSvcOptions svc with
    | error e =>
      simp only [h1, h2, List.mem_cons, Prod.mk.injEq, reduceCtorEq, false_and,
        List.mem_nil_iff, or_false, true_and] at h
      rw [h]
    | ok d2 =>
      cases maxVersions with
      | nil => simp [h1, h2] at h; rw [h]
      | cons a as => simp [h1, h2] at h; rw [h]

theorem mem_settingsWrites_options {SI SO WSI : Type} (g : Globals SI SO WSI)
    (cur : GoMap Unit) (svc : GoMap SO) (table : GoMap String) (R : String)
    (maxVersions : List String) (value : String)
    (h : (Setting.KubernetesVersionToServiceOptions, value) ∈
      settingsWrites g cur svc table R maxVersions) :
    g.marshalSvcOptions svc = .ok value := by
  unfold settingsWrites at h
  cases h1 : g.marshalCurrVersions cur with
  | error e => simp [h1] at h
  | ok d1 =>
    cases h2 : g.marshalSvcOptions svc with
    | error e => simp [h1, h2] at h
    | ok d2 =>
      cases maxVersions with
      | nil => simp [h1, h2] at h; rw [h]
      | cons a as => simp [h1, h2] at h; rw [h]

theorem writesTo_callsAll {SI SO WSI O : Type} (setting : Setting)
    (get : String → String → Call SI SO WSI) (create update : O → Call SI SO WSI)
    (hget : ∀ ns name setting' value, get ns name ≠ .SetSetting setting' value)
    (hcreate : ∀ obj setting' value, create obj ≠ .SetSetting setting' value)
    (hupdate : ∀ obj setting' value, update obj ≠ .SetSetting setting' value)
    (acts : List (Action O)) (store : String × String → Option O) :
    writesTo setting (callsAll get create update acts store) = [] := by
  apply List.eq_nil_iff_forall_not_mem.2
  intro value hvalue
  rw [mem_writesTo] at hvalue
  rcases mem_callsAll _ _ _ _ _ _ hvalue with ⟨_, _, h⟩ | ⟨_, h⟩ | ⟨_, h⟩
  · exact hget _ _ _ _ h.symm
  · exact hcreate _ _ _ h.symm
  · exact hupdate _ _ _ h.symm

/-- C7: let `v` be an entry that the loop does not skip (the check reads the record under the
full version `v`) and whose major version has a record, looked up under
`GetTagMajorVersion v`, with `MaxRancherVersion` set and a running version above it. On the
store, `saveSystemImages` looks the object of `v` up and leaves it persisted with the payload
of the catalog. The loop ends with a map `m` in which `v` is the value of no key, so `v` is
not among the values of `m`, and the three settings published from `m` do not hold `v`: a
value written to kubernetes-versions-current is the comma-joined sorted list of the values of
`m`; a value written to k8s-version-to-images is `json.Marshal` of the map whose keys are the
values of `m`; and a value written to k8s-version-to-service-options is `json.Marshal` of the
map from the values of `m` to the service options of their major versions. When both maps are
serialised without error, each of the three settings is written exactly once, with these
values. -/
theorem excluded_still_persisted {SI SO WSI : Type} [DecidableEq SI] [Inhabited SO]
    (g : Globals SI SO WSI) (l : GoMap SI) (info : GoMap K8sVersionInfo) (so : GoMap SO)
    (table : GoMap String) (c : Cluster SI SO WSI)
    (hwf : WellKeyed (fun obj => (obj.Namespace, obj.Name)) c.SystemImages) (hl : l.WF)
    (v : String) (img : SI) (hv : (v, img) ∈ l)
    (hskip : skipsEntry g info g.GetRancherVersion v = false) (majorInfo : K8sVersionInfo)
    (hmajor : info.lookup (GetTagMajorVersion v) = some majorInfo)
    (hmax : majorInfo.MaxRancherVersion ≠ "")
    (hgt : 0 < g.CompareSimple g.GetRancherVersion majorInfo.MaxRancherVersion) :
    (Call.GetSystemImage g.GlobalNamespace v ∈
        (saveSystemImages g storeSettings.recording (recording storeController) l info so
          table (c, [])).2.2 ∧
      ∃ obj,
        (saveSystemImages g storeSettings.recording (recording storeController) l info so
          table (c, [])).2.1.SystemImages (g.GlobalNamespace, v) = some obj ∧
        obj.SystemImages = img) ∧
    ∃ m s', saveSystemImages.loop g (recording storeController) info g.GetRancherVersion l []
        (c, []) = (.ok m, s') ∧
      (∀ M, m.lookup M ≠ some v) ∧ v ∉ m.map Prod.snd ∧
      (∀ value ∈ writesTo .KubernetesVersionsCurrent
          (saveSystemImages g storeSettings.recording (recording storeController) l info so
            table (c, [])).2.2,
        value = ",".intercalate (sortStrings (m.map Prod.snd))) ∧
      (∀ value ∈ writesTo .KubernetesVersionToSystemImages
          (saveSystemImages g storeSettings.recording (recording storeController) l info so
            table (c, [])).2.2,
        g.marshalCurrVersions (m.map fun e => (e.2, ())) = .ok value) ∧
      (∀ value ∈ writesTo .KubernetesVersionToServiceOptions
          (saveSystemImages g storeSettings.recording (recording storeController) l info so
            table (c, [])).2.2,
        g.marshalSvcOptions (m.map fun e => (e.2, (so.lookup e.1).getD default)) =
          .ok value) ∧
      (∀ d1 d2, g.marshalCurrVersions (m.map fun e => (e.2, ())) = .ok d1 →
        g.marshalSvcOptions (m.map fun e => (e.2, (so.lookup e.1).getD default)) = .ok d2 →
        writesTo .KubernetesVersionToSystemImages
            (saveSystemImages g storeSettings.recording (recording storeController) l info so
              table (c, [])).2.2 = [d1] ∧
        writesTo .KubernetesVersionsCurrent
            (saveSystemImages g storeSettings.recording (recording storeController) l info so
              table (c, [])).2.2 = [",".intercalate (sortStrings (m.map Prod.snd))] ∧
        writesTo .KubernetesVersionToServiceOptions
            (saveSystemImages g storeSettings.recording (recording storeController) l info so
              table (c, [])).2.2 = [d2]) := by
  have hex := excludesMajor_of_max g info g.GetRancherVersion _ majorInfo hmajor hmax hgt
  have hnot : ∀ M, (M, v) ∉ representatives g info g.GetRancherVersion l.keys [] := by
    intro M hM
    rcases representatives_mem g info _ _ _ _ hM with h | ⟨_, h⟩
    · simp at h
    · rw [isCandidate_iff] at h
      obtain ⟨_, h2, h3⟩ := h
      simp only at h2 h3
      rw [← h2, hex] at h3
      simp at h3
  have hnd := representatives_values_nodup g info g.GetRancherVersion l.keys
  have hcur := GoMap.foldl_set_values (fun _ => ())
    (representatives g info g.GetRancherVersion l.keys []) [] (by simpa [GoMap.keys] using hnd)
  have hsvc := GoMap.foldl_set_values (fun e => (so.lookup e.1).getD default)
    (representatives g info g.GetRancherVersion l.keys []) [] (by simpa [GoMap.keys] using hnd)
  simp only [List.nil_append] at hcur hsvc
  obtain ⟨settings, writes, h, hw⟩ := saveSystemImages_store g l info so table c [] hwf
  rw [hcur, hsvc] at hw
  have hmemw : ∀ setting value, value ∈ writesTo setting
      (saveSystemImages g storeSettings.recording (recording storeController) l info so
        table (c, [])).2.2 → (setting, value) ∈ writes := by
    intro setting value hvalue
    rw [mem_writesTo, h] at hvalue
    simp only [List.nil_append, List.mem_append, List.mem_map] at hvalue
    rcases hvalue with hvalue | ⟨p, hp, hpe⟩
    · rcases mem_callsAll _ _ _ _ _ _ hvalue with ⟨_, _, h⟩ | ⟨_, h⟩ | ⟨_, h⟩ <;>
        simp at h
    · simp only [Call.SetSetting.injEq] at hpe
      rw [← hpe.1, ← hpe.2]; exact hp
  refine ⟨saveSystemImages_reconciles g l info so table c [] hwf hl v img hv hskip,
    _, _, saveSystemImages_loop_store g info g.GetRancherVersion l [] c [] hwf, ?_, ?_, ?_,
    ?_, ?_, ?_⟩
  · intro M hM
    exact hnot M (lookup_mem _ _ _ hM)
  · intro hmem
    obtain ⟨x, hx, hxv⟩ := List.mem_map.1 hmem
    exact hnot x.1 (by rw [← hxv]; exact hx)
  · intro value hvalue
    have hp := hmemw _ _ hvalue
    rw [hw] at hp
    rw [mem_settingsWrites_current _ _ _ _ _ _ _ hp]
    simp only [GoMap.keys, List.map_map]
    rfl
  · intro value hvalue
    have hp := hmemw _ _ hvalue
    rw [hw] at hp
    exact mem_settingsWrites_images _ _ _ _ _ _ _ hp
  · intro value hvalue
    have hp := hmemw _ _ hvalue
    rw [hw] at hp
    exact mem_settingsWrites_options _ _ _ _ _ _ _ hp
  · intro d1 d2 hm1 hm2
    have hlog : ∀ setting, writesTo setting
        (saveSystemImages g storeSettings.recording (recording storeController) l info so
          table (c, [])).2.2 =
        writesTo setting
          (writes.map fun p => (Call.SetSetting p.1 p.2 : Call SI SO WSI)) := by
      intro setting
      rw [h]
      simp only [writesTo, List.nil_append, List.filterMap_append]
      have h0 := writesTo_callsAll setting
        (Call.GetSystemImage : String → String → Call SI SO WSI) .CreateSystemImage
        .UpdateSystemImage (by simp) (by simp) (by simp)
        ((l.filter (fun e => !skipsEntry g info g.GetRancherVersion e.1)).map
          (systemImageAction g)) c.SystemImages
      simp only [writesTo] at h0
      rw [h0, List.nil_append]
    have hk : GoMap.keys ((representatives g info g.GetRancherVersion l.keys []).map
        fun e => (e.2, ())) =
        (representatives g info g.GetRancherVersion l.keys []).map Prod.snd := by
      simp only [GoMap.keys, List.map_map]
      rfl
    rw [hlog, hlog, hlog, hw]
    simp only [settingsWrites, hm1, hm2, hk]
    cases sortStrings (representatives g info g.GetRancherVersion l.keys []).keys with
    | nil => simp [writesTo]
    | cons a as => simp [writesTo]


/-- C7 (witness): running version `2.5`, the major version `v1.18` closed at `2.2`, and the
entries `v1.18.9` and `v1.19.3`. The object of `v1.18.9` is persisted, the map of the loop
holds `v1.19.3` alone, and the three settings are written with `v1.19.3` alone. -/
theorem excluded_still_persisted_witness :
    ((Call.GetSystemImage sampleGlobalsJson25.GlobalNamespace "v1.18.9" ∈
        (saveSystemImages sampleGlobalsJson25 sampleSettings.recording (recording sampleStore)
          [("v1.18.9", "images"), ("v1.19.3", "images")] infoMax22
          [("v1.19", "options")] [] (sampleEmpty, [])).2.2 ∧
      ∃ obj,
        (saveSystemImages sampleGlobalsJson25 sampleSettings.recording (recording sampleStore)
          [("v1.18.9", "images"), ("v1.19.3", "images")] infoMax22
          [("v1.19", "options")] [] (sampleEmpty, [])).2.1.SystemImages
            (sampleGlobalsJson25.GlobalNamespace, "v1.18.9") = some obj ∧
        obj.SystemImages = "images") ∧
    ∃ m s', saveSystemImages.loop sampleGlobalsJson25 (recording sampleStore) infoMax22
        sampleGlobalsJson25.GetRancherVersion [("v1.18.9", "images"), ("v1.19.3", "images")] []
        (sampleEmpty, []) = (.ok m, s') ∧
      (∀ M, m.lookup M ≠ some "v1.18.9") ∧ "v1.18.9" ∉ m.map Prod.snd ∧
      (∀ value ∈ writesTo .KubernetesVersionsCurrent
          (saveSystemImages sampleGlobalsJson25 sampleSettings.recording
            (recording sampleStore) [("v1.18.9", "images"), ("v1.19.3", "images")] infoMax22
            [("v1.19", "options")] [] (sampleEmpty, [])).2.2,
        value = ",".intercalate (sortStrings (m.map Prod.snd))) ∧
      (∀ value ∈ writesTo .KubernetesVersionToSystemImages
          (saveSystemImages sampleGlobalsJson25 sampleSettings.recording
            (recording sampleStore) [("v1.18.9", "images"), ("v1.19.3", "images")] infoMax22
            [("v1.19", "options")] [] (sampleEmpty, [])).2.2,
        sampleGlobalsJson25.marshalCurrVersions (m.map fun e => (e.2, ())) = .ok value) ∧
      (∀ value ∈ writesTo .KubernetesVersionToServiceOptions
          (saveSystemImages sampleGlobalsJson25 sampleSettings.recording
            (recording sampleStore) [("v1.18.9", "images"), ("v1.19.3", "images")] infoMax22
            [("v1.19", "options")] [] (sampleEmpty, [])).2.2,
        sampleGlobalsJson25.marshalSvcOptions
            (m.map fun e => (e.2, (List.lookup e.1 [("v1.19", "options")]).getD default)) =
          .ok value) ∧
      (∀ d1 d2, sampleGlobalsJson25.marshalCurrVersions (m.map fun e => (e.2, ())) = .ok d1 →
        sampleGlobalsJson25.marshalSvcOptions
            (m.map fun e => (e.2, (List.lookup e.1 [("v1.19", "options")]).getD default)) =
          .ok d2 →
        writesTo .KubernetesVersionToSystemImages
            (saveSystemImages sampleGlobalsJson25 sampleSettings.recording
              (recording sampleStore) [("v1.18.9", "images"), ("v1.19.3", "images")] infoMax22
              [("v1.19", "options")] [] (sampleEmpty, [])).2.2 = [d1] ∧
        writesTo .KubernetesVersionsCurrent
            (saveSystemImages sampleGlobalsJson25 sampleSettings.recording
              (recording sampleStore) [("v1.18.9", "images"), ("v1.19.3", "images")] infoMax22
              [("v1.19", "options")] [] (sampleEmpty, [])).2.2 =
          [",".intercalate (sortStrings (m.map Prod.snd))] ∧
        writesTo .KubernetesVersionToServiceOptions
            (saveSystemImages sampleGlobalsJson25 sampleSettings.recording
              (recording sampleStore) [("v1.18.9", "images"), ("v1.19.3", "images")] infoMax22
              [("v1.19", "options")] [] (sampleEmpty, [])).2.2 = [d2])) ∧
    writesTo .KubernetesVersionToSystemImages
        (saveSystemImages sampleGlobalsJson25 sampleSettings.recording (recording sampleStore)
          [("v1.18.9", "images"), ("v1.19.3", "images")] infoMax22
          [("v1.19", "options")] [] (sampleEmpty, [])).2.2 =
      ["\x7b\x22v1.19.3\x22:null\x7d"] ∧
    writesTo .KubernetesVersionsCurrent
        (saveSystemImages sampleGlobalsJson25 sampleSettings.recording (recording sampleStore)
          [("v1.18.9", "images"), ("v1.19.3", "images")] infoMax22
          [("v1.19", "options")] [] (sampleEmpty, [])).2.2 = ["v1.19.3"] ∧
    writesTo .KubernetesVersionToServiceOptions
        (saveSystemImages sampleGlobalsJson25 sampleSettings.recording (recording sampleStore)
          [("v1.18.9", "images"), ("v1.19.3", "images")] infoMax22
          [("v1.19", "options")] [] (sampleEmpty, [])).2.2 =
      ["\x7b\x22v1.19.3\x22:options\x7d"] :=
  ⟨excluded_still_persisted sampleGlobalsJson25 [("v1.18.9", "images"), ("v1.19.3", "images")]
      infoMax22 [("v1.19", "options")] [] sampleEmpty wellKeyed_empty (by decide) "v1.18.9"
      "images" (by decide) (by decide)
      { MinRancherVersion := "", MaxRancherVersion := "2.2", DeprecateRancherVersion := "" }
      (by decide) (by decide) (by decide),
    by decide, by decide, by decide⟩

end Kdm
